import Mathlib

/-!
Verification of xv: JPEG 2000 loader/saver shim (`xvjp2k.c`) and pop-up dialogs (`xvpopup.c`)

A shallow embedding of the parts of the two C files that the verified
properties talk about, followed by the theorems.

Conventions of the embedding
* C `long` is 64 bits and C `int` is 32 bits; a value is an `Int`.  Signed
  overflow is undefined in C: an overflowing multiplication of `LoadJP2K` and
  an overflowing `int` operation of `CenterMapFlexWindow` yield `none`.
  Where the code narrows a `long` to an `int` or reads an `int` as an unsigned
  number (`textval`), the embedding applies `wrapInt`; small counters and
  indices are plain integers.
* A C function that can abort (`assert`), fault (a store outside the
  allocated object, a division that C leaves undefined) or loop for ever
  returns `Option`; `none` stands for "does not return normally".
* Calls into the JasPer library and into Xlib are answered by an explicit
  environment record or event record.
-/

namespace XV

/-! ## Machine integers -/

/-- Value of a C `int` holding the mathematical integer `x` after 32-bit two's-complement wrap-around. -/
def wrapInt (x : Int) : Int := (x + 2 ^ 31) % 2 ^ 32 - 2 ^ 31

/-- Range of the C type `long`. -/
def isLong (x : Int) : Prop := -(2 ^ 63) ≤ x ∧ x < 2 ^ 63

/-- Range of the C type `int`. -/
def isInt (x : Int) : Prop := -(2 ^ 31) ≤ x ∧ x < 2 ^ 31

instance (x : Int) : Decidable (isLong x) := by unfold isLong; infer_instance

instance (x : Int) : Decidable (isInt x) := by unfold isInt; infer_instance

/-- C division `a / b` on `long`: truncation toward zero; undefined (here `none`) for a zero
divisor and for `LONG_MIN / -1`. -/
def cdivLong (a b : Int) : Option Int :=
  if b = 0 then none
  else if a = -(2 ^ 63) ∧ b = -1 then none
  else some (Int.tdiv a b)

/-- Conversion of a sample (`jas_seqent_t`) to `unsigned char` by the assignment `*dst = *src`. -/
def toByte (v : Int) : Nat := (v % 256).toNat

/-! ## `xvjp2k.c`: data model -/

/-- Contents of a `jas_matrix_t` after a read: entry at row `y`, column `x`. -/
abbrev JasMatrix := Nat → Nat → Int

/-- What `LoadJP2K` asks of a decoded `jas_image_t`. -/
structure JasImage where
  /-- Result of `jas_image_width(img)`. -/
  width : Int
  /-- Result of `jas_image_height(img)`. -/
  height : Int
  /-- Result of `jas_image_numcmpts(img)`. -/
  numcmpts : Int
  /-- Result of `jas_clrspc_isunknown(jas_image_clrspc(img))`. -/
  clrspcUnknown : Bool
  /-- Result of `jas_clrspc_fam(jas_image_clrspc(img))`. -/
  clrspcFam : Int
  /-- Result of `jas_image_cmptprec(img, c)`. -/
  cmptprec : Int → Int
  /-- Outcome of `jas_image_readcmpt(img, c, 0, 0, width, height, data)`:
  `none` for a non-zero return, otherwise the matrix it filled. -/
  readcmpt : Nat → Option JasMatrix

/-- JasPer colour-space family of grey images (`JAS_CLRSPC_FAM_GRAY`). -/
def JAS_CLRSPC_FAM_GRAY : Int := 3

/-- JasPer colour-space family of RGB images (`JAS_CLRSPC_FAM_RGB`). -/
def JAS_CLRSPC_FAM_RGB : Int := 4

/-- Answers of the C library and of JasPer to the calls `LoadJP2K` makes. -/
structure LoadEnv where
  /-- Whether `xv_fopen(fname, "rb")` returned a file. -/
  fopenOk : Bool
  /-- Whether the JasPer stream could be opened (and, before JasPer 3, filled). -/
  streamOk : Bool
  /-- Whether `jas_image_lookupfmtbyname` found the format (`assert(fmtinfo)`). -/
  fmtFound : Bool
  /-- Result of `jas_image_decode`. -/
  decoded : Option JasImage
  /-- Whether `jas_cmprof_createfromclrspc(JAS_CLRSPC_SRGB)` returned a profile. -/
  profileOk : Bool
  /-- Result of `jas_image_chclrspc` on the decoded image. -/
  converted : Option JasImage
  /-- Whether `malloc(bufsize)` returned memory. -/
  mallocOk : Bool
  /-- Whether `jas_matrix_create(height, width)` returned a matrix (`assert(data)`). -/
  matrixOk : Bool

/-- Picture kinds of `PICINFO.type` (`xv.h`). -/
inductive PicType where
  | PIC8
  | PIC24
  deriving DecidableEq, Repr

/-- Colour kinds of `PICINFO.colType` (`xv.h`). -/
inductive ColType where
  | F_FULLCOLOR
  | F_GREYSCALE
  | F_BWDITHER
  | F_REDUCED
  deriving DecidableEq, Repr

/-- File formats of `PICINFO.frmType`; only `F_JP2` is assigned here. -/
inductive FrmType where
  | F_JP2
  | F_OTHER
  deriving DecidableEq, Repr

/-- A pixel buffer obtained from `malloc`: one entry per byte, `none` while the byte
has never been stored to. -/
abbrev PicBuf := List (Option Nat)

/-- The fields of `PICINFO` that `LoadJP2K` assigns (`fullInfo` and `shrtInfo`, two
formatted messages, are left out).  `w`, `h`, `normw`, `normh` are C `int`s (they are
printed with `%d`); `r`, `g`, `b` are `byte[256]` colour maps. -/
structure PICINFO where
  pic : Option PicBuf
  w : Int
  h : Int
  type : PicType
  r : Nat → Nat
  g : Nat → Nat
  b : Nat → Nat
  normw : Int
  normh : Int
  frmType : FrmType
  colType : ColType

/-! ## `LoadJP2K` -/

/-- The `long` product `a * b`.  Signed overflow is undefined in C: the result is `none`
when the product does not fit. -/
def mulLong (a b : Int) : Option Int := if isLong (a * b) then some (a * b) else none

/-- The statement `npixels = w * h;` (C `long`): `none` when the multiplication
overflows. -/
def npixelsOf (w h : Int) : Option Int := mulLong w h

/-- The statements `npixels = w * h; bufsize = vstride * npixels;` (C `long`): the value of
`bufsize`, `none` when one of the two multiplications overflows. -/
def bufsizeOf (w h vstride : Int) : Option Int :=
  match npixelsOf w h with
  | none => none
  | some npixels => mulLong vstride npixels

/-- The test `w <= 0 || h <= 0 || npixels / w != h || bufsize / vstride != npixels`,
evaluated left to right with short-circuit on the values the two multiplications have
produced.  `some true`: the image is rejected; `none`: a division C leaves undefined was
evaluated. -/
def dimsTest (w h vstride npixels bufsize : Int) : Option Bool :=
  if w ≤ 0 then some true
  else if h ≤ 0 then some true
  else
    match cdivLong npixels w with
    | none => none
    | some q =>
      if q ≠ h then some true
      else
        match cdivLong bufsize vstride with
        | none => none
        | some q2 => some (decide (q2 ≠ npixels))

/-- The block under the comment "avoid buffer overflow": the two multiplications followed
by the rejection test.  `some true`: the image is rejected; `some false`: it is not;
`none`: the behaviour is undefined, because a multiplication has overflowed before the
test is made (the test cannot make up for that: a compiler may take it that no overflow
has taken place and drop the two divisions) or because of the division. -/
def badDims (w h vstride : Int) : Option Bool :=
  match npixelsOf w h with
  | none => none
  | some npixels =>
    match mulLong vstride npixels with
    | none => none
    | some bufsize => dimsTest w h vstride npixels bufsize

/-- The loop `i = 256; while (--i >= 0) pinfo->r[i] = pinfo->g[i] = pinfo->b[i] = i;`
with `k` the value of `i` before the next `--i`. -/
def greyRamp : Nat → PICINFO → PICINFO
  | 0, p => p
  | i + 1, p =>
    greyRamp i { p with
      r := Function.update p.r i i
      g := Function.update p.g i i
      b := Function.update p.b i i }

/-- Outcome of the `switch (vstride)` block of `LoadJP2K`. -/
inductive SwitchOutcome where
  /-- Some `ret = 0; goto done;` was taken. -/
  | reject (p : PICINFO)
  /-- The block fell through to the allocation, with the image now in `img`. -/
  | pass (img : JasImage) (p : PICINFO)

/-- The `switch (vstride)` block: colour-space and precision checks. -/
def checkCmpts (env : LoadEnv) (img : JasImage) (vstride : Int) (p : PICINFO) : SwitchOutcome :=
  if vstride = 1 then
    if !img.clrspcUnknown && img.clrspcFam ≠ JAS_CLRSPC_FAM_GRAY then .reject p
    else if img.cmptprec 0 ≠ 8 then .reject p
    else
      .pass img (greyRamp 256 { p with type := .PIC8, colType := .F_GREYSCALE })
  else if vstride = 3 then
    if img.clrspcUnknown then .reject p
    else
      let conv : Option JasImage :=
        if img.clrspcFam ≠ JAS_CLRSPC_FAM_RGB then
          (if !env.profileOk then none else env.converted)
        else some img
      match conv with
      | none => .reject p
      | some img2 =>
        if img2.cmptprec 0 ≠ 8 then .reject p
        else .pass img2 { p with type := .PIC24, colType := .F_FULLCOLOR }
  else .reject p

/-- The store `*dst = v` into the malloc'ed buffer; `none` when `dst` is outside it. -/
def poke (pic : PicBuf) (dst : Nat) (v : Nat) : Option PicBuf :=
  if dst < pic.length then some (pic.set dst (some v)) else none

/-- The loop `for (xx = 0; xx < width; ++xx) { *dst = *src; ++src; dst += num_comps; }`:
`k` iterations remain, `src` is the matrix row and `xx` the current column. -/
def loadCopyRow (src : Nat → Int) (num_comps : Nat) : Nat → Nat → Nat → PicBuf → Option (Nat × PicBuf)
  | 0, _, dst, pic => some (dst, pic)
  | k + 1, xx, dst, pic =>
    match poke pic dst (toByte (src xx)) with
    | none => none
    | some pic2 => loadCopyRow src num_comps k (xx + 1) (dst + num_comps) pic2

/-- The loop `for (yy = 0; yy < height; ++yy) { src = jas_matrix_getvref(data, yy); ... }`:
`k` rows remain and `yy` is the current row. -/
def loadCopyRows (data : JasMatrix) (num_comps width : Nat) : Nat → Nat → Nat → PicBuf → Option (Nat × PicBuf)
  | 0, _, dst, pic => some (dst, pic)
  | k + 1, yy, dst, pic =>
    match loadCopyRow (data yy) num_comps width 0 dst pic with
    | none => none
    | some (dst2, pic2) => loadCopyRows data num_comps width k (yy + 1) dst2 pic2

/-- The loop `for (comp_ind = 0; comp_ind < num_comps; ++comp_ind)`: `k` components remain.
The Boolean is `false` when `jas_image_readcmpt` failed (`ret = 0; goto done;`). -/
def loadCopyCmpts (img : JasImage) (num_comps width height : Nat) : Nat → Nat → PicBuf → Option (Bool × PicBuf)
  | 0, _, pic => some (true, pic)
  | k + 1, comp_ind, pic =>
    match img.readcmpt comp_ind with
    | none => some (false, pic)
    | some data =>
      match loadCopyRows data num_comps width height 0 comp_ind pic with
      | none => none
      | some (_, pic2) => loadCopyCmpts img num_comps width height k (comp_ind + 1) pic2

/-- The tail of `LoadJP2K` from `malloc(bufsize)` to `done:`, entered with the image `img2`
left by the `switch` and the `long` values `w`, `h`, `bufsize` and the `int` `vstride`. -/
def loadPixels (env : LoadEnv) (img2 : JasImage) (w h vstride bufsize : Int) (p2 : PICINFO) :
    Option (Int × PICINFO) :=
  if !env.mallocOk then some (0, { p2 with pic := none })
  else
    let p3 := { p2 with frmType := .F_JP2 }
    let num_comps := vstride
    let width := wrapInt w
    let height := wrapInt h
    if !env.matrixOk then none
    else
      match loadCopyCmpts img2 num_comps.toNat width.toNat height.toNat num_comps.toNat 0
          (List.replicate bufsize.toNat none) with
      | none => none
      | some (false, pic) => some (0, { p3 with pic := some pic })
      | some (true, pic) => some (1, { p3 with pic := some pic })

/-- The part of `LoadJP2K` that follows a successful `jas_image_decode`. -/
def loadDecoded (env : LoadEnv) (img : JasImage) (pinfo : PICINFO) : Option (Int × PICINFO) :=
  let w := img.width
  let h := img.height
  let vstride := img.numcmpts
  match bufsizeOf w h vstride with
  | none => none
  | some bufsize =>
    match badDims w h vstride with
    | none => none
    | some true => some (0, pinfo)
    | some false =>
      let p1 := { pinfo with w := wrapInt w, normw := wrapInt w, h := wrapInt h, normh := wrapInt h }
      match checkCmpts env img vstride p1 with
      | .reject p2 => some (0, p2)
      | .pass img2 p2 => loadPixels env img2 w h vstride bufsize p2

/-- The function `LoadJP2K`: the return value and the final `*pinfo`; `none` when the run
does not return or is undefined (failed `assert`, overflow of a `long` multiplication,
undefined division, store outside the buffer). -/
def LoadJP2K (env : LoadEnv) (pinfo : PICINFO) : Option (Int × PICINFO) :=
  if !env.fopenOk then some (0, pinfo)
  else if !env.streamOk then some (0, pinfo)
  else if !env.fmtFound then none
  else
    match env.decoded with
    | none => some (0, pinfo)
    | some img => loadDecoded env img pinfo

/-- The return value of a run of `LoadJP2K`, when it returns. -/
def retOf (r : Option (Int × PICINFO)) : Option Int := r.map Prod.fst

/-! ## `StoreJP2K`: the colour copy loops -/

/-- The loop `for (x = 0; x < w; ++x) { *dst = *src; ++dst; src += num_comps; }` of
`StoreJP2K`: `k` iterations remain, `x` is the current column of the matrix row `row`,
`src` the current index into `pic`.  `none` when `src` is read outside `pic`. -/
def storeCopyRow (pic : List Nat) (num_comps : Nat) : Nat → Nat → Nat → (Nat → Int) → Option (Nat × (Nat → Int))
  | 0, _, src, row => some (src, row)
  | k + 1, x, src, row =>
    match pic[src]? with
    | none => none
    | some v => storeCopyRow pic num_comps k (x + 1) (src + num_comps) (Function.update row x (v : Int))

/-- The loop `for (y = 0; y < h; ++y) { dst = jas_matrix_getvref(data, y); ... }` of
`StoreJP2K`: `k` rows remain and `y` is the current row of `data`. -/
def storeCopyRows (pic : List Nat) (num_comps w : Nat) : Nat → Nat → Nat → JasMatrix → Option (Nat × JasMatrix)
  | 0, _, src, data => some (src, data)
  | k + 1, y, src, data =>
    match storeCopyRow pic num_comps w 0 src (data y) with
    | none => none
    | some (src2, row) => storeCopyRows pic num_comps w k (y + 1) src2 (Function.update data y row)

/-- The loop `for (comp_ind = 0; comp_ind < num_comps; ++comp_ind)` of the colour branch of
`StoreJP2K`: `k` components remain; `writeOk c` tells whether `jas_image_writecmpt` for
component `c` returned 0.  The result lists the matrices handed to `jas_image_writecmpt`
so far (`planes`, in component order) and whether every write succeeded. -/
def storeCopyCmpts (pic : List Nat) (writeOk : Nat → Bool) (num_comps w h : Nat) :
    Nat → Nat → JasMatrix → List JasMatrix → Option (Bool × List JasMatrix)
  | 0, _, _, planes => some (true, planes)
  | k + 1, comp_ind, data, planes =>
    match storeCopyRows pic num_comps w h 0 comp_ind data with
    | none => none
    | some (_, data2) =>
      if !writeOk comp_ind then some (false, planes ++ [data2])
      else storeCopyCmpts pic writeOk num_comps w h k (comp_ind + 1) data2 (planes ++ [data2])

/-- The colour branch (`num_comps == 3`) of `StoreJP2K` between `jas_matrix_create(h, w)` and
`jas_image_encode`, for the picture `pic` of `int` size `w` by `h`. -/
def storeColourPlanes (pic : List Nat) (writeOk : Nat → Bool) (w h : Int) : Option (Bool × List JasMatrix) :=
  storeCopyCmpts pic writeOk 3 w.toNat h.toNat 3 0 (fun _ _ => 0) []

/-- An 8-bit RGB image whose component `c` is read back by `jas_image_readcmpt` as
`planes[c]` (the read fails for a component that was never written). -/
def planesImage (planes : List JasMatrix) (num_comps width height : Int) : JasImage :=
  { width := width, height := height, numcmpts := num_comps, clrspcUnknown := false,
    clrspcFam := JAS_CLRSPC_FAM_RGB, cmptprec := fun _ => 8, readcmpt := fun c => planes[c]? }

/-- The copy loops of `LoadJP2K` run on a fresh buffer of `bufsize` bytes, for the image
`planesImage planes num_comps width height`. -/
def loadPlanes (planes : List JasMatrix) (num_comps width height : Int) (bufsize : Int) :
    Option (Bool × PicBuf) :=
  loadCopyCmpts (planesImage planes num_comps width height)
    num_comps.toNat width.toNat height.toNat num_comps.toNat 0 (List.replicate bufsize.toNat none)

/-! ## Sample inputs -/

/-- Plane `c` of a 2-by-2 test image: the sample at row `y`, column `x`. -/
def demoPlane (c : Nat) : JasMatrix := fun y x => ((10 * (c + 1) + 2 * y + x : Nat) : Int)

/-- A decoded 2-by-2 RGB image whose three components have the precisions `prec 0`,
`prec 1`, `prec 2`. -/
def demoImage (prec : Int → Int) : JasImage :=
  { width := 2, height := 2, numcmpts := 3, clrspcUnknown := false,
    clrspcFam := JAS_CLRSPC_FAM_RGB, cmptprec := prec,
    readcmpt := fun c => if c < 3 then some (demoPlane c) else none }

/-- A decoded 1-component grey image of the given size, every sample being 7. -/
def demoGrey (width height : Int) : JasImage :=
  { width := width, height := height, numcmpts := 1, clrspcUnknown := false,
    clrspcFam := JAS_CLRSPC_FAM_GRAY, cmptprec := fun _ => 8,
    readcmpt := fun c => if c < 1 then some (fun _ _ => 7) else none }

/-- An environment in which every library call succeeds and `jas_image_decode` returns `img`. -/
def demoEnv (img : JasImage) : LoadEnv :=
  { fopenOk := true, streamOk := true, fmtFound := true, decoded := some img,
    profileOk := true, converted := none, mallocOk := true, matrixOk := true }

/-- The `PICINFO` a caller passes in: nothing loaded yet. -/
def demoPinfo : PICINFO :=
  { pic := none, w := 0, h := 0, type := .PIC8, r := fun _ => 0, g := fun _ => 0,
    b := fun _ => 0, normw := 0, normh := 0, frmType := .F_OTHER, colType := .F_FULLCOLOR }

/-- The 2-by-2 test image as the 12 interleaved bytes of a 24-bit XV picture. -/
def demoPic : List Nat := [10, 20, 30, 11, 21, 31, 12, 22, 32, 13, 23, 33]

/-- Values `popUp` can take: a confirm box. -/
def ISPOPUP : Int := 1

/-- Values `popUp` can take: an alert. -/
def ISALERT : Int := 2

/-- Values `popUp` can take: a text-entry box. -/
def ISGETSTR : Int := 3

/-- Values `popUp` can take: the grab dialog. -/
def ISGRAB : Int := 4

/-- Values `popUp` can take: the pad dialog. -/
def ISPAD : Int := 5

/-- Pad methods (`xv.h`), in the order of `padMthdNames`. -/
def PAD_SOLID : Int := 0

/-- Pad methods (`xv.h`), in the order of `padMthdNames`. -/
def PAD_BGGEN : Int := 1

/-- Pad methods (`xv.h`), in the order of `padMthdNames`. -/
def PAD_LOAD : Int := 2

/-- Pad opacity modes (`xv.h`), in the order of `padOMStr`: the first one. -/
def PAD_ORGB : Int := 0

/-- The X11 constant `Button1`. -/
def Button1 : Int := 1

/-- The geometry fields `x`, `y`, `w`, `h` of a `BUTT`, as `BTCreate` stores them. -/
structure BUTT where
  x : Int
  y : Int
  w : Int
  h : Int
  deriving DecidableEq, Repr

/-- Constants and library functions `xvpopup.c` takes from `xv.h`, from `bits/icon` and
from Xlib. -/
structure XEnv where
  /-- The global `dpiMult`. -/
  dpiMult : Int
  /-- The constant `icon_width` of `bits/icon`. -/
  icon_width : Int
  /-- The constant `PAD_OMAX` of `xv.h`. -/
  PAD_OMAX : Int
  /-- The macro `PTINRECT(px, py, rx, ry, rw, rh)` of `xv.h`. -/
  PTINRECT : Int → Int → Int → Int → Int → Int → Bool
  /-- Width in pixels of one character in the font `mfinfo`; `XTextWidth` adds these up. -/
  charWidth : Int → Nat
  /-- Whether `CreateWindow` returns a window for the pop-up. -/
  createOk : Bool
  /-- Whether `malloc` returns memory for the buttons. -/
  mallocOk : Bool
  /-- The window `CreateWindow` returns for `popW`. -/
  newPopW : Int
  /-- The window `DCreate` gives to `padWDial`. -/
  newPadWWin : Int
  /-- The window `DCreate` gives to `padHDial`. -/
  newPadHWin : Int
  /-- The window `DCreate` gives to `padODial`. -/
  newPadOWin : Int

/-- The file-scope variables of `xvpopup.c` (those that only serve drawing are left out). -/
structure PopState where
  popW : Int
  nbts : Int
  selected : Int
  popUp : Int
  firsttime : Bool
  puwide : Int
  puhigh : Int
  bts : List BUTT
  /-- The array `char accel[8]`. -/
  accel : List Int
  gsBuf : List Int
  gsFilter : Option (List Int)
  gsBufLen : Int
  gsAllow : Int
  gsCurPos : Int
  gsStPos : Int
  gsEnPos : Int
  gsw : Int
  padSbuf : List Int
  padBbuf : List Int
  padLbuf : List Int
  padBuf : List Int
  /-- The `static int firsttime` of `PadPopUp`. -/
  padFirsttime : Bool
  padHaveDooDads : Bool
  padMode : Int
  padOMode : Int
  padDButt : BUTT
  padOMButt : BUTT
  /-- The window `padWDial.win`. -/
  padWWin : Int
  /-- The window `padHDial.win`. -/
  padHWin : Int
  /-- The window `padODial.win`. -/
  padOWin : Int
  padColVals : List (List Int)
  padBgVals : List (List Int)
  padLoadVals : List (List Int)

/-- Results of `CursorKey(ks, shift, 0)` that `PUCheckEvent` tells apart. -/
inductive CursorKeyCode where
  | CK_NONE
  | CK_LEFT
  | CK_RIGHT
  | CK_OTHER
  deriving DecidableEq, Repr

/-- Event types `PUCheckEvent` tells apart. -/
inductive EvType where
  | Expose
  | ButtonPress
  | KeyPress
  | ClientMessage
  | Other
  deriving DecidableEq, Repr

/-- An `XEvent` together with the answers of the widget library while it is handled. -/
structure XEvent where
  type : EvType
  window : Int
  x : Int
  y : Int
  button : Int
  /-- Return value of `XLookupString(e, buf, 128, &ks, NULL)`. -/
  lookupLen : Int
  /-- Value of `stlen` after `RemapKeyCheck(ks, buf, &stlen)`. -/
  stlen : Int
  /-- Value of `buf[0]` after `RemapKeyCheck(ks, buf, &stlen)`. -/
  buf0 : Int
  /-- Result of `CursorKey(ks, shift, 0)`. -/
  ck : CursorKeyCode
  /-- Whether a `ClientMessage` is `WM_PROTOCOLS` / `WM_DELETE_WINDOW`. -/
  wmDelete : Bool
  /-- Result of `BTTrack(bp)` on the pop-up button under the pointer. -/
  btTrack : Bool
  /-- Result of `CBClick(&ahideCB, x, y)`. -/
  cbClick : Bool
  /-- Result of `BTTrack` on `padDButt` or `padOMButt`. -/
  padTrack : Bool
  /-- Result of `MBClick(&padMthdMB, x, y)`. -/
  mthdClick : Bool
  /-- Result of `MBClick(&padDfltMB, x, y)`. -/
  dfltClick : Bool
  /-- Result of `MBTrack` on the menu that was clicked. -/
  menuChoice : Int

/-- The macro `PUWIDE`. -/
def PUWIDE (env : XEnv) : Int := 480 * env.dpiMult

/-- The macro `PUHIGH`. -/
def PUHIGH (env : XEnv) : Int := 170 * env.dpiMult

/-- The macro `PAD_PUWIDE`. -/
def PAD_PUWIDE (env : XEnv) : Int := 480 * env.dpiMult

/-- The macro `PAD_PUHIGH`. -/
def PAD_PUHIGH (env : XEnv) : Int := 215 * env.dpiMult

/-- The macro `BUTTH` of `xvpopup.c`. -/
def BUTTH (env : XEnv) : Int := 24 * env.dpiMult

/-! ## C strings -/

/-- The function `strlen` on a `char` array: index of the first NUL; `none` when the array
holds no NUL (the scan leaves the array). -/
def strlen : List Int → Option Nat
  | [] => none
  | c :: cs => if c = 0 then some 0 else (strlen cs).map (· + 1)

/-- The function `bcopy(&buf[src], &buf[dst], n)` (overlap allowed): byte `dst + j` receives
the old byte `src + j` for `j < n`.  `none` when `n`, converted to `size_t`, or one of the
two ranges does not fit the array. -/
def bcopy (buf : List Int) (src dst n : Int) : Option (List Int) :=
  if n < 0 ∨ src < 0 ∨ dst < 0 ∨ (buf.length : Int) < src + n ∨ (buf.length : Int) < dst + n then none
  else
    some ((List.range buf.length).map (fun (i : Nat) =>
      if dst ≤ (i : Int) ∧ (i : Int) < dst + n then buf.getD (src + ((i : Int) - dst)).toNat 0
      else buf.getD i 0))

/-- The store `buf[i] = c`; `none` when `i` is outside the array. -/
def storeChar (buf : List Int) (i : Int) (c : Int) : Option (List Int) :=
  if 0 ≤ i ∧ i < (buf.length : Int) then some (buf.set i.toNat c) else none

/-- The function `strcpy(dst, src)`: `strlen(src) + 1` bytes are stored at the start of `dst`;
`none` when `src` holds no NUL or the bytes do not fit. -/
def strcpy (dst src : List Int) : Option (List Int) :=
  match strlen src with
  | none => none
  | some n => if n + 1 ≤ dst.length then some (src.take (n + 1) ++ dst.drop (n + 1)) else none

/-! ## The text field -/

/-- The call `XTextWidth(mfinfo, &buf[start], count)`: the widths of `count` characters
from index `start` added up (no character for `count <= 0`). -/
def XTextWidth (env : XEnv) (buf : List Int) (start count : Int) : Int :=
  ((((buf.drop start.toNat).take count.toNat).map env.charWidth).sum : Nat)

/-- The loop `while (XTextWidth(..., gsEnPos-gsStPos) < gsw - 6*dpiMult && gsEnPos < len)
gsEnPos++;` of `changedGSBuf`.  The first argument bounds the iterations; the caller passes
`len - gsEnPos`, after which `gsEnPos < len` is false. -/
def growEnPos (env : XEnv) (buf : List Int) (lim len st : Int) : Nat → Int → Int
  | 0, en => en
  | k + 1, en =>
    if XTextWidth env buf st (en - st) < lim ∧ en < len then growEnPos env buf lim len st k (en + 1)
    else en

/-- The loop `while (XTextWidth(..., gsEnPos-gsStPos) > gsw - 6*dpiMult)
{ if (gsEnPos != gsCurPos) gsEnPos--; else gsStPos++; }` of `changedGSBuf`.  The first
argument bounds the iterations; `none` when it is used up.  The caller passes
`gsEnPos - gsStPos + 1`: every iteration lowers `gsEnPos - gsStPos` by one and the width of
no characters is 0, so the bound is used up only when `gsw - 6*dpiMult < 0`, where the C
loop never ends. -/
def shrinkWindow (env : XEnv) (buf : List Int) (lim cur : Int) : Nat → Int → Int → Option (Int × Int)
  | 0, _, _ => none
  | k + 1, st, en =>
    if XTextWidth env buf st (en - st) > lim then
      (if en ≠ cur then shrinkWindow env buf lim cur k st (en - 1)
       else shrinkWindow env buf lim cur k (st + 1) en)
    else some (st, en)

/-- The function `changedGSBuf`: recomputes the displayed part `gsStPos .. gsEnPos`. -/
def changedGSBuf (env : XEnv) (s : PopState) : Option PopState :=
  match strlen s.gsBuf with
  | none => none
  | some n =>
    let len : Int := n
    let st1 := if s.gsCurPos < s.gsStPos then s.gsCurPos else s.gsStPos
    let en1 := if s.gsCurPos > s.gsEnPos then s.gsCurPos else s.gsEnPos
    let st2 := if st1 > len then (if len > 0 then len - 1 else 0) else st1
    let en2 := if en1 > len then (if len > 0 then len - 1 else 0) else en1
    let lim := s.gsw - 6 * env.dpiMult
    let en3 := growEnPos env s.gsBuf lim len st2 (len - en2).toNat en2
    match shrinkWindow env s.gsBuf lim s.gsCurPos ((en3 - st2).toNat + 1) st2 en3 with
    | none => none
    | some (st4, en4) => some { s with gsStPos := st4, gsEnPos := en4 }

/-- The loop `for (i=0; i<flen && c!=gsFilter[i]; i++);` of `doGSKey`: the final `i`. -/
def filterScan (c : Int) : List Int → Nat
  | [] => 0
  | f :: fs => if c ≠ f then filterScan c fs + 1 else 0

/-- The block `if (flen) { for (...); if (!gsAllow && i<flen) return 1;
if (gsAllow && i==flen) return 1; }` of `doGSKey`: whether one of its two `return 1` is
taken.  `flen` is `strlen(gsFilter)`, or 0 for a null `gsFilter`. -/
def filterRejects (s : PopState) (c : Int) : Bool :=
  let filter : List Int := s.gsFilter.getD []
  let flen : Nat := filter.length
  let i : Nat := filterScan c filter
  decide (flen ≠ 0 ∧ ((s.gsAllow = 0 ∧ i < flen) ∨ (s.gsAllow ≠ 0 ∧ i = flen)))

/-- The rest of the branch for a normal character: `if (len >= gsBufLen-1) return 1;
bcopy(&gsBuf[gsCurPos], &gsBuf[gsCurPos+1], (size_t) len-gsCurPos+1);
gsBuf[gsCurPos]=c; gsCurPos++;`. -/
def gsInsert (s : PopState) (len c : Int) : Option (Int × PopState) :=
  if len ≥ s.gsBufLen - 1 then some (1, s)
  else
    match bcopy s.gsBuf s.gsCurPos (s.gsCurPos + 1) (len - s.gsCurPos + 1) with
    | none => none
    | some b1 =>
      match storeChar b1 s.gsCurPos c with
      | none => none
      | some b2 => some (0, { s with gsBuf := b2, gsCurPos := s.gsCurPos + 1 })

/-- The branch for BS: `if (gsCurPos==0) return 1;
bcopy(&gsBuf[gsCurPos], &gsBuf[gsCurPos-1], (size_t) len-gsCurPos+1); gsCurPos--;`. -/
def gsBackspace (s : PopState) (len : Int) : Option (Int × PopState) :=
  if s.gsCurPos = 0 then some (1, s)
  else
    match bcopy s.gsBuf s.gsCurPos (s.gsCurPos - 1) (len - s.gsCurPos + 1) with
    | none => none
    | some b1 => some (0, { s with gsBuf := b1, gsCurPos := s.gsCurPos - 1 })

/-- The branch for ^U: `gsBuf[0] = 0; gsCurPos = 0;`. -/
def gsClearLine (s : PopState) : Option (Int × PopState) :=
  match storeChar s.gsBuf 0 0 with
  | none => none
  | some b1 => some (0, { s with gsBuf := b1, gsCurPos := 0 })

/-- The branch for ^K: `gsBuf[gsCurPos] = 0;`. -/
def gsKillToEnd (s : PopState) : Option (Int × PopState) :=
  match storeChar s.gsBuf s.gsCurPos 0 with
  | none => none
  | some b1 => some (0, { s with gsBuf := b1 })

/-- The branch for ^D and DEL: `if (gsCurPos==len) return 1;
bcopy(&gsBuf[gsCurPos+1], &gsBuf[gsCurPos], (size_t) len-gsCurPos);`. -/
def gsDelete (s : PopState) (len : Int) : Option (Int × PopState) :=
  if s.gsCurPos = len then some (1, s)
  else
    match bcopy s.gsBuf (s.gsCurPos + 1) s.gsCurPos (len - s.gsCurPos) with
    | none => none
    | some b1 => some (0, { s with gsBuf := b1 })

/-- The function `doGSKey` up to, but not including, the call of `changedGSBuf`:
`some (1, s)` for `return 1`, `some (0, s2)` when control reaches `changedGSBuf` with the
state `s2`. -/
def doGSEdit (s : PopState) (c : Int) : Option (Int × PopState) :=
  match strlen s.gsBuf with
  | none => none
  | some n =>
    let len : Int := n
    if 32 ≤ c ∧ c < 127 then
      (if filterRejects s c = true then some (1, s) else gsInsert s len c)
    else if c = 8 then gsBackspace s len
    else if c = 21 then gsClearLine s
    else if c = 11 then gsKillToEnd s
    else if c = 1 then some (0, { s with gsCurPos := 0 })
    else if c = 5 then some (0, { s with gsCurPos := len })
    else if c = 4 ∨ c = 127 then gsDelete s len
    else if c = 2 then
      (if s.gsCurPos = 0 then some (1, s) else some (0, { s with gsCurPos := s.gsCurPos - 1 }))
    else if c = 6 then
      (if s.gsCurPos = len then some (1, s) else some (0, { s with gsCurPos := s.gsCurPos + 1 }))
    else some (1, s)

/-- The function `doGSKey`: the return value and the new state.  After `changedGSBuf` the
function only redraws the field and sets buttons active or inactive. -/
def doGSKey (env : XEnv) (s : PopState) (c : Int) : Option (Int × PopState) :=
  match doGSEdit s c with
  | none => none
  | some (r, s2) =>
    if r ≠ 0 then some (r, s2)
    else
      match changedGSBuf env s2 with
      | none => none
      | some s3 => some (0, s3)

/-- The function `doGetStrKey`: `doGSKey`, with a bell when it returns non-zero. -/
def doGetStrKey (env : XEnv) (s : PopState) (c : Int) : Option PopState :=
  (doGSKey env s c).map Prod.snd

/-! ## Closing, clicking and event dispatch -/

/-- The function `CloseAlert`. -/
def CloseAlert (s : PopState) : PopState := { s with popUp := 0 }

/-- The function `ClosePopUp`. -/
def ClosePopUp (s : PopState) : PopState :=
  if s.popUp = ISALERT then CloseAlert s
  else if s.popUp = ISPOPUP then { s with popUp := 0, selected := s.nbts - 1 }
  else s

/-- The loop `for (i=0; i<nbts; i++) { bp = &bts[i]; if (PTINRECT(...)) break; }` of
`clickPUD`: `k` iterations remain and `i` is the current index; the result is the final `i`.
`none` when `bts[i]` lies outside the array of buttons. -/
def findButton (env : XEnv) (bts : List BUTT) (x y : Int) : Nat → Nat → Option Nat
  | 0, i => some i
  | k + 1, i =>
    match bts[i]? with
    | none => none
    | some bp =>
      if env.PTINRECT x y bp.x bp.y bp.w bp.h then some i
      else findButton env bts x y k (i + 1)

/-- The `switch (i)` of `clickPUD` after a choice in the method menu: `strcpy(padBuf, ...)`
from the buffer of the chosen method (nothing for another `i`).  In a pad dialog `gsBuf`
points to `padBuf`. -/
def padMethodCopy (s : PopState) (i : Int) : Option (List Int) :=
  if i = PAD_SOLID then strcpy s.gsBuf s.padSbuf
  else if i = PAD_BGGEN then strcpy s.gsBuf s.padBbuf
  else if i = PAD_LOAD then strcpy s.gsBuf s.padLbuf
  else some s.gsBuf

/-- The chain `if (padMode == PAD_SOLID) strcpy(padBuf, padColVals[i]); else if ...` of
`clickPUD` after a choice in the defaults menu; `none` also when entry `i` of the list does
not exist. -/
def padDefaultCopy (s : PopState) (i : Int) : Option (List Int) :=
  if s.padMode = PAD_SOLID then
    (match s.padColVals[i.toNat]? with
     | none => none
     | some v => strcpy s.gsBuf v)
  else if s.padMode = PAD_BGGEN then
    (match s.padBgVals[i.toNat]? with
     | none => none
     | some v => strcpy s.gsBuf v)
  else if s.padMode = PAD_LOAD then
    (match s.padLoadVals[i.toNat]? with
     | none => none
     | some v => strcpy s.gsBuf v)
  else some s.gsBuf

/-- The statements `gsCurPos = strlen(gsBuf); gsStPos = gsEnPos = 0; changedGSBuf();` of
`clickPUD`, run on the new contents `b` of the buffer. -/
def padRetarget (env : XEnv) (s : PopState) (b : List Int) : Option PopState :=
  match strlen b with
  | none => none
  | some n => changedGSBuf env { s with gsBuf := b, gsCurPos := n, gsStPos := 0, gsEnPos := 0 }

/-- The part of `clickPUD` that handles a click in the pad dialog (`popUp == ISPAD`).  The
dials, which the first button resets, are not part of the state.  The remainder
`(padOMode + 1) % PAD_OMAX` is undefined for `PAD_OMAX == 0`. -/
def clickPad (env : XEnv) (s : PopState) (xev : XEvent) (x y : Int) : Option PopState :=
  if env.PTINRECT x y s.padDButt.x s.padDButt.y s.padDButt.w s.padDButt.h then some s
  else if env.PTINRECT x y s.padOMButt.x s.padOMButt.y s.padOMButt.w s.padOMButt.h then
    (if xev.padTrack then
       (if env.PAD_OMAX = 0 then none
        else some { s with padOMode := Int.tmod (s.padOMode + 1) env.PAD_OMAX })
     else some s)
  else if xev.mthdClick then
    let i := xev.menuChoice
    if i < 0 ∨ i = s.padMode then some s
    else
      match padMethodCopy s i with
      | none => none
      | some b =>
        match padRetarget env s b with
        | none => none
        | some s2 => some { s2 with padMode := i }
  else if xev.dfltClick then
    let i := xev.menuChoice
    if i < 0 then some s
    else
      match padDefaultCopy s i with
      | none => none
      | some b => padRetarget env s b
  else some s

/-- The function `clickPUD(x, y)`. -/
def clickPUD (env : XEnv) (s : PopState) (xev : XEvent) (x y : Int) : Option PopState :=
  match findButton env s.bts x y s.nbts.toNat 0 with
  | none => none
  | some i =>
    if (i : Int) < s.nbts ∧ xev.btTrack = true then some { s with popUp := 0, selected := i }
    else if s.popUp = ISGRAB ∧ xev.cbClick = true then some s
    else if s.popUp = ISPAD then clickPad env s xev x y
    else some s

/-- Whether the pop-up has a text field (`popUp==ISGETSTR || popUp==ISGRAB || popUp==ISPAD`). -/
def hasTextField (s : PopState) : Bool :=
  decide (s.popUp = ISGETSTR ∨ s.popUp = ISGRAB ∨ s.popUp = ISPAD)

/-- Whether the event window is one of the three dials of an open pad dialog. -/
def onPadDial (s : PopState) (xev : XEvent) : Bool :=
  decide (s.popUp = ISPAD ∧ s.padHaveDooDads = true ∧
    (xev.window = s.padWWin ∨ xev.window = s.padHWin ∨ xev.window = s.padOWin))

/-- The loop `for (i=0; i<nbts; i++) if (buf[0] == accel[i] && buf[0] != ' ') { ...; rv = 1; }`
of `PUCheckEvent`: whether some accelerator matched. -/
def accelHit (accel : List Int) (nbts : Int) (c : Int) : Bool :=
  (List.range nbts.toNat).any (fun i => decide (c = accel.getD i 0 ∧ c ≠ 32))

/-- The cursor-key block of the `KeyPress` branch of `PUCheckEvent`:
`if (popUp==ISGETSTR || popUp==ISGRAB || popUp==ISPAD) { if (ck==CK_LEFT) { doGetStrKey('\002');
rv = 1; } else if (ck==CK_RIGHT) { doGetStrKey('\006'); rv = 1; } }`: the value of `rv` and
the state after it. -/
def keyCursor (env : XEnv) (s : PopState) (xev : XEvent) : Option (Int × PopState) :=
  if hasTextField s = true then
    (if xev.ck = .CK_LEFT then (doGetStrKey env s 2).map (fun s2 => (1, s2))
     else if xev.ck = .CK_RIGHT then (doGetStrKey env s 6).map (fun s2 => (1, s2))
     else some (0, s))
  else some (0, s)

/-- The block `if (stlen && !rv) { ... }` of the `KeyPress` branch of `PUCheckEvent`, entered
with `rv = rv1`: accelerator keys, ESC in a one-button pop-up, then the text field.
`FakeButtonPress` only queues a synthetic `ButtonPress` event and changes no variable of
this module. -/
def keyChar (env : XEnv) (s : PopState) (rv1 : Int) (xev : XEvent) : Option (Int × PopState) :=
  if xev.stlen ≠ 0 ∧ rv1 = 0 then
    let c := if xev.buf0 = 13 then 10 else xev.buf0
    if accelHit s.accel s.nbts c = true then some (1, s)
    else if c = 27 ∧ s.nbts = 1 then some (1, s)
    else if hasTextField s = true then
      (if xev.window = s.popW then (doGetStrKey env s c).map (fun s2 => (1, s2))
       else some (0, s))
    else some (0, s)
  else some (rv1, s)

/-- The `KeyPress` branch of `PUCheckEvent`: the value of `rv` at its end and the state.
`buf[stlen] = 0` stores outside `char buf[128]` when `XLookupString` returned 128. -/
def keyPress (env : XEnv) (s : PopState) (xev : XEvent) : Option (Int × PopState) :=
  if xev.lookupLen < 0 ∨ 128 ≤ xev.lookupLen then none
  else
    match keyCursor env s xev with
    | none => none
    | some (rv1, s1) =>
      match keyChar env s1 rv1 xev with
      | none => none
      | some (rv2, s2) => if xev.stlen = 0 then some (1, s2) else some (rv2, s2)

/-- The chain `if (xev->type == Expose) ... else if (xev->type == ButtonPress) ... else if
(xev->type == KeyPress) ... else if (xev->type == ClientMessage) ...` of `PUCheckEvent`: the
value of `rv` after it and the state. -/
def puBranch (env : XEnv) (s : PopState) (xev : XEvent) : Option (Int × PopState) :=
  match xev.type with
  | .Expose =>
    if xev.window = s.popW then some (1, s)
    else if onPadDial s xev = true then some (1, s)
    else some (0, s)
  | .ButtonPress =>
    if xev.button = Button1 then
      (if xev.window = s.popW then (clickPUD env s xev xev.x xev.y).map (fun s2 => (1, s2))
       else if onPadDial s xev = true then some (1, s)
       else some (0, s))
    else some (0, s)
  | .KeyPress => keyPress env s xev
  | .ClientMessage =>
    if xev.wmDelete = true ∧ xev.window = s.popW then
      (match s.bts[(if s.nbts > 1 then s.nbts - 1 else 0).toNat]? with
       | none => none
       | some _ => some (1, s))
    else some (0, s)
  | .Other => some (0, s)

/-- The function `PUCheckEvent`: the return value and the state after the call. -/
def PUCheckEvent (env : XEnv) (s : PopState) (xev : XEvent) : Option (Int × PopState) :=
  if s.popUp = 0 then some (0, s)
  else
    match puBranch env s xev with
    | none => none
    | some (rv, s2) =>
      if rv = 0 ∧ (xev.type = .KeyPress ∨ xev.type = .ButtonPress) then some (1, s2)
      else some (rv, s2)

/-! ## Opening a pop-up -/

/-- What one call of `HandleEvent` (in `xvevent.c`, not part of these sources) does to this
module while a pop-up is up: it hands the event to `PUCheckEvent`, or some handler it runs
calls `ClosePopUp` or `CloseAlert`, or the event concerns another part of XV. -/
inductive HStep where
  | event (xev : XEvent)
  | closePopUp
  | closeAlert
  | other

/-- The effect of one `HandleEvent` call on the state. -/
def handleStep (env : XEnv) (s : PopState) : HStep → Option PopState
  | .event xev => (PUCheckEvent env s xev).map Prod.snd
  | .closePopUp => some (ClosePopUp s)
  | .closeAlert => some (CloseAlert s)
  | .other => some s

/-- The function `createPUD`. -/
def createPUD (env : XEnv) (s : PopState) : Option PopState :=
  if !env.createOk then none
  else some { s with popW := env.newPopW, bts := [], nbts := 0, selected := 0, firsttime := false }

/-- The loop `for (i=0; i<n; i++) { BTCreate(&bts[i], ...); accel[i] = labels[i][0]; }` of
`doPopUp`: `k` iterations remain.  `labels` lists the first character of every label.
`none` when `labels[i]` or `accel[i]` lies outside its array. -/
def makeButtons (env : XEnv) (labels : List Int) (n puwide puhigh : Int) :
    Nat → Nat → List BUTT → List Int → Option (List BUTT × List Int)
  | 0, _, bts, accel => some (bts, accel)
  | k + 1, i, bts, accel =>
    match labels[i]? with
    | none => none
    | some l =>
      if i < accel.length then
        makeButtons env labels n puwide puhigh k (i + 1)
          (bts ++ [{ x := puwide - (n - i) * (80 + 10) * env.dpiMult,
                     y := puhigh - 10 * env.dpiMult - BUTTH env,
                     w := 80 * env.dpiMult, h := BUTTH env }])
          (accel.set i l)
      else none

/-- The statement `if (poptyp != ISPAD) { puwide = PUWIDE; puhigh = PUHIGH; } else { puwide =
PAD_PUWIDE; puhigh = PAD_PUHIGH; }` of `doPopUp`. -/
def setPopSize (env : XEnv) (s : PopState) (poptyp : Int) : PopState :=
  if poptyp ≠ ISPAD then { s with puwide := PUWIDE env, puhigh := PUHIGH env }
  else { s with puwide := PAD_PUWIDE env, puhigh := PAD_PUHIGH env }

/-- The block `if (!padHaveDooDads) { DCreate(...); ...; BTCreate(&padDButt, ...);
BTCreate(&padOMButt, ...); padHaveDooDads = 1; }` that `doPopUp` runs for `poptyp == ISPAD`:
the dial windows and the geometry of the two small buttons (`padHDial` is created at
`x = (16+1+75)*dpiMult`, `padODial` at `x = (16+1+75+75+9)*dpiMult`, both `75*dpiMult` wide). -/
def makePadDooDads (env : XEnv) (s : PopState) (poptyp : Int) : PopState :=
  if poptyp = ISPAD ∧ s.padHaveDooDads = false then
    { s with
      padWWin := env.newPadWWin, padHWin := env.newPadHWin, padOWin := env.newPadOWin,
      padDButt := { x := (16 + 1 + 75) * env.dpiMult + 75 * env.dpiMult - 12 * env.dpiMult,
                    y := s.puhigh - 140 * env.dpiMult + 6 * env.dpiMult,
                    w := 13 * env.dpiMult, h := 13 * env.dpiMult },
      padOMButt := { x := (16 + 1 + 75 + 75 + 9) * env.dpiMult + 75 * env.dpiMult
                          - 12 * env.dpiMult,
                     y := s.puhigh - 140 * env.dpiMult + 6 * env.dpiMult,
                     w := 13 * env.dpiMult, h := 13 * env.dpiMult },
      padHaveDooDads := true }
  else s

/-- The statements of `doPopUp` from `bts = malloc(...)` to `popUp = poptyp`: a failed
`malloc` ends in `FatalError`; for `ISGRAB` and `ISPAD` the buttons are made active
according to `strlen(gsBuf)`. -/
def openButtons (env : XEnv) (s : PopState) (labels : List Int) (n poptyp : Int) :
    Option PopState :=
  if !env.mallocOk then none
  else
    match makeButtons env labels n s.puwide s.puhigh n.toNat 0 [] s.accel with
    | none => none
    | some (bts, accel) =>
      if (poptyp = ISGRAB ∨ poptyp = ISPAD) ∧ strlen s.gsBuf = none then none
      else some { s with bts := bts, nbts := n, selected := 0, accel := accel, popUp := poptyp }

/-- The function `doPopUp` up to and including `popUp = poptyp` (the window is then
mapped, which changes no variable of this module). -/
def doPopUpOpen (env : XEnv) (s : PopState) (labels : List Int) (n poptyp : Int) :
    Option PopState :=
  match (if s.firsttime then createPUD env s else some s) with
  | none => none
  | some s1 => openButtons env (makePadDooDads env (setPopSize env s1 poptyp) poptyp) labels n poptyp

/-- The loop `while (popUp) { XtAppNextEvent(context, &event); HandleEvent(&event, &i); }` of
`doPopUp`, run on the sequence of `HandleEvent` calls that the arriving events cause: the
state in which the loop stands after them (it has been left if `popUp` is 0 there, and
waits for the next event otherwise).  `none` when one of the calls does not return. -/
def waitLoop (env : XEnv) : PopState → List HStep → Option PopState
  | s, [] => some s
  | s, step :: rest =>
    if s.popUp ≠ 0 then
      match handleStep env s step with
      | none => none
      | some s2 => waitLoop env s2 rest
    else some s

/-- The loop of `doPopUp` followed by its `return(selected)`: `none` when the loop is still
waiting after the last of the calls (or one of them does not return). -/
def doPopUpLoop (env : XEnv) (s : PopState) (steps : List HStep) : Option (Int × PopState) :=
  match waitLoop env s steps with
  | none => none
  | some s2 => if s2.popUp ≠ 0 then none else some (s2.selected, s2)

/-- The function `doPopUp(txt, labels, n, poptyp, wname)`. -/
def doPopUp (env : XEnv) (s : PopState) (labels : List Int) (n poptyp : Int)
    (steps : List HStep) : Option (Int × PopState) :=
  match doPopUpOpen env s labels n poptyp with
  | none => none
  | some s1 => doPopUpLoop env s1 steps

/-- The function `PopUp(txt, labels, n)`. -/
def PopUp (env : XEnv) (s : PopState) (labels : List Int) (n : Int) (steps : List HStep) :
    Option (Int × PopState) :=
  doPopUp env s labels n ISPOPUP steps

/-- The function `GetStrPopUp(txt, labels, n, buf, buflen, filstr, allow)`. -/
def GetStrPopUp (env : XEnv) (s : PopState) (labels : List Int) (n : Int) (buf : List Int)
    (buflen : Int) (filstr : Option (List Int)) (allow : Int) (steps : List HStep) :
    Option (Int × PopState) :=
  match strlen buf with
  | none => none
  | some len =>
    let s1 := { s with gsBuf := buf, gsBufLen := buflen, gsFilter := filstr, gsAllow := allow,
                       gsCurPos := len, gsStPos := 0, gsEnPos := 0,
                       gsw := PUWIDE env - (10 * env.dpiMult + env.icon_width + 20 * env.dpiMult)
                              - 10 * env.dpiMult }
    match changedGSBuf env s1 with
    | none => none
    | some s2 => doPopUp env s2 labels n ISGETSTR steps

/-- The function `GrabPopUp(pHide, pDelay)`; `delaybuf` is the 32-byte array after
`sprintf(delaybuf, "%d", *pDelay)`.  The labels are `"\nGrab"`, `"aAutoGrab"`,
`"\033Cancel"`. -/
def GrabPopUp (env : XEnv) (s : PopState) (delaybuf : List Int) (steps : List HStep) :
    Option (Int × PopState) :=
  match strlen delaybuf with
  | none => none
  | some len =>
    let s1 := { s with gsBuf := delaybuf, gsBufLen := 3,
                       gsFilter := some [48, 49, 50, 51, 52, 53, 54, 55, 56, 57], gsAllow := 1,
                       gsCurPos := len, gsStPos := 0, gsEnPos := 0, gsw := 32 * env.dpiMult }
    match changedGSBuf env s1 with
    | none => none
    | some s2 => doPopUp env s2 [10, 97, 27] 3 ISGRAB steps

/-- The block `if (firsttime) { padSbuf[0] = 0; padBbuf[0] = 0; padLbuf[0] = 0; ...;
padMode = PAD_SOLID; padOMode = PAD_ORGB; firsttime = 0; }` of `PadPopUp`. -/
def padInit (s : PopState) : Option PopState :=
  if s.padFirsttime then
    (match storeChar s.padSbuf 0 0 with
     | none => none
     | some sb =>
       match storeChar s.padBbuf 0 0 with
       | none => none
       | some bb =>
         match storeChar s.padLbuf 0 0 with
         | none => none
         | some lb =>
           some { s with padSbuf := sb, padBbuf := bb, padLbuf := lb, padMode := PAD_SOLID,
                         padOMode := PAD_ORGB, padFirsttime := false })
  else some s

/-- The `switch (padMode)` of `PadPopUp` before the dialog: `strcpy(padBuf, ...)` from the
buffer of the current method. -/
def padEntryCopy (s : PopState) : Option (List Int) :=
  if s.padMode = PAD_SOLID then strcpy s.padBuf s.padSbuf
  else if s.padMode = PAD_BGGEN then strcpy s.padBuf s.padBbuf
  else if s.padMode = PAD_LOAD then strcpy s.padBuf s.padLbuf
  else some s.padBuf

/-- The end of `PadPopUp`, after `rv = doPopUp(...)`: for `rv == 0` the text is copied to
the buffer of the current method; then `return rv`.  `gsBuf` still points to `padBuf`. -/
def padSave (rv : Int) (s : PopState) : Option (Int × PopState) :=
  let s5 := { s with padBuf := s.gsBuf }
  if rv = 0 then
    (if s5.padMode = PAD_SOLID then
       (strcpy s5.padSbuf s5.padBuf).map (fun sb => (rv, { s5 with padSbuf := sb }))
     else if s5.padMode = PAD_BGGEN then
       (strcpy s5.padBbuf s5.padBuf).map (fun bb => (rv, { s5 with padBbuf := bb }))
     else if s5.padMode = PAD_LOAD then
       (strcpy s5.padLbuf s5.padBuf).map (fun lb => (rv, { s5 with padLbuf := lb }))
     else some (rv, s5))
  else some (rv, s5)

/-- The statements of `PadPopUp` from `gsBuf = padBuf` to the end, `b` being the contents
of `padBuf`.  The labels are `"\nOk"` and `"\033Cancel"`. -/
def padDialog (env : XEnv) (s : PopState) (b : List Int) (steps : List HStep) :
    Option (Int × PopState) :=
  match strlen b with
  | none => none
  | some len =>
    match changedGSBuf env
        { s with gsBuf := b, gsBufLen := 256, gsFilter := some [], gsAllow := 0,
                 gsCurPos := len, gsStPos := 0, gsEnPos := 0,
                 gsw := PAD_PUWIDE env - 20 * env.dpiMult } with
    | none => none
    | some s3 =>
      match doPopUp env s3 [10, 27] 2 ISPAD steps with
      | none => none
      | some (rv, s4) => padSave rv s4

/-- The function `PadPopUp(pMode, pStr, pWide, pHigh, pOpaque, pOmode)`; `colVals`, `bgVals`
and `loadVals` are the lists `buildPadLists` builds. -/
def PadPopUp (env : XEnv) (s : PopState) (colVals bgVals loadVals : List (List Int))
    (steps : List HStep) : Option (Int × PopState) :=
  match padInit s with
  | none => none
  | some s0 =>
    match padEntryCopy
        { s0 with padColVals := colVals, padBgVals := bgVals, padLoadVals := loadVals } with
    | none => none
    | some b =>
      padDialog env
        { s0 with padColVals := colVals, padBgVals := bgVals, padLoadVals := loadVals } b steps

/-- The text field is in order: `gsBuf` holds a C string, the cursor lies inside it,
`gsBufLen` does not exceed the array, and the field is at least as wide as its 6-pixel
border. -/
def textFieldOK (env : XEnv) (s : PopState) : Prop :=
  match strlen s.gsBuf with
  | none => False
  | some n =>
    0 ≤ s.gsCurPos ∧ s.gsCurPos ≤ (n : Int) ∧ s.gsBufLen ≤ (s.gsBuf.length : Int) ∧
      6 * env.dpiMult ≤ s.gsw

instance (env : XEnv) (s : PopState) : Decidable (textFieldOK env s) := by
  unfold textFieldOK
  split <;> infer_instance

/-- The state and the event are in order for `PUCheckEvent`: `XLookupString` left room for
the NUL, there is a button for every index below `nbts`, the text field (if the pop-up has
one) is in order, and in a pad dialog `PAD_OMAX` is not 0 and the strings the menus can
copy fit into the buffer. -/
def eventOK (env : XEnv) (s : PopState) (xev : XEvent) : Prop :=
  (xev.type = .KeyPress → 0 ≤ xev.lookupLen ∧ xev.lookupLen < 128) ∧
  s.nbts.toNat ≤ s.bts.length ∧
  (hasTextField s = true → textFieldOK env s) ∧
  (s.popUp = ISPAD → env.PAD_OMAX ≠ 0 ∧ (padMethodCopy s xev.menuChoice).isSome = true ∧
    (padDefaultCopy s xev.menuChoice).isSome = true)

instance (env : XEnv) (s : PopState) (xev : XEvent) : Decidable (eventOK env s xev) := by
  unfold eventOK
  infer_instance

/-- The variables that decide when, and with which value, `doPopUp` returns, and the
buttons, are the same in `s2` as in `s`. -/
def sameControl (s s2 : PopState) : Prop :=
  s2.nbts = s.nbts ∧ s2.selected = s.selected ∧ s2.popUp = s.popUp ∧ s2.popW = s.popW ∧
    s2.bts = s.bts

/-! ## Sample inputs -/

/-- The macro `PTINRECT` as `xv.h` defines it:
`((x)>=(rx) && (y)>=(ry) && (x)<((rx)+(rw)) && (y)<((ry)+(rh)))`. -/
def stdPTINRECT (x y rx ry rw rh : Int) : Bool :=
  decide (x ≥ rx ∧ y ≥ ry ∧ x < rx + rw ∧ y < ry + rh)

/-- An environment with `dpiMult = 1`, a 48-pixel icon and a fixed-width font of 7 pixels. -/
def demoXEnv : XEnv :=
  { dpiMult := 1, icon_width := 48, PAD_OMAX := 4, PTINRECT := stdPTINRECT,
    charWidth := fun _ => 7, createOk := true, mallocOk := true, newPopW := 100,
    newPadWWin := 101, newPadHWin := 102, newPadOWin := 103 }

/-- The variables of `xvpopup.c` as the C initialisers leave them at program start. -/
def popInit : PopState :=
  { popW := 0, nbts := 0, selected := 0, popUp := 0, firsttime := true, puwide := 0,
    puhigh := 0, bts := [], accel := List.replicate 8 0, gsBuf := [], gsFilter := none,
    gsBufLen := 0, gsAllow := 0, gsCurPos := 0, gsStPos := 0, gsEnPos := 0, gsw := 0,
    padSbuf := List.replicate 256 0, padBbuf := List.replicate 256 0,
    padLbuf := List.replicate 256 0, padBuf := List.replicate 256 0, padFirsttime := true,
    padHaveDooDads := false, padMode := 0, padOMode := 0,
    padDButt := { x := 0, y := 0, w := 0, h := 0 },
    padOMButt := { x := 0, y := 0, w := 0, h := 0 },
    padWWin := 0, padHWin := 0, padOWin := 0, padColVals := [], padBgVals := [],
    padLoadVals := [] }

/-- A `KeyPress` in the pop-up window for the character `c`. -/
def keyEvent (c : Int) : XEvent :=
  { type := .KeyPress, window := 100, x := 0, y := 0, button := 0, lookupLen := 1, stlen := 1,
    buf0 := c, ck := .CK_NONE, wmDelete := false, btTrack := false, cbClick := false,
    padTrack := false, mthdClick := false, dfltClick := false, menuChoice := 0 }

/-- A `ButtonPress` of button `b` at `(x, y)` in window `win`; `track` is what `BTTrack`
answers. -/
def clickEvent (win b x y : Int) (track : Bool) : XEvent :=
  { type := .ButtonPress, window := win, x := x, y := y, button := b, lookupLen := 0,
    stlen := 0, buf0 := 0, ck := .CK_NONE, wmDelete := false, btTrack := track,
    cbClick := false, padTrack := false, mthdClick := false, dfltClick := false,
    menuChoice := 0 }

/-- A text-entry state: the 8-byte buffer holds `"ab"`, the cursor is at its end. -/
def demoText (filter : Option (List Int)) (allow : Int) : PopState :=
  { popInit with popW := 100, popUp := ISGETSTR, firsttime := false,
                 gsBuf := [97, 98, 0, 0, 0, 0, 0, 0], gsBufLen := 8, gsFilter := filter,
                 gsAllow := allow, gsCurPos := 2, gsStPos := 0, gsEnPos := 2, gsw := 392 }

/-- The state in which `doPopUp` enters its loop for a confirm box with the two buttons
`"\nOk"` and `"\033Cancel"`, opened from `popInit`. -/
def demoOpened : PopState :=
  (doPopUpOpen demoXEnv popInit [10, 27] 2 ISPOPUP).getD popInit

/-- The state `demoOpened` after the key `x` has been handled (and eaten). -/
def demoAfterKey : PopState :=
  (waitLoop demoXEnv demoOpened [.event (keyEvent 120)]).getD popInit

/-! ## The text field: refused keys and stored bytes -/

/-- The reasons for which `doGSKey` does not accept the character `c`, one for each of its
`return 1` statements, on a string of length `len`: a printable character that the filter
turns away or that finds the buffer full; a backspace or a `^B` at the start of the
string; a `^D`, a DEL or a `^F` at its end; a character that no branch handles. -/
def keyRefused (s : PopState) (len c : Int) : Prop :=
  ((32 ≤ c ∧ c < 127) ∧ (filterRejects s c = true ∨ len ≥ s.gsBufLen - 1)) ∨
  (c = 8 ∧ s.gsCurPos = 0) ∨
  ((c = 4 ∨ c = 127) ∧ s.gsCurPos = len) ∨
  (c = 2 ∧ s.gsCurPos = 0) ∨
  (c = 6 ∧ s.gsCurPos = len) ∨
  (¬ (32 ≤ c ∧ c < 127) ∧ c ≠ 8 ∧ c ≠ 21 ∧ c ≠ 11 ∧ c ≠ 1 ∧ c ≠ 5 ∧ c ≠ 4 ∧ c ≠ 127 ∧
    c ≠ 2 ∧ c ≠ 6)

instance (s : PopState) (len c : Int) : Decidable (keyRefused s len c) := by
  unfold keyRefused
  infer_instance

/-- The stores of `doGSKey` into `gsBuf`, as pairs (first index, number of bytes), in the
branch that the character `c` takes on a string of length `len`: the destination
`&gsBuf[gsCurPos+1]` and size `len-gsCurPos+1` of the `bcopy` and the assignment
`gsBuf[gsCurPos]=c` for an accepted printable character, the destination
`&gsBuf[gsCurPos-1]` of the `bcopy` for a backspace, `gsBuf[0]` for `^U`, `gsBuf[gsCurPos]`
for `^K`, the destination `&gsBuf[gsCurPos]` and size `len-gsCurPos` of the `bcopy` for `^D`
and DEL; no store on a `return 1` and for the keys that only move the cursor. -/
def gsStores (s : PopState) (len c : Int) : List (Int × Int) :=
  if 32 ≤ c ∧ c < 127 then
    (if filterRejects s c = true then []
     else if len ≥ s.gsBufLen - 1 then []
     else [(s.gsCurPos + 1, len - s.gsCurPos + 1), (s.gsCurPos, 1)])
  else if c = 8 then (if s.gsCurPos = 0 then [] else [(s.gsCurPos - 1, len - s.gsCurPos + 1)])
  else if c = 21 then [(0, 1)]
  else if c = 11 then [(s.gsCurPos, 1)]
  else if c = 1 then []
  else if c = 5 then []
  else if c = 4 ∨ c = 127 then
    (if s.gsCurPos = len then [] else [(s.gsCurPos, len - s.gsCurPos)])
  else []

/-- Index `i` lies in one of the stored ranges. -/
def storedAt (stores : List (Int × Int)) (i : Int) : Prop :=
  ∃ p, p ∈ stores ∧ p.1 ≤ i ∧ i < p.1 + p.2

/-! ## Placing a window: `CenterMapFlexWindow`

The arithmetic of this function is done in `int`, and nothing in it counts on what an
overflow yields; an `int` operation whose result does not fit is undefined in C and makes
the model return `none`. -/

/-- The `int` sum `a + b`; `none` when it overflows. -/
def addInt (a b : Int) : Option Int := if isInt (a + b) then some (a + b) else none

/-- The `int` difference `a - b`; `none` when it overflows. -/
def subInt (a b : Int) : Option Int := if isInt (a - b) then some (a - b) else none

/-- The Xlib constant `PPosition`. -/
def PPosition : Nat := 4

/-- The Xlib constant `PSize`. -/
def PSize : Nat := 8

/-- The Xlib constant `PMinSize`. -/
def PMinSize : Nat := 16

/-- The Xlib constant `PMaxSize`. -/
def PMaxSize : Nat := 32

/-- The fields of `XSizeHints` that `CenterMapFlexWindow` writes. -/
structure XSizeHints where
  flags : Nat
  x : Int
  y : Int
  width : Int
  height : Int
  min_width : Int
  min_height : Int
  max_width : Int
  max_height : Int
  deriving DecidableEq, Repr

/-- What `CenterMapFlexWindow` asks of the X server: the position `(wx, wy)` given to
`XMoveWindow` and the hints given to `XSetNormalHints`. -/
structure Placement where
  wx : Int
  wy : Int
  hints : XSizeHints
  deriving DecidableEq, Repr

/-- The statements `if (wx<0) wx = 0;` and `if (wx + w > dispWIDE) wx = dispWIDE - w;` of
`CenterMapFlexWindow` (the same two for `wy`, `h` and `dispHIGH`). -/
def clampOnScreen (disp w wx : Int) : Option Int :=
  let wx1 := if wx < 0 then 0 else wx
  match addInt wx1 w with
  | none => none
  | some sum => if sum > disp then subInt disp w else some wx1

/-- The position `CenterMapFlexWindow` computes.  `pointer` is `none` when `XQueryPointer`
returns 0 and holds the coordinates `x`, `y` it delivers otherwise. -/
def centerPos (pointer : Option (Int × Int)) (dispWIDE dispHIGH dx dy w h : Int) :
    Option (Int × Int) :=
  match pointer with
  | none =>
    match subInt dispWIDE w, subInt dispHIGH h with
    | some a, some b => some (a.tdiv 2, b.tdiv 2)
    | _, _ => none
  | some (x, y) =>
    match subInt x dx, subInt y dy with
    | some wx0, some wy0 =>
      match clampOnScreen dispWIDE w wx0, clampOnScreen dispHIGH h wy0 with
      | some wx, some wy => some (wx, wy)
      | _, _ => none
    | _, _ => none

/-- The function `CenterMapFlexWindow(win, dx, dy, w, h, keepsize)`.  `hints0` is what
`XGetNormalHints` delivered (with `flags = 0` when it failed). -/
def CenterMapFlexWindow (pointer : Option (Int × Int)) (dispWIDE dispHIGH : Int)
    (hints0 : XSizeHints) (dx dy w h keepsize : Int) : Option Placement :=
  match centerPos pointer dispWIDE dispHIGH dx dy w h with
  | none => none
  | some (wx, wy) =>
    let h1 : XSizeHints :=
      { hints0 with x := wx, y := wy, width := w, height := h,
                    flags := hints0.flags ||| (PPosition ||| PSize) }
    let h2 : XSizeHints :=
      if keepsize ≠ 0 then
        { h1 with min_width := w, max_width := w, min_height := h, max_height := h,
                  flags := h1.flags ||| (PMinSize ||| PMaxSize) }
      else h1
    some { wx := wx, wy := wy, hints := h2 }

/-- The function `CenterMapWindow(win, dx, dy, w, h)`. -/
def CenterMapWindow (pointer : Option (Int × Int)) (dispWIDE dispHIGH : Int)
    (hints0 : XSizeHints) (dx dy w h : Int) : Option Placement :=
  CenterMapFlexWindow pointer dispWIDE dispHIGH hints0 dx dy w h 1

/-- Magnitude at most `2^29`: sums and differences of two such values, and of such a sum
and a third value, fit in `int`. -/
def inRange29 (v : Int) : Prop := -(2 ^ 29) ≤ v ∧ v ≤ 2 ^ 29

instance (v : Int) : Decidable (inRange29 v) := by
  unfold inRange29
  infer_instance

/-- Size hints with every field 0. -/
def noHints : XSizeHints :=
  { flags := 0, x := 0, y := 0, width := 0, height := 0, min_width := 0, min_height := 0,
    max_width := 0, max_height := 0 }

/-! ## `xvjp2k.c`: the "Save JPEG 2000" dialog

The dialog keeps its widgets in file-scope arrays of fixed size (`button[J_NBUTT]`,
`chkbut[J_NCHKB]`, `menu[J_NMENU]`, `text[J_NTEXT]`, `textval[J_NTEXT]`), which the code
indexes only with constants and with loop counters below their size; such an array is a
function on indices.  The widget functions of `xvbutt.c` (`MBCreate`, `MBWhich`,
`MBSelect`, `CBCreate`) are not part of these sources: they are taken from the
environment, and what they answer while an event is handled (`BTTrack`, `CBClick`,
`CBTrack`, `MBClick`, `MBTrack`, `RBWhich`) comes with the event.  `textval` is an `int`
that the code reads as an unsigned number (`%u`, the casts in the checks of the Ok button),
so its arithmetic wraps. -/

/-- Index of the "Ok" button. -/
def J_BOK : Int := 0

/-- Index of the "Cancel" button. -/
def J_BCANC : Int := 1

/-- Number of regular buttons. -/
def J_NBUTT : Nat := 2

/-- Number of check boxes. -/
def J_NCHKB : Nat := 8

/-- Menu of the coding-block width. -/
def J_MCBXW : Int := 0

/-- Menu of the coding-block height. -/
def J_MCBXH : Int := 1

/-- Menu of the precinct width. -/
def J_MPREW : Int := 2

/-- Menu of the precinct height. -/
def J_MPREH : Int := 3

/-- Menu of the progression order. -/
def J_MPROG : Int := 4

/-- Number of menus. -/
def J_NMENU : Nat := 5

/-- Text window of the guard bits. -/
def J_TGBIT : Nat := 0

/-- Text window of the resolution levels. -/
def J_TRES : Nat := 1

/-- Text window of the rate. -/
def J_TRATE : Nat := 2

/-- Number of text windows. -/
def J_NTEXT : Nat := 3

/-- The entries of `CBoxList` (`EXP2_1` .. `EXP2_11`), as numbers. -/
def CBoxList : List Nat := [2, 4, 8, 16, 32, 64, 128, 256, 512, 1024, 2048]

/-- The entries of `PrecList` (`EXP2_0` .. `EXP2_15`), as numbers. -/
def PrecList : List Nat :=
  [1, 2, 4, 8, 16, 32, 64, 128, 256, 512, 1024, 2048, 4096, 8192, 16384, 32768]

/-- The array `ProgList`. -/
def ProgList : List String := ["lrcp", "rlcp", "rpcl", "pcrl", "cprl"]

/-- The fields of an `MBUTT` that `xvjp2k.c` writes (`hascheck`, `flags[]`) or hands to
`MBCreate` (the number of entries, `nlist`). -/
structure MBUTT where
  hascheck : Int
  nlist : Int
  flags : Nat → Int

/-- Constants and library functions the dialog takes from `xv.h`, `xvbutt.c` and Xlib. -/
structure JEnv where
  /-- The global `dpiMult`. -/
  dpiMult : Int
  /-- The macro `PTINRECT(px, py, rx, ry, rw, rh)` of `xv.h`. -/
  PTINRECT : Int → Int → Int → Int → Int → Int → Bool
  /-- Whether `CreateWindow` returns a window. -/
  createOk : Bool
  /-- The window `CreateWindow` returns. -/
  newJp2kW : Int
  /-- The windows the three calls of `XCreateSimpleWindow` return. -/
  newText : Nat → Int
  /-- The `MBUTT` as `MBCreate` leaves it for a list of the given number of entries. -/
  MBCreate : Int → MBUTT
  /-- The function `MBWhich(&mb)`. -/
  MBWhich : MBUTT → Int
  /-- The function `MBSelect(&mb, n)`: the `MBUTT` after the call. -/
  MBSelect : MBUTT → Int → MBUTT
  /-- The field `val` of a check box as `CBCreate` leaves it. -/
  cbCreateVal : Int

/-- One entry of the option string that the Ok button builds for the JasPer encoder (the
entries are separated by blanks there; numbers are printed with `%u`). -/
inductive JOpt where
  /-- The entry `cblkwidth=%u`. -/
  | cblkwidth (v : Int)
  /-- The entry `cblkheight=%u`. -/
  | cblkheight (v : Int)
  /-- The entry `prcwidth=%u`. -/
  | prcwidth (v : Int)
  /-- The entry `prcheight=%u`. -/
  | prcheight (v : Int)
  /-- The entry `prg=` followed by an entry of `ProgList`. -/
  | prg (name : String)
  /-- The entry `numrlvls=%u`. -/
  | numrlvls (v : Int)
  /-- The string `chkbut[i].str` of a check box that is set. -/
  | style (i : Nat)
  /-- The entry `numgbits=%u`. -/
  | numgbits (v : Int)
  /-- The entry `rate=%uB`. -/
  | rateBytes (v : Int)
  /-- The entry `rate=%u.%.2u`. -/
  | ratePercent (whole frac : Int)
  /-- The entry `rate=0`. -/
  | rateZero
  deriving DecidableEq, Repr

/-- The file-scope variables of the dialog, the variable `jp2kUp`, the state of
`xvpopup.c` (which `CloseAlert` writes) and the calls of `StoreJP2K` made so far, the
latest first, each with its option string. -/
structure JP2KState where
  jp2kUp : Int
  jp2kW : Int
  button : Nat → BUTT
  /-- The fields `chkbut[i].val`. -/
  chkval : Nat → Int
  menu : Nat → MBUTT
  text : Nat → Int
  textval : Nat → Int
  stored : List (List JOpt)
  pop : PopState

/-- An `XEvent` for the dialog together with the answers of the widget library while it is
handled. -/
structure JEvent where
  type : EvType
  window : Int
  x : Int
  y : Int
  button : Int
  /-- Return value of `XLookupString(E, buf, sizeof buf, &ks, 0)`. -/
  lookupLen : Int
  /-- The characters `buf[0 .. len-1]` after `RemapKeyCheck(ks, buf, &len)`. -/
  keys : List Int
  /-- Result of `BTTrack(&button[i])`. -/
  btTrack : Bool
  /-- Result of `CBClick(&chkbut[i], x, y)`. -/
  cbClick : Nat → Bool
  /-- The field `val` of the check box after `CBTrack(&chkbut[i])`. -/
  cbTrackVal : Int
  /-- Result of `MBClick(&menu[i], x, y)`. -/
  mbClick : Nat → Bool
  /-- Result of `MBTrack(&menu[i])`. -/
  mbTrack : Int
  /-- Result of `RBWhich(radio)`. -/
  rbWhich : Int

/-- The macro `JP2KW`. -/
def JP2KW (env : JEnv) : Int := 275 * env.dpiMult

/-- The macro `JP2KH`. -/
def JP2KH (env : JEnv) : Int := 400 * env.dpiMult

/-- The macro `BUTTW` of `xvjp2k.c`. -/
def JP2K.BUTTW (env : JEnv) : Int := 51 * env.dpiMult

/-- The macro `BUTTH` of `xvjp2k.c`. -/
def JP2K.BUTTH (env : JEnv) : Int := 20 * env.dpiMult

/-- The array `a` after the assignment `a[i] = v`. -/
def setAt {α : Type} (a : Nat → α) (i : Nat) (v : α) : Nat → α :=
  fun k => if k = i then v else a k

/-- The loop `i = n; while (--i >= 0 && !hit(i)) ;`: the final `i`. -/
def scanDown (hit : Nat → Bool) : Nat → Int
  | 0 => -1
  | k + 1 => if hit k then (k : Int) else scanDown hit k

/-- The value of `(unsigned) x` for an `int` `x`. -/
def toUnsigned (x : Int) : Int := x % 2 ^ 32

/-- The statements `menu[k].hascheck = 1; menu[k].flags[i] = 1;` of `CreateJP2KW`. -/
def setCheck (m : MBUTT) (i : Nat) : MBUTT :=
  { m with hascheck := 1, flags := setAt m.flags i 1 }

/-- The function `CreateJP2KW`: `none` for `FatalError`.  The buttons get the geometry
given to `BTCreate`, the menus are created for `CBoxList`, `CBoxList`, `PrecList`,
`PrecList` and `ProgList` and get their default check marks, and `textval` gets the
defaults 2, 6 and 100. -/
def CreateJP2KW (env : JEnv) (s : JP2KState) : Option JP2KState :=
  if !env.createOk then none
  else
    let dy : Int := JP2KH env - 10 * env.dpiMult - JP2K.BUTTH env - 1 * env.dpiMult
    let bok : BUTT := { x := JP2KW env - 2 * JP2K.BUTTW env - 20 * env.dpiMult, y := dy,
                        w := JP2K.BUTTW env, h := JP2K.BUTTH env }
    let bcanc : BUTT := { x := JP2KW env - JP2K.BUTTW env - 10 * env.dpiMult, y := dy,
                          w := JP2K.BUTTW env, h := JP2K.BUTTH env }
    let cbox : MBUTT := env.MBCreate CBoxList.length
    let prec : MBUTT := env.MBCreate PrecList.length
    let prog : MBUTT := env.MBCreate ProgList.length
    some { s with
      jp2kW := env.newJp2kW,
      button := setAt (setAt s.button 0 bok) 1 bcanc,
      chkval := fun k => if k < J_NCHKB then env.cbCreateVal else s.chkval k,
      text := fun k => if k < J_NTEXT then env.newText k else s.text k,
      menu := setAt (setAt (setAt (setAt (setAt s.menu 0 (setCheck cbox 5)) 1 (setCheck cbox 5))
                2 (setCheck prec 15)) 3 (setCheck prec 15)) 4 (setCheck prog 0),
      textval := setAt (setAt (setAt s.textval J_TGBIT 2) J_TRES 6) J_TRATE 100 }

/-- The function `JP2KDialog(vis)`: `jp2kUp = vis`, and the window is mapped or
unmapped. -/
def JP2KDialog (s : JP2KState) (vis : Int) : JP2KState := { s with jp2kUp := vis }

/-- The call `StoreJP2K(options)` made by the Ok button: the file is written; the dialog
state does not change. -/
def callStoreJP2K (s : JP2KState) (options : List JOpt) : JP2KState :=
  { s with stored := options :: s.stored }

/-- The two loops of the Ok button over the menus `J_MCBXW .. J_MCBXH` and
`J_MPREW .. J_MPREH`: `if ((j = MBWhich(&menu[i])) != 5) sprintf(p, parm[i], ++j);` and
`if ((j = MBWhich(&menu[i])) < 15) sprintf(p, parm[i - J_MPREW], j);`. -/
def sizeOptions (env : JEnv) (s : JP2KState) : List JOpt :=
  (if env.MBWhich (s.menu 0) ≠ 5 then [JOpt.cblkwidth (env.MBWhich (s.menu 0) + 1)] else []) ++
  (if env.MBWhich (s.menu 1) ≠ 5 then [JOpt.cblkheight (env.MBWhich (s.menu 1) + 1)] else []) ++
  (if env.MBWhich (s.menu 2) < 15 then [JOpt.prcwidth (env.MBWhich (s.menu 2))] else []) ++
  (if env.MBWhich (s.menu 3) < 15 then [JOpt.prcheight (env.MBWhich (s.menu 3))] else [])

/-- The statement `if ((j = MBWhich(&menu[i]))) { ...; q = ProgList[j]; ... }` of the Ok
button, with `i == J_MPROG`: `none` when `ProgList[j]` lies outside the array. -/
def progOption (env : JEnv) (s : JP2KState) : Option (List JOpt) :=
  let j := env.MBWhich (s.menu 4)
  if j ≠ 0 then
    (if j < 0 then none
     else match ProgList[j.toNat]? with
       | none => none
       | some name => some [JOpt.prg name])
  else some []

/-- The loop `i = 0; do if (chkbut[i].val) ...; while (++i < sizeof chkbut / sizeof
*chkbut);` of the Ok button, from index `i` on, `k` check boxes remaining. -/
def styleOptions (s : JP2KState) : Nat → Nat → List JOpt
  | 0, _ => []
  | k + 1, i => (if s.chkval i ≠ 0 then [JOpt.style i] else []) ++ styleOptions s k (i + 1)

/-- The statement `if ((i = textval[J_TRATE]) != 100) { ... }` of the Ok button. -/
def rateOption (s : JP2KState) (xev : JEvent) : List JOpt :=
  let i := s.textval J_TRATE
  if i ≠ 100 then
    (if i ≠ 0 then
      (if xev.rbWhich ≠ 0 then [JOpt.rateBytes i]
       else
         let i2 := if i > 100 then 200 else i
         [JOpt.ratePercent (i2.tdiv 100) (i2.tmod 100)])
     else [JOpt.rateZero])
  else []

/-- The option string the Ok button builds, entry by entry in the order of the code. -/
def buildOptions (env : JEnv) (s : JP2KState) (xev : JEvent) : Option (List JOpt) :=
  match progOption env s with
  | none => none
  | some prog =>
    some (sizeOptions env s ++ prog ++
      (if s.textval J_TRES ≠ 6 then [JOpt.numrlvls (s.textval J_TRES)] else []) ++
      styleOptions s J_NCHKB 0 ++
      (if s.textval J_TGBIT ≠ 2 then [JOpt.numgbits (s.textval J_TGBIT)] else []) ++
      rateOption s xev)

/-- The Ok button, once `BTTrack` has confirmed it: the two checks
`if ((unsigned)textval[J_TGBIT] - 1 > 7) { OpenAlert(...); CloseAlert(); break; }` and
`if ((unsigned)textval[J_TRES] <= 0) { OpenAlert(...); CloseAlert(); break; }`, then the
option string, `StoreJP2K(options)` and `JP2KDialog(0)`.  `OpenAlert` only prints its
text. -/
def okButton (env : JEnv) (s : JP2KState) (xev : JEvent) : Option (Int × JP2KState) :=
  if (toUnsigned (s.textval J_TGBIT) - 1) % 2 ^ 32 > 7 then
    some (1, { s with pop := CloseAlert s.pop })
  else if toUnsigned (s.textval J_TRES) ≤ 0 then
    some (1, { s with pop := CloseAlert s.pop })
  else
    match buildOptions env s xev with
    | none => none
    | some options => some (1, JP2KDialog (callStoreJP2K s options) 0)

/-- The value of `!i` for a menu index `i`. -/
def notIdx (i : Int) : Nat := if i = 0 then 1 else 0

/-- The statement `switch (i) { case J_MCBXH: case J_MCBXW: if (MBWhich(&menu[!i]) + j >= 10)
MBSelect(&menu[!i], 10 - j); }` for the menu `i` that was clicked and the entry `j` that
`MBTrack` answered. -/
def limitOrthogonal (env : JEnv) (s : JP2KState) (i j : Int) : JP2KState :=
  if i = J_MCBXH ∨ i = J_MCBXW then
    (if env.MBWhich (s.menu (notIdx i)) + j ≥ 10 then
      { s with menu := setAt s.menu (notIdx i) (env.MBSelect (s.menu (notIdx i)) (10 - j)) }
     else s)
  else s

/-- The block `if ((j = MBTrack(&menu[i])) >= 0) { switch (i) { ... }; MBSelect(&menu[i], j);
MBSetActive(&menu[i], 1); }` for the menu `i` that was clicked. -/
def menuChoice (env : JEnv) (s : JP2KState) (i j : Int) : JP2KState :=
  if j ≥ 0 then
    { limitOrthogonal env s i j with
      menu := setAt (limitOrthogonal env s i j).menu i.toNat
        (env.MBSelect ((limitOrthogonal env s i j).menu i.toNat) j) }
  else s

/-- The index of the regular button under the pointer: `i = sizeof button / sizeof
*button; while (--i >= 0 && !PTINRECT(E->x, E->y, button[i].x, ...)) ;`. -/
def buttonHit (env : JEnv) (s : JP2KState) (xev : JEvent) : Int :=
  scanDown (fun k => env.PTINRECT xev.x xev.y (s.button k).x (s.button k).y (s.button k).w
    (s.button k).h) J_NBUTT

/-- The case `ButtonPress` of `JP2KCheckEvent`. -/
def jButtonPress (env : JEnv) (s : JP2KState) (xev : JEvent) : Option (Int × JP2KState) :=
  if xev.button = Button1 ∧ xev.window = s.jp2kW then
    (if buttonHit env s xev ≥ 0 then
      (if xev.btTrack = false then some (1, s)
       else if buttonHit env s xev ≠ J_BOK then some (1, JP2KDialog s 0)
       else okButton env s xev)
     else if scanDown xev.cbClick J_NCHKB ≥ 0 then
       (let cv := setAt s.chkval (scanDown xev.cbClick J_NCHKB).toNat xev.cbTrackVal
        some (1, { s with chkval := cv }))
     else if scanDown xev.mbClick J_NMENU ≥ 0 then
       some (1, menuChoice env s (scanDown xev.mbClick J_NMENU) xev.mbTrack)
     else some (1, s))
  else some (0, s)

/-- The editing loop of a text window: a digit appends itself
(`textval[i] = textval[i] * 10 + c`), a backspace removes the last digit
(`textval[i] = textval[i] / 10`), any other character restores `oldval` and ends the
loop. -/
def editDigits (oldval : Int) : List Int → Int → Int
  | [], v => v
  | ch :: rest, v =>
    if 0 ≤ ch - 48 ∧ ch - 48 ≤ 9 then editDigits oldval rest (wrapInt (v * 10 + (ch - 48)))
    else if ch = 8 then editDigits oldval rest (v.tdiv 10)
    else oldval

/-- The case `KeyPress` of `JP2KCheckEvent`: `none` when the store
`buf[len = XLookupString(...)] = 0` lies outside `buf[128]`.  In the dialog window Return
and Escape only queue a button press (`FakeButtonPress`). -/
def jKeyPress (s : JP2KState) (xev : JEvent) : Option (Int × JP2KState) :=
  if xev.lookupLen < 0 ∨ xev.lookupLen ≥ 128 then none
  else if xev.window = s.jp2kW then some (1, s)
  else if scanDown (fun k => decide (xev.window = s.text k)) J_NTEXT ≥ 0 then
    (let i := (scanDown (fun k => decide (xev.window = s.text k)) J_NTEXT).toNat
     let oldval := s.textval i
     some (1, { s with textval := setAt s.textval i (editDigits oldval xev.keys oldval) }))
  else some (0, s)

/-- The case `Expose` of `JP2KCheckEvent`: the value of `ok`; only drawing is done. -/
def jExpose (s : JP2KState) (xev : JEvent) : Int :=
  if xev.window = s.jp2kW then 1
  else if scanDown (fun k => decide (xev.window = s.text k)) J_NTEXT ≥ 0 then 1
  else 0

/-- The function `JP2KCheckEvent`: the value returned and the new state. -/
def JP2KCheckEvent (env : JEnv) (s : JP2KState) (xev : JEvent) : Option (Int × JP2KState) :=
  if s.jp2kUp = 0 then some (0, s)
  else
    match xev.type with
    | .Expose => some (jExpose s xev, s)
    | .ButtonPress => jButtonPress env s xev
    | .KeyPress => jKeyPress s xev
    | _ => some (0, s)

/-- The events of a list handled one after the other by `JP2KCheckEvent`. -/
def runEvents (env : JEnv) : JP2KState → List JEvent → Option JP2KState
  | s, [] => some s
  | s, xev :: rest =>
    match JP2KCheckEvent env s xev with
    | none => none
    | some r => runEvents env r.2 rest

/-- The flags of a menu in which entry `i` alone carries a check mark. -/
def sole (i : Nat) : Nat → Int := fun k => if k = i then 1 else 0

/-- What the dialog relies on in the menu functions of `xvbutt.c`: `MBCreate` records the
number of entries and leaves no check mark; in a menu with check marks whose entry `i`
alone is checked, `MBWhich` answers `i`, and `MBSelect(&mb, n)` for an entry `n` of the
menu makes `n` the only checked entry and changes nothing else. -/
def menuLibOK (env : JEnv) : Prop :=
  (∀ n, (env.MBCreate n).nlist = n ∧ (env.MBCreate n).flags = fun _ => 0) ∧
  (∀ (m : MBUTT) (i : Nat), m.hascheck ≠ 0 → m.flags = sole i → (i : Int) < m.nlist →
    env.MBWhich m = i) ∧
  (∀ (m : MBUTT) (i : Nat) (n : Int), m.hascheck ≠ 0 → m.flags = sole i → 0 ≤ n →
    n < m.nlist → env.MBSelect m n = { m with flags := sole n.toNat })

/-- Menu `m` has `CBoxList.length` entries and its entry `a` alone is checked. -/
def cboxAt (m : MBUTT) (a : Nat) : Prop :=
  m.hascheck ≠ 0 ∧ m.nlist = CBoxList.length ∧ m.flags = sole a ∧ a < CBoxList.length

/-- The size `CBoxList[i]` that entry `i` of a coding-block menu stands for (0 outside the
list). -/
def cblkSize (i : Int) : Nat := if i < 0 then 0 else CBoxList.getD i.toNat 0

/-- The coding-block invariant: the width and the height menu each have one checked entry
of `CBoxList`, and the product of the two sizes is at most 4096. -/
def cblkInv (env : JEnv) (s : JP2KState) : Prop :=
  ∃ a b : Nat, cboxAt (s.menu 0) a ∧ cboxAt (s.menu 1) b ∧
    cblkSize (env.MBWhich (s.menu 0)) * cblkSize (env.MBWhich (s.menu 1)) ≤ 4096

/-- `MBTrack` answers -1 or an entry of the menu it tracked: when the click hits one of the
two coding-block menus, the answer is below `CBoxList.length`. -/
def trackOK (xev : JEvent) : Prop :=
  (scanDown xev.mbClick J_NMENU = 0 ∨ scanDown xev.mbClick J_NMENU = 1) →
    xev.mbTrack < CBoxList.length

/-- The Ok button is pressed: a press of button 1 in the dialog window, with the pointer in
`button[J_BOK]` (and not in `button[J_BCANC]`), that `BTTrack` confirms. -/
def okPressed (env : JEnv) (s : JP2KState) (xev : JEvent) : Prop :=
  xev.type = .ButtonPress ∧ xev.button = Button1 ∧ xev.window = s.jp2kW ∧
    buttonHit env s xev = J_BOK ∧ xev.btTrack = true

/-- Entry `j` is chosen in the coding-block menu `i` (0 for the width, 1 for the height): a
press of button 1 in the dialog window outside the regular buttons and the check boxes,
on menu `i`, for which `MBTrack` answers `j`. -/
def cblkChosen (env : JEnv) (s : JP2KState) (xev : JEvent) (i j : Nat) : Prop :=
  xev.type = .ButtonPress ∧ xev.button = Button1 ∧ xev.window = s.jp2kW ∧
    buttonHit env s xev < 0 ∧ scanDown xev.cbClick J_NCHKB < 0 ∧
    scanDown xev.mbClick J_NMENU = i ∧ i < 2 ∧ xev.mbTrack = j ∧ j < CBoxList.length

/-! ### Sample inputs for the dialog -/

/-- An `MBCreate` that records the number of entries and clears every flag. -/
def stdMBCreate (n : Int) : MBUTT := { hascheck := 0, nlist := n, flags := fun _ => 0 }

/-- The loop `for (i=0; i<nlist; i++) if (flags[i]) return i;` with `k` entries left. -/
def firstFlag (flags : Nat → Int) : Nat → Nat → Int
  | 0, _ => -1
  | k + 1, i => if flags i ≠ 0 then (i : Int) else firstFlag flags k (i + 1)

/-- An `MBWhich` that answers the first checked entry, or -1. -/
def stdMBWhich (m : MBUTT) : Int :=
  if m.hascheck = 0 then -1 else firstFlag m.flags m.nlist.toNat 0

/-- An `MBSelect` that makes entry `n` the only checked one, unless `n` is out of range,
the menu has no check marks or the entry is checked already. -/
def stdMBSelect (m : MBUTT) (n : Int) : MBUTT :=
  if n < 0 ∨ n > m.nlist then m
  else if m.hascheck = 0 then m
  else if m.flags n.toNat ≠ 0 then m
  else { m with flags := sole n.toNat }

/-- An environment with `dpiMult = 1` and the sample menu functions. -/
def demoJEnv : JEnv :=
  { dpiMult := 1, PTINRECT := stdPTINRECT, createOk := true, newJp2kW := 200,
    newText := fun k => 201 + (k : Int), MBCreate := stdMBCreate, MBWhich := stdMBWhich,
    MBSelect := stdMBSelect, cbCreateVal := 0 }

/-- The variables of the dialog at program start (static storage is zeroed). -/
def jp2kInit : JP2KState :=
  { jp2kUp := 0, jp2kW := 0, button := fun _ => { x := 0, y := 0, w := 0, h := 0 },
    chkval := fun _ => 0, menu := fun _ => { hascheck := 0, nlist := 0, flags := fun _ => 0 },
    text := fun _ => 0, textval := fun _ => 0, stored := [], pop := popInit }

/-- The dialog after `CreateJP2KW` and `JP2KDialog(1)`. -/
def demoDialog : JP2KState :=
  JP2KDialog ((CreateJP2KW demoJEnv jp2kInit).getD jp2kInit) 1

/-- A press of button 1 in the dialog window at `(x, y)` that `BTTrack` confirms and that
hits no check box and no menu. -/
def jClick (x y : Int) : JEvent :=
  { type := .ButtonPress, window := 200, x := x, y := y, button := 1, lookupLen := 0,
    keys := [], btTrack := true, cbClick := fun _ => false, cbTrackVal := 0,
    mbClick := fun _ => false, mbTrack := -1, rbWhich := 0 }

/-- A press of button 1 on menu `i` of the dialog in which `MBTrack` answers `j`. -/
def jMenuPick (i : Nat) (j : Int) : JEvent :=
  { (jClick 5 5) with mbClick := fun k => decide (k = i), mbTrack := j }

/-- The keys `keys` typed into text window `i` of the dialog. -/
def jType (i : Nat) (keys : List Int) : JEvent :=
  { (jClick 0 0) with
    type := .KeyPress, window := 201 + (i : Int), lookupLen := keys.length, keys := keys }

/-- The dialog `demoDialog` after a backspace typed into the window of the resolution
levels: the value there is 0. -/
def demoNoRes : JP2KState :=
  (runEvents demoJEnv demoDialog [jType 1 [8]]).getD jp2kInit
/-! ## Theorems: `xvjp2k.c` -/

theorem wrapInt_of_isInt {x : Int} (h : isInt x) : wrapInt x = x := by
  unfold isInt at h
  unfold wrapInt
  omega

/-- For a positive divisor, a positive truncated quotient bounds the dividend from below. -/
theorem tdiv_pos_mul_le {a b q : Int} (hb : 0 < b) (hq : 0 < q) (h : Int.tdiv a b = q) :
    q * b ≤ a ∧ 0 < a := by
  have ha : 0 ≤ a := by
    by_contra hneg
    push_neg at hneg
    have h1 : Int.tdiv (-(-a)) b = -(Int.tdiv (-a) b) := Int.neg_tdiv (-a) b
    rw [neg_neg] at h1
    have h2 : 0 ≤ Int.tdiv (-a) b := Int.tdiv_nonneg (by omega) (le_of_lt hb)
    omega
  rw [Int.tdiv_eq_ediv ha (le_of_lt hb)] at h
  have h3 := Int.ediv_mul_le a (ne_of_gt hb)
  rw [h] at h3
  refine ⟨h3, ?_⟩
  have : 0 < q * b := Int.mul_pos hq hb
  omega

theorem mulLong_eq_some {a b v : Int} (h : mulLong a b = some v) :
    v = a * b ∧ isLong (a * b) := by
  unfold mulLong at h
  by_cases hl : isLong (a * b)
  · rw [if_pos hl] at h
    simp only [Option.some.injEq] at h
    exact ⟨h.symm, hl⟩
  · rw [if_neg hl] at h
    cases h

theorem mulLong_of_isLong {a b : Int} (h : isLong (a * b)) : mulLong a b = some (a * b) := by
  unfold mulLong
  rw [if_pos h]

/-- The two multiplications in front of the test succeed exactly when neither product
overflows, and then `bufsize` is the exact product. -/
theorem bufsizeOf_eq_some {w h n bs : Int} (hb : bufsizeOf w h n = some bs) :
    isLong (w * h) ∧ isLong (n * (w * h)) ∧ npixelsOf w h = some (w * h) ∧
      bs = n * (w * h) := by
  unfold bufsizeOf at hb
  cases hnp : npixelsOf w h with
  | none =>
    rw [hnp] at hb
    cases hb
  | some np =>
    rw [hnp] at hb
    simp only at hb
    unfold npixelsOf at hnp
    obtain ⟨e1, l1⟩ := mulLong_eq_some hnp
    subst e1
    obtain ⟨e2, l2⟩ := mulLong_eq_some hb
    exact ⟨l1, l2, rfl, e2⟩

theorem bufsizeOf_of_isLong {w h n : Int} (h1 : isLong (w * h)) (h2 : isLong (n * (w * h))) :
    bufsizeOf w h n = some (n * (w * h)) := by
  unfold bufsizeOf npixelsOf
  rw [mulLong_of_isLong h1]
  simp only
  exact mulLong_of_isLong h2

/-- A defined outcome of the dimension check: no product has overflowed, and the outcome
is that of the test on the exact products. -/
theorem badDims_inv {w h n : Int} {b : Bool} (hbd : badDims w h n = some b) :
    isLong (w * h) ∧ isLong (n * (w * h)) ∧ bufsizeOf w h n = some (n * (w * h)) ∧
      dimsTest w h n (w * h) (n * (w * h)) = some b := by
  unfold badDims at hbd
  cases hnp : npixelsOf w h with
  | none =>
    rw [hnp] at hbd
    cases hbd
  | some np =>
    rw [hnp] at hbd
    simp only at hbd
    unfold npixelsOf at hnp
    obtain ⟨e1, l1⟩ := mulLong_eq_some hnp
    subst e1
    cases hm : mulLong n (w * h) with
    | none =>
      rw [hm] at hbd
      cases hbd
    | some bs =>
      rw [hm] at hbd
      simp only at hbd
      obtain ⟨e2, l2⟩ := mulLong_eq_some hm
      subst e2
      exact ⟨l1, l2, bufsizeOf_of_isLong l1 l2, hbd⟩

theorem badDims_false {w h n : Int} (_hn : 1 ≤ n) (hbd : badDims w h n = some false) :
    0 < w ∧ 0 < h ∧ npixelsOf w h = some (w * h) ∧ bufsizeOf w h n = some (w * h * n) := by
  obtain ⟨l1, l2, hbs, ht⟩ := badDims_inv hbd
  have hnp : npixelsOf w h = some (w * h) := by
    unfold npixelsOf
    exact mulLong_of_isLong l1
  have hmul : n * (w * h) = w * h * n := Int.mul_comm _ _
  rw [hmul] at hbs
  unfold dimsTest at ht
  by_cases hw : w ≤ 0
  · rw [if_pos hw] at ht
    cases ht
  rw [if_neg hw] at ht
  by_cases hh : h ≤ 0
  · rw [if_pos hh] at ht
    cases ht
  exact ⟨by omega, by omega, hnp, hbs⟩

theorem retOf_eq_some {r : Option (Int × PICINFO)} {v : Int} (h : retOf r = some v) :
    ∃ p, r = some (v, p) := by
  unfold retOf at h
  cases r with
  | none => simp at h
  | some x =>
    obtain ⟨a, p⟩ := x
    simp only [Option.map_some', Option.some.injEq] at h
    exact ⟨p, by rw [h]⟩

theorem loadPixels_one_inv {env : LoadEnv} {img2 : JasImage} {w h n bs : Int} {p2 p' : PICINFO}
    (h1 : loadPixels env img2 w h n bs p2 = some (1, p')) :
    ∃ pic, loadCopyCmpts img2 n.toNat (wrapInt w).toNat (wrapInt h).toNat n.toNat 0
        (List.replicate bs.toNat none) = some (true, pic) ∧
      p' = { p2 with frmType := .F_JP2, pic := some pic } := by
  unfold loadPixels at h1
  cases hm : env.mallocOk
  · simp [hm] at h1
  cases hx : env.matrixOk
  · simp [hm, hx] at h1
  simp only [hm, hx, Bool.not_true, Bool.false_eq_true, if_false] at h1
  generalize hcp : loadCopyCmpts _ _ _ _ _ _ _ = r at h1
  rcases r with _ | ⟨_ | _, pic⟩
  · simp at h1
  · simp at h1
  · simp only [Option.some.injEq, Prod.mk.injEq, true_and] at h1
    exact ⟨pic, rfl, h1.symm⟩

theorem loadDecoded_one_inv {env : LoadEnv} {img : JasImage} {pinfo p' : PICINFO}
    (h : loadDecoded env img pinfo = some (1, p')) :
    ∃ img2 p2,
      badDims img.width img.height img.numcmpts = some false ∧
      checkCmpts env img img.numcmpts
        { pinfo with w := wrapInt img.width, normw := wrapInt img.width,
                     h := wrapInt img.height, normh := wrapInt img.height } = .pass img2 p2 ∧
      loadPixels env img2 img.width img.height img.numcmpts
        (img.numcmpts * (img.width * img.height)) p2 = some (1, p') := by
  unfold loadDecoded at h
  simp only at h
  cases hbs : bufsizeOf img.width img.height img.numcmpts with
  | none =>
    rw [hbs] at h
    cases h
  | some bs =>
    rw [hbs] at h
    simp only at h
    obtain ⟨_, _, _, ebs⟩ := bufsizeOf_eq_some hbs
    subst ebs
    generalize hbd : badDims _ _ _ = bd at h
    rcases bd with _ | _ | _
    · simp at h
    · generalize hsw : checkCmpts _ _ _ _ = sw at h
      cases sw with
      | reject p2 => simp at h
      | pass img2 p2 => exact ⟨img2, p2, rfl, rfl, h⟩
    · simp at h

theorem LoadJP2K_one_inv {env : LoadEnv} {pinfo p' : PICINFO}
    (h : LoadJP2K env pinfo = some (1, p')) :
    ∃ img, env.decoded = some img ∧ loadDecoded env img pinfo = some (1, p') := by
  unfold LoadJP2K at h
  cases h1 : env.fopenOk
  · simp [h1] at h
  cases h2 : env.streamOk
  · simp [h1, h2] at h
  cases h3 : env.fmtFound
  · simp [h1, h2, h3] at h
  simp only [h1, h2, h3, Bool.not_true, Bool.false_eq_true, if_false] at h
  generalize himg : env.decoded = d at h
  cases d with
  | none => simp at h
  | some img => exact ⟨img, rfl, h⟩

theorem checkCmpts_pass_cmpts {env : LoadEnv} {img img2 : JasImage} {n : Int} {p p2 : PICINFO}
    (h : checkCmpts env img n p = .pass img2 p2) : n = 1 ∨ n = 3 := by
  unfold checkCmpts at h
  by_cases h1 : n = 1
  · exact Or.inl h1
  by_cases h3 : n = 3
  · exact Or.inr h3
  simp [h1, h3] at h


/-! ### The copy loops of `LoadJP2K` -/

theorem poke_eq_some {pic : PicBuf} {d : Nat} (v : Nat) (h : d < pic.length) :
    poke pic d v = some (pic.set d (some v)) := by
  unfold poke
  rw [if_pos h]

theorem loadCopyRow_spec (src : Nat → Int) (nc : Nat) (hnc : 0 < nc) :
    ∀ (k xx dst : Nat) (pic : PicBuf), (∀ j, j < k → dst + j * nc < pic.length) →
      ∃ pic2, loadCopyRow src nc k xx dst pic = some (dst + k * nc, pic2) ∧
        pic2.length = pic.length ∧
        (∀ j, j < k → pic2[dst + j * nc]? = some (some (toByte (src (xx + j))))) ∧
        (∀ i, (∀ j, j < k → i ≠ dst + j * nc) → pic2[i]? = pic[i]?) := by
  intro k
  induction k with
  | zero =>
    intro xx dst pic _
    exact ⟨pic, by simp [loadCopyRow], rfl, by intro j hj; omega, by intro i _; rfl⟩
  | succ k ih =>
    intro xx dst pic hb
    have h0 : dst < pic.length := by simpa using hb 0 (Nat.succ_pos k)
    have hb2 : ∀ j, j < k → (dst + nc) + j * nc < (pic.set dst (some (toByte (src xx)))).length := by
      intro j hj
      have := hb (j + 1) (by omega)
      rw [Nat.succ_mul] at this
      rw [List.length_set]
      omega
    obtain ⟨pic2, hrun, hlen, hwr, hun⟩ := ih (xx + 1) (dst + nc) _ hb2
    refine ⟨pic2, ?_, ?_, ?_, ?_⟩
    · rw [loadCopyRow, poke_eq_some _ h0]
      simp only
      rw [hrun, Nat.succ_mul]
      congr 2
      omega
    · rw [hlen, List.length_set]
    · intro j hj
      cases j with
      | zero =>
        have hne : ∀ j, j < k → dst ≠ (dst + nc) + j * nc := by
          intro j _
          omega
        rw [Nat.zero_mul, Nat.add_zero, hun dst hne, List.getElem?_set_self h0, Nat.add_zero]
      | succ j =>
        have := hwr j (by omega)
        rw [Nat.succ_mul]
        have e1 : dst + (j * nc + nc) = dst + nc + j * nc := by omega
        have e2 : xx + (j + 1) = xx + 1 + j := by omega
        rw [e1, e2]
        exact this
    · intro i hi
      have hi0 : i ≠ dst := by simpa using hi 0 (Nat.succ_pos k)
      have hne : ∀ j, j < k → i ≠ (dst + nc) + j * nc := by
        intro j hj
        have := hi (j + 1) (by omega)
        rw [Nat.succ_mul] at this
        omega
      rw [hun i hne, List.getElem?_set_ne (Ne.symm hi0)]

theorem loadCopyRows_spec (data : JasMatrix) (nc w : Nat) (hnc : 0 < nc) :
    ∀ (k yy dst : Nat) (pic : PicBuf),
      (∀ r x, r < k → x < w → dst + (r * w + x) * nc < pic.length) →
      ∃ pic2, loadCopyRows data nc w k yy dst pic = some (dst + k * w * nc, pic2) ∧
        pic2.length = pic.length ∧
        (∀ r x, r < k → x < w →
          pic2[dst + (r * w + x) * nc]? = some (some (toByte (data (yy + r) x)))) ∧
        (∀ i, (∀ r x, r < k → x < w → i ≠ dst + (r * w + x) * nc) → pic2[i]? = pic[i]?) := by
  intro k
  induction k with
  | zero =>
    intro yy dst pic _
    exact ⟨pic, by simp [loadCopyRows], rfl, by intro r x hr; omega, by intro i _; rfl⟩
  | succ k ih =>
    intro yy dst pic hb
    have hb1 : ∀ j, j < w → dst + j * nc < pic.length := by
      intro j hj
      simpa using hb 0 j (Nat.succ_pos k) hj
    obtain ⟨pic1, hrun1, hlen1, hwr1, hun1⟩ := loadCopyRow_spec (data yy) nc hnc w 0 dst pic hb1
    have hidx : ∀ r x, (dst + w * nc) + (r * w + x) * nc = dst + ((r + 1) * w + x) * nc := by
      intro r x
      ring
    have hb2 : ∀ r x, r < k → x < w → (dst + w * nc) + (r * w + x) * nc < pic1.length := by
      intro r x hr hx
      rw [hidx, hlen1]
      exact hb (r + 1) x (by omega) hx
    obtain ⟨pic2, hrun2, hlen2, hwr2, hun2⟩ := ih (yy + 1) (dst + w * nc) pic1 hb2
    have hsep : ∀ x x2 r, x < w → dst + x * nc ≠ (dst + w * nc) + (r * w + x2) * nc := by
      intro x x2 r hx
      have h1 : x * nc < w * nc := Nat.mul_lt_mul_of_pos_right hx hnc
      have h2 : 0 ≤ (r * w + x2) * nc := Nat.zero_le _
      omega
    refine ⟨pic2, ?_, ?_, ?_, ?_⟩
    · rw [loadCopyRows, hrun1]
      simp only
      rw [hrun2]
      congr 2
      ring
    · rw [hlen2, hlen1]
    · intro r x hr hx
      cases r with
      | zero =>
        have hne : ∀ r x2, r < k → x2 < w → dst + x * nc ≠ (dst + w * nc) + (r * w + x2) * nc := by
          intro r x2 _ _
          exact hsep x x2 r hx
        have := hwr1 x hx
        simp only [Nat.zero_mul, Nat.zero_add, Nat.add_zero] at this ⊢
        rw [hun2 _ hne]
        exact this
      | succ r =>
        have := hwr2 r x (by omega) hx
        rw [hidx] at this
        have e2 : yy + (r + 1) = yy + 1 + r := by omega
        rw [e2]
        exact this
    · intro i hi
      have hne2 : ∀ r x, r < k → x < w → i ≠ (dst + w * nc) + (r * w + x) * nc := by
        intro r x hr hx
        rw [hidx]
        exact hi (r + 1) x (by omega) hx
      have hne1 : ∀ j, j < w → i ≠ dst + j * nc := by
        intro j hj
        simpa using hi 0 j (Nat.succ_pos k) hj
      rw [hun2 i hne2, hun1 i hne1]

theorem interleave_index_lt {c nc w h y x : Nat} (hc : c < nc) (hy : y < h) (hx : x < w) :
    c + (y * w + x) * nc < h * w * nc := by
  have h1 : y * w + x + 1 ≤ h * w := by
    have : (y + 1) * w ≤ h * w := Nat.mul_le_mul_right w hy
    rw [Nat.succ_mul] at this
    omega
  have h2 : (y * w + x + 1) * nc ≤ h * w * nc := Nat.mul_le_mul_right nc h1
  rw [Nat.succ_mul] at h2
  omega

theorem interleave_index_ne {c1 c2 nc a b : Nat} (h1 : c1 < nc) (h2 : c2 < nc) (hne : c1 ≠ c2) :
    c1 + a * nc ≠ c2 + b * nc := by
  intro heq
  have e1 : (c1 + a * nc) % nc = c1 := by
    rw [Nat.add_mul_mod_self_right, Nat.mod_eq_of_lt h1]
  have e2 : (c2 + b * nc) % nc = c2 := by
    rw [Nat.add_mul_mod_self_right, Nat.mod_eq_of_lt h2]
  rw [heq, e2] at e1
  exact hne e1.symm

theorem loadCopyCmpts_spec (img : JasImage) (nc w h : Nat) :
    ∀ (k c : Nat) (pic : PicBuf), c + k ≤ nc → h * w * nc ≤ pic.length →
      ∃ b pic2, loadCopyCmpts img nc w h k c pic = some (b, pic2) ∧
        pic2.length = pic.length ∧
        (b = true ↔ ∀ j, j < k → (img.readcmpt (c + j)).isSome = true) ∧
        (b = true →
          (∀ j y x data, j < k → y < h → x < w → img.readcmpt (c + j) = some data →
            pic2[(c + j) + (y * w + x) * nc]? = some (some (toByte (data y x)))) ∧
          (∀ i, (∀ j y x, j < k → y < h → x < w → i ≠ (c + j) + (y * w + x) * nc) →
            pic2[i]? = pic[i]?)) := by
  intro k
  induction k with
  | zero =>
    intro c pic _ _
    refine ⟨true, pic, by simp [loadCopyCmpts], rfl, ?_, ?_⟩
    · simp
    · intro _
      exact ⟨by intro j y x data hj; omega, by intro i _; rfl⟩
  | succ k ih =>
    intro c pic hck hlen
    have hnc : 0 < nc := by omega
    have hc : c < nc := by omega
    cases hrd : img.readcmpt c with
    | none =>
      refine ⟨false, pic, by simp [loadCopyCmpts, hrd], rfl, ?_, by intro hb; cases hb⟩
      constructor
      · intro hb
        cases hb
      · intro hall
        have := hall 0 (Nat.succ_pos k)
        simp [hrd] at this
    | some data =>
      have hb1 : ∀ r x, r < h → x < w → c + (r * w + x) * nc < pic.length := by
        intro r x hr hx
        exact lt_of_lt_of_le (interleave_index_lt hc hr hx) hlen
      obtain ⟨pic1, hrun1, hlen1, hwr1, hun1⟩ := loadCopyRows_spec data nc w hnc h 0 c pic hb1
      obtain ⟨b, pic2, hrun2, hlen2, hiff2, hpr2⟩ :=
        ih (c + 1) pic1 (by omega) (by rw [hlen1]; exact hlen)
      refine ⟨b, pic2, ?_, by rw [hlen2, hlen1], ?_, ?_⟩
      · rw [loadCopyCmpts, hrd]
        simp only
        rw [hrun1]
        simp only
        exact hrun2
      · rw [hiff2]
        constructor
        · intro hall j hj
          cases j with
          | zero => simp [hrd]
          | succ j =>
            have := hall j (by omega)
            have e : c + (j + 1) = c + 1 + j := by omega
            rw [e]
            exact this
        · intro hall j hj
          have := hall (j + 1) (by omega)
          have e : c + (j + 1) = c + 1 + j := by omega
          rw [e] at this
          exact this
      · intro hb
        obtain ⟨hwr2, hun2⟩ := hpr2 hb
        constructor
        · intro j y x d hj hy hx hd
          cases j with
          | zero =>
            rw [Nat.add_zero] at hd ⊢
            rw [hrd] at hd
            cases hd
            have hne : ∀ j y2 x2, j < k → y2 < h → x2 < w →
                c + (y * w + x) * nc ≠ (c + 1 + j) + (y2 * w + x2) * nc := by
              intro j y2 x2 hj2 _ _
              exact interleave_index_ne hc (by omega) (by omega)
            rw [hun2 _ hne]
            have := hwr1 y x hy hx
            rw [Nat.zero_add] at this
            exact this
          | succ j =>
            have e : c + (j + 1) = c + 1 + j := by omega
            rw [e] at hd ⊢
            exact hwr2 j y x d (by omega) hy hx hd
        · intro i hi
          have hne2 : ∀ j y x, j < k → y < h → x < w → i ≠ (c + 1 + j) + (y * w + x) * nc := by
            intro j y x hj hy hx
            have := hi (j + 1) y x (by omega) hy hx
            have e : c + (j + 1) = c + 1 + j := by omega
            rw [e] at this
            exact this
          have hne1 : ∀ r x, r < h → x < w → i ≠ c + (r * w + x) * nc := by
            intro r x hr hx
            simpa using hi 0 r x (Nat.succ_pos k) hr hx
          rw [hun2 i hne2, hun1 i hne1]

theorem poke_length {pic pic2 : PicBuf} {d v : Nat} (h : poke pic d v = some pic2) :
    pic2.length = pic.length := by
  unfold poke at h
  split_ifs at h
  simp only [Option.some.injEq] at h
  rw [← h, List.length_set]

theorem loadCopyRow_length (src : Nat → Int) (nc : Nat) :
    ∀ (k xx dst : Nat) (pic : PicBuf) (r : Nat × PicBuf),
      loadCopyRow src nc k xx dst pic = some r → r.2.length = pic.length := by
  intro k
  induction k with
  | zero =>
    intro xx dst pic r h
    simp only [loadCopyRow, Option.some.injEq] at h
    rw [← h]
  | succ k ih =>
    intro xx dst pic r h
    rw [loadCopyRow] at h
    cases hp : poke pic dst (toByte (src xx)) with
    | none => simp [hp] at h
    | some pic1 =>
      rw [hp] at h
      simp only at h
      rw [ih _ _ _ _ h, poke_length hp]

theorem loadCopyRows_length (data : JasMatrix) (nc w : Nat) :
    ∀ (k yy dst : Nat) (pic : PicBuf) (r : Nat × PicBuf),
      loadCopyRows data nc w k yy dst pic = some r → r.2.length = pic.length := by
  intro k
  induction k with
  | zero =>
    intro yy dst pic r h
    simp only [loadCopyRows, Option.some.injEq] at h
    rw [← h]
  | succ k ih =>
    intro yy dst pic r h
    rw [loadCopyRows] at h
    cases hp : loadCopyRow (data yy) nc w 0 dst pic with
    | none => simp [hp] at h
    | some r1 =>
      obtain ⟨d1, pic1⟩ := r1
      rw [hp] at h
      simp only at h
      rw [ih _ _ _ _ h]
      exact loadCopyRow_length _ _ _ _ _ _ _ hp

theorem loadCopyCmpts_length (img : JasImage) (nc w h : Nat) :
    ∀ (k c : Nat) (pic : PicBuf) (r : Bool × PicBuf),
      loadCopyCmpts img nc w h k c pic = some r → r.2.length = pic.length := by
  intro k
  induction k with
  | zero =>
    intro c pic r hr
    simp only [loadCopyCmpts, Option.some.injEq] at hr
    rw [← hr]
  | succ k ih =>
    intro c pic r hr
    rw [loadCopyCmpts] at hr
    cases hrd : img.readcmpt c with
    | none =>
      rw [hrd] at hr
      simp only [Option.some.injEq] at hr
      rw [← hr]
    | some data =>
      rw [hrd] at hr
      simp only at hr
      cases hp : loadCopyRows data nc w h 0 c pic with
      | none => simp [hp] at hr
      | some r1 =>
        obtain ⟨d1, pic1⟩ := r1
        rw [hp] at hr
        simp only at hr
        rw [ih _ _ _ hr]
        exact loadCopyRows_length _ _ _ _ _ _ _ _ hp

/-- Where the dimension check of `LoadJP2K` has a defined outcome (no multiplication has
overflowed), an image that is not rejected has `w > 0`, `h > 0` and the exact `bufsize`
`w * h * n`, and a run that returns 1 has allocated exactly `w * h * n` bytes. -/
theorem LoadJP2K_bufsize_exact (w h n : Int) (hn : 1 ≤ n) :
    (badDims w h n = some false → 0 < w ∧ 0 < h ∧ bufsizeOf w h n = some (w * h * n)) ∧
    (∀ (env : LoadEnv) (pinfo : PICINFO) (img : JasImage),
      env.decoded = some img → img.width = w → img.height = h → img.numcmpts = n →
      retOf (LoadJP2K env pinfo) = some 1 →
      ∃ p2 pic, LoadJP2K env pinfo = some (1, p2) ∧ p2.pic = some pic ∧
        (pic.length : Int) = w * h * n) := by
  constructor
  · intro hbd
    obtain ⟨hw, hh, _, hbs⟩ := badDims_false hn hbd
    exact ⟨hw, hh, hbs⟩
  · intro env pinfo img himg hw hh hnn hret
    obtain ⟨p2, hrun⟩ := retOf_eq_some hret
    obtain ⟨img0, himg0, hdec⟩ := LoadJP2K_one_inv hrun
    rw [himg] at himg0
    cases himg0
    obtain ⟨img2, q, hbd, hsw, hpx⟩ := loadDecoded_one_inv hdec
    obtain ⟨pic, hcp, hp2⟩ := loadPixels_one_inv hpx
    rw [hw, hh, hnn] at hbd hcp
    obtain ⟨hwpos, hhpos, _, hbs⟩ := badDims_false hn hbd
    refine ⟨p2, pic, hrun, by rw [hp2], ?_⟩
    have hl := loadCopyCmpts_length _ _ _ _ _ _ _ _ hcp
    simp only [List.length_replicate] at hl
    rw [hl, Int.mul_comm n (w * h)]
    apply Int.toNat_of_nonneg
    have := Int.mul_pos (Int.mul_pos hwpos hhpos) (by omega : 0 < n)
    omega

theorem toByte_of_byte {v : Int} (h0 : 0 ≤ v) (h1 : v ≤ 255) : (toByte v : Int) = v := by
  unfold toByte
  rw [Int.toNat_of_nonneg (by omega)]
  omega

theorem toNat_mul3 {w h n : Int} (hw : 0 < w) (hh : 0 < h) (hn : 0 < n) :
    (w * h * n).toNat = h.toNat * w.toNat * n.toNat := by
  obtain ⟨W, rfl⟩ := Int.eq_ofNat_of_zero_le (le_of_lt hw)
  obtain ⟨H, rfl⟩ := Int.eq_ofNat_of_zero_le (le_of_lt hh)
  obtain ⟨N, rfl⟩ := Int.eq_ofNat_of_zero_le (le_of_lt hn)
  rw [← Nat.cast_mul, ← Nat.cast_mul]
  simp only [Int.toNat_natCast]
  ring

/-- Every index below `h * w * nc` is the interleaved position of one sample. -/
theorem interleave_index_decomp {nc w h i : Nat} (hi : i < h * w * nc) :
    ∃ c y x, c < nc ∧ y < h ∧ x < w ∧ i = c + (y * w + x) * nc := by
  have hnc : 0 < nc := by
    rcases Nat.eq_zero_or_pos nc with h0 | h0
    · rw [h0] at hi
      simp at hi
    · exact h0
  have hq : i / nc < h * w := by
    apply Nat.div_lt_of_lt_mul
    rw [Nat.mul_comm]
    exact hi
  have hw : 0 < w := by
    rcases Nat.eq_zero_or_pos w with h0 | h0
    · rw [h0] at hq
      simp at hq
    · exact h0
  refine ⟨i % nc, i / nc / w, i / nc % w, Nat.mod_lt _ hnc, ?_, Nat.mod_lt _ hw, ?_⟩
  · apply Nat.div_lt_of_lt_mul
    rw [Nat.mul_comm]
    exact hq
  · have e1 : i / nc / w * w + i / nc % w = i / nc := by
      rw [Nat.mul_comm]
      exact Nat.div_add_mod _ _
    rw [e1, Nat.mul_comm]
    have := Nat.div_add_mod i nc
    omega

/-- C2: whenever `LoadJP2K` returns 1 for a decoded image of `n` planes whose width `w` and
height `h` fit in `int`, the buffer is pixel-interleaved: for every plane `c < n`, row
`y < h` and column `x < w`, `pic[(y*w + x)*n + c]` is the sample that
`jas_image_readcmpt` delivered for component `c` at `(x, y)` (converted to a byte, which
changes nothing for a sample in `0..255`), and every one of the `w*h*n` bytes of `pic` has
been written. -/
theorem LoadJP2K_interleaved (env : LoadEnv) (pinfo : PICINFO) (img : JasImage)
    (hdec : env.decoded = some img) (hw : isInt img.width) (hh : isInt img.height)
    (hret : retOf (LoadJP2K env pinfo) = some 1) :
    ∃ img2 q p2 pic,
      checkCmpts env img img.numcmpts
        { pinfo with w := wrapInt img.width, normw := wrapInt img.width,
                     h := wrapInt img.height, normh := wrapInt img.height } = .pass img2 q ∧
      LoadJP2K env pinfo = some (1, p2) ∧ p2.pic = some pic ∧
      pic.length = img.width.toNat * img.height.toNat * img.numcmpts.toNat ∧
      (∀ c y x, c < img.numcmpts.toNat → y < img.height.toNat → x < img.width.toNat →
        ∃ data, img2.readcmpt c = some data ∧
          pic[(y * img.width.toNat + x) * img.numcmpts.toNat + c]? =
            some (some (toByte (data y x))) ∧
          (0 ≤ data y x → data y x ≤ 255 → (toByte (data y x) : Int) = data y x)) ∧
      (∀ i, i < img.width.toNat * img.height.toNat * img.numcmpts.toNat →
        ∃ v, pic[i]? = some (some v)) := by
  obtain ⟨p2, hrun⟩ := retOf_eq_some hret
  obtain ⟨img0, himg0, hd⟩ := LoadJP2K_one_inv hrun
  rw [hdec] at himg0
  cases himg0
  obtain ⟨img2, q, hbd, hsw, hpx⟩ := loadDecoded_one_inv hd
  obtain ⟨pic, hcp, hp2⟩ := loadPixels_one_inv hpx
  have hn : img.numcmpts = 1 ∨ img.numcmpts = 3 := checkCmpts_pass_cmpts hsw
  have hn1 : 1 ≤ img.numcmpts := by omega
  obtain ⟨hwpos, hhpos, _, hbs⟩ := badDims_false hn1 hbd
  rw [wrapInt_of_isInt hw, wrapInt_of_isInt hh,
    Int.mul_comm img.numcmpts (img.width * img.height), toNat_mul3 hwpos hhpos (by omega)] at hcp
  generalize hW : img.width.toNat = W at hcp ⊢
  generalize hH : img.height.toNat = H at hcp ⊢
  generalize hN : img.numcmpts.toNat = N at hcp ⊢
  obtain ⟨b, pic2, hrun2, hlen2, hiff, hpr⟩ :=
    loadCopyCmpts_spec img2 N W H N 0 (List.replicate (H * W * N) none) (by omega)
      (by simp)
  rw [hrun2] at hcp
  simp only [Option.some.injEq, Prod.mk.injEq] at hcp
  obtain ⟨hb, hpic⟩ := hcp
  subst hb hpic
  obtain ⟨hwr, _⟩ := hpr rfl
  have hall := hiff.mp rfl
  have hsamp : ∀ c y x, c < N → y < H → x < W →
      ∃ data, img2.readcmpt c = some data ∧
        pic2[(y * W + x) * N + c]? = some (some (toByte (data y x))) := by
    intro c y x hc hy hx
    have hs := hall c hc
    rw [Nat.zero_add] at hs
    obtain ⟨data, hdata⟩ := Option.isSome_iff_exists.mp hs
    refine ⟨data, hdata, ?_⟩
    have := hwr c y x data hc hy hx (by rw [Nat.zero_add]; exact hdata)
    rw [Nat.zero_add, Nat.add_comm] at this
    exact this
  refine ⟨img2, q, p2, pic2, hsw, hrun, by rw [hp2], ?_, ?_, ?_⟩
  · rw [hlen2, List.length_replicate]
    ring
  · intro c y x hc hy hx
    obtain ⟨data, hdata, hval⟩ := hsamp c y x hc hy hx
    exact ⟨data, hdata, hval, fun h0 h1 => toByte_of_byte h0 h1⟩
  · intro i hi
    have hi2 : i < H * W * N := by
      have e : H * W * N = W * H * N := by ring
      rw [e]
      exact hi
    obtain ⟨c, y, x, hc, hy, hx, hidx⟩ := interleave_index_decomp hi2
    obtain ⟨data, _, hval⟩ := hsamp c y x hc hy hx
    refine ⟨toByte (data y x), ?_⟩
    rw [hidx, Nat.add_comm]
    exact hval

/-! ### The copy loops of `StoreJP2K` and the round trip -/

theorem storeCopyRow_spec (pic : List Nat) (nc : Nat) :
    ∀ (k x src : Nat) (row : Nat → Int), (∀ j, j < k → src + j * nc < pic.length) →
      ∃ row2, storeCopyRow pic nc k x src row = some (src + k * nc, row2) ∧
        (∀ j v, j < k → pic[src + j * nc]? = some v → row2 (x + j) = (v : Int)) ∧
        (∀ i, i < x → row2 i = row i) := by
  intro k
  induction k with
  | zero =>
    intro x src row _
    exact ⟨row, by simp [storeCopyRow], by intro j v hj; omega, by intro i _; rfl⟩
  | succ k ih =>
    intro x src row hb
    have h0 : src < pic.length := by simpa using hb 0 (Nat.succ_pos k)
    have hget : pic[src]? = some pic[src] := List.getElem?_eq_getElem h0
    have hb2 : ∀ j, j < k → (src + nc) + j * nc < pic.length := by
      intro j hj
      have := hb (j + 1) (by omega)
      rw [Nat.succ_mul] at this
      omega
    obtain ⟨row2, hrun, hwr, hun⟩ :=
      ih (x + 1) (src + nc) (Function.update row x (pic[src] : Int)) hb2
    refine ⟨row2, ?_, ?_, ?_⟩
    · rw [storeCopyRow, hget]
      simp only
      rw [hrun, Nat.succ_mul]
      congr 2
      omega
    · intro j v hj hv
      cases j with
      | zero =>
        rw [Nat.zero_mul, Nat.add_zero, hget] at hv
        simp only [Option.some.injEq] at hv
        rw [Nat.add_zero, hun x (by omega), Function.update_same, hv]
      | succ j =>
        rw [Nat.succ_mul] at hv
        have e1 : src + (j * nc + nc) = src + nc + j * nc := by omega
        have e2 : x + (j + 1) = x + 1 + j := by omega
        rw [e1] at hv
        rw [e2]
        exact hwr j v (by omega) hv
    · intro i hi
      rw [hun i (by omega), Function.update_noteq (by omega)]

theorem storeCopyRows_spec (pic : List Nat) (nc w : Nat) :
    ∀ (k y src : Nat) (data : JasMatrix),
      (∀ r x, r < k → x < w → src + (r * w + x) * nc < pic.length) →
      ∃ data2, storeCopyRows pic nc w k y src data = some (src + k * w * nc, data2) ∧
        (∀ r x v, r < k → x < w → pic[src + (r * w + x) * nc]? = some v →
          data2 (y + r) x = (v : Int)) ∧
        (∀ i, i < y → data2 i = data i) := by
  intro k
  induction k with
  | zero =>
    intro y src data _
    exact ⟨data, by simp [storeCopyRows], by intro r x v hr; omega, by intro i _; rfl⟩
  | succ k ih =>
    intro y src data hb
    have hb1 : ∀ j, j < w → src + j * nc < pic.length := by
      intro j hj
      simpa using hb 0 j (Nat.succ_pos k) hj
    obtain ⟨row, hrun1, hwr1, _⟩ := storeCopyRow_spec pic nc w 0 src (data y) hb1
    have hidx : ∀ r x, (src + w * nc) + (r * w + x) * nc = src + ((r + 1) * w + x) * nc := by
      intro r x
      ring
    have hb2 : ∀ r x, r < k → x < w → (src + w * nc) + (r * w + x) * nc < pic.length := by
      intro r x hr hx
      rw [hidx]
      exact hb (r + 1) x (by omega) hx
    obtain ⟨data2, hrun2, hwr2, hun2⟩ :=
      ih (y + 1) (src + w * nc) (Function.update data y row) hb2
    refine ⟨data2, ?_, ?_, ?_⟩
    · rw [storeCopyRows, hrun1]
      simp only
      rw [hrun2]
      congr 2
      ring
    · intro r x v hr hx hv
      cases r with
      | zero =>
        simp only [Nat.zero_mul, Nat.zero_add, Nat.add_zero] at hv ⊢
        rw [hun2 y (by omega), Function.update_same]
        have := hwr1 x v hx hv
        rw [Nat.zero_add] at this
        exact this
      | succ r =>
        rw [← hidx] at hv
        have e2 : y + (r + 1) = y + 1 + r := by omega
        rw [e2]
        exact hwr2 r x v (by omega) hx hv
    · intro i hi
      rw [hun2 i (by omega), Function.update_noteq (by omega)]

theorem storeCopyCmpts_spec (pic : List Nat) (writeOk : Nat → Bool) (nc w h : Nat)
    (hok : ∀ c, c < nc → writeOk c = true) (hlen : pic.length = h * w * nc) :
    ∀ (k c : Nat) (data : JasMatrix) (planes : List JasMatrix), c + k ≤ nc → planes.length = c →
      ∃ planes2, storeCopyCmpts pic writeOk nc w h k c data planes = some (true, planes2) ∧
        planes2.length = c + k ∧
        (∀ j, j < c → planes2[j]? = planes[j]?) ∧
        (∀ j y x v, j < k → y < h → x < w → pic[(c + j) + (y * w + x) * nc]? = some v →
          ∃ m, planes2[c + j]? = some m ∧ m y x = (v : Int)) := by
  intro k
  induction k with
  | zero =>
    intro c data planes _ hpl
    exact ⟨planes, by simp [storeCopyCmpts], by omega, by intro j _; rfl,
      by intro j y x v hj; omega⟩
  | succ k ih =>
    intro c data planes hck hpl
    have hc : c < nc := by omega
    have hb1 : ∀ r x, r < h → x < w → c + (r * w + x) * nc < pic.length := by
      intro r x hr hx
      rw [hlen]
      exact interleave_index_lt hc hr hx
    obtain ⟨data2, hrun1, hwr1, _⟩ := storeCopyRows_spec pic nc w h 0 c data hb1
    obtain ⟨planes2, hrun2, hlen2, hold2, hwr2⟩ :=
      ih (c + 1) data2 (planes ++ [data2]) (by omega) (by simp [hpl])
    refine ⟨planes2, ?_, by omega, ?_, ?_⟩
    · rw [storeCopyCmpts, hrun1]
      simp only [hok c hc, Bool.not_true, Bool.false_eq_true, if_false]
      exact hrun2
    · intro j hj
      rw [hold2 j (by omega), List.getElem?_append_left (by omega)]
    · intro j y x v hj hy hx hv
      cases j with
      | zero =>
        rw [Nat.add_zero] at hv ⊢
        refine ⟨data2, ?_, ?_⟩
        · rw [hold2 c (by omega), List.getElem?_append_right (by omega), hpl]
          simp
        · have := hwr1 y x v hy hx hv
          rw [Nat.zero_add] at this
          exact this
      | succ j =>
        have e : c + (j + 1) = c + 1 + j := by omega
        rw [e] at hv ⊢
        exact hwr2 j y x v (by omega) hy hx hv

/-- C3: round trip of the plane conversion.  For every 24-bit picture `pic` of `w*h*3`
bytes, the colour copy loops of `StoreJP2K` split it into three planes (all three
`jas_image_writecmpt` calls succeeding), and the copy loops of `LoadJP2K`, run on those
same planes with a fresh buffer of `w*h*3` bytes, finish with a buffer equal to `pic`
byte for byte. -/
theorem store_load_round_trip (w h : Nat) (pic : List Nat) (writeOk : Nat → Bool)
    (hlen : pic.length = w * h * 3) (hbytes : ∀ b, b ∈ pic → b < 256)
    (hok : ∀ c, c < 3 → writeOk c = true) :
    ∃ planes, storeColourPlanes pic writeOk (w : Int) (h : Int) = some (true, planes) ∧
      loadPlanes planes 3 (w : Int) (h : Int) ((w : Int) * (h : Int) * 3) =
        some (true, pic.map some) := by
  have hlen2 : pic.length = h * w * 3 := by
    rw [hlen]
    ring
  obtain ⟨planes, hst, hpl, _, hwr⟩ :=
    storeCopyCmpts_spec pic writeOk 3 w h hok hlen2 3 0 (fun _ _ => 0) [] (by omega) rfl
  refine ⟨planes, ?_, ?_⟩
  · unfold storeColourPlanes
    simp only [Int.toNat_natCast]
    exact hst
  · unfold loadPlanes
    have ebs : ((w : Int) * (h : Int) * 3).toNat = h * w * 3 := by
      have : ((w : Int) * (h : Int) * 3) = ((h * w * 3 : Nat) : Int) := by
        push_cast
        ring
      rw [this, Int.toNat_natCast]
    have e3 : (3 : Int).toNat = 3 := rfl
    simp only [Int.toNat_natCast, ebs, e3]
    generalize himg : planesImage planes 3 (w : Int) (h : Int) = img
    have hrd : ∀ c, img.readcmpt c = planes[c]? := by
      intro c
      rw [← himg]
      rfl
    obtain ⟨b, pic2, hrun, hl2, hiff, hpr⟩ :=
      loadCopyCmpts_spec img 3 w h 3 0 (List.replicate (h * w * 3) none) (by omega) (by simp)
    have hb : b = true := by
      rw [hiff]
      intro j hj
      rw [hrd, Nat.zero_add]
      have : j < planes.length := by omega
      rw [List.getElem?_eq_getElem this]
      rfl
    subst hb
    obtain ⟨hwr2, _⟩ := hpr rfl
    rw [hrun]
    congr 2
    apply List.ext_getElem?
    intro i
    rw [List.length_replicate] at hl2
    by_cases hi : i < h * w * 3
    · obtain ⟨c, y, x, hc, hy, hx, hidx⟩ := interleave_index_decomp hi
      obtain ⟨v, hiv⟩ : ∃ v, pic[i]? = some v :=
        ⟨pic[i], List.getElem?_eq_getElem (by omega)⟩
      have hic : pic[c + (y * w + x) * 3]? = some v := by
        rw [← hidx]
        exact hiv
      obtain ⟨m, hm, hmv⟩ := hwr c y x v hc hy hx (by rw [Nat.zero_add]; exact hic)
      rw [Nat.zero_add] at hm
      have := hwr2 c y x m hc hy hx (by rw [Nat.zero_add, hrd]; exact hm)
      rw [Nat.zero_add, ← hidx, hmv] at this
      rw [this, List.getElem?_map, hiv]
      have hlt : v < 256 := hbytes _ (List.getElem?_mem hiv)
      have : toByte (v : Int) = v := by
        unfold toByte
        omega
      simp [this]
    · rw [List.getElem?_eq_none (by omega), List.getElem?_eq_none (by simp; omega)]

/-! ### The checks of `LoadJP2K` -/

theorem greyRamp_fields : ∀ (k : Nat) (p : PICINFO),
    (greyRamp k p).pic = p.pic ∧ (greyRamp k p).w = p.w ∧ (greyRamp k p).h = p.h ∧
    (greyRamp k p).type = p.type ∧ (greyRamp k p).normw = p.normw ∧
    (greyRamp k p).normh = p.normh ∧ (greyRamp k p).frmType = p.frmType ∧
    (greyRamp k p).colType = p.colType := by
  intro k
  induction k with
  | zero =>
    intro p
    simp [greyRamp]
  | succ k ih =>
    intro p
    rw [greyRamp]
    exact ih _

theorem greyRamp_w (k : Nat) (p : PICINFO) : (greyRamp k p).w = p.w :=
  (greyRamp_fields k p).2.1

theorem greyRamp_normw (k : Nat) (p : PICINFO) : (greyRamp k p).normw = p.normw :=
  (greyRamp_fields k p).2.2.2.2.1

theorem greyRamp_h (k : Nat) (p : PICINFO) : (greyRamp k p).h = p.h :=
  (greyRamp_fields k p).2.2.1

theorem greyRamp_normh (k : Nat) (p : PICINFO) : (greyRamp k p).normh = p.normh :=
  (greyRamp_fields k p).2.2.2.2.2.1

theorem greyRamp_type (k : Nat) (p : PICINFO) : (greyRamp k p).type = p.type :=
  (greyRamp_fields k p).2.2.2.1

theorem greyRamp_colType (k : Nat) (p : PICINFO) : (greyRamp k p).colType = p.colType :=
  (greyRamp_fields k p).2.2.2.2.2.2.2

theorem greyRamp_above : ∀ (k : Nat) (p : PICINFO) (i : Nat), k ≤ i →
    (greyRamp k p).r i = p.r i ∧ (greyRamp k p).g i = p.g i ∧ (greyRamp k p).b i = p.b i := by
  intro k
  induction k with
  | zero =>
    intro p i _
    simp [greyRamp]
  | succ k ih =>
    intro p i hi
    rw [greyRamp]
    obtain ⟨h1, h2, h3⟩ := ih
      { p with r := Function.update p.r k k, g := Function.update p.g k k,
               b := Function.update p.b k k } i (by omega)
    rw [h1, h2, h3]
    simp only
    rw [Function.update_noteq (by omega), Function.update_noteq (by omega),
      Function.update_noteq (by omega)]
    exact ⟨rfl, rfl, rfl⟩

theorem greyRamp_below : ∀ (k : Nat) (p : PICINFO) (i : Nat), i < k →
    (greyRamp k p).r i = i ∧ (greyRamp k p).g i = i ∧ (greyRamp k p).b i = i := by
  intro k
  induction k with
  | zero =>
    intro p i hi
    omega
  | succ k ih =>
    intro p i hi
    rw [greyRamp]
    rcases Nat.lt_or_ge i k with hlt | hge
    · exact ih _ i hlt
    · have hik : i = k := by omega
      subst hik
      obtain ⟨h1, h2, h3⟩ := greyRamp_above i
        { p with r := Function.update p.r i i, g := Function.update p.g i i,
                 b := Function.update p.b i i } i (le_refl i)
      rw [h1, h2, h3]
      simp

/-- What is known when the `switch (vstride)` block lets an image through. -/
theorem checkCmpts_pass_inv {env : LoadEnv} {img img2 : JasImage} {n : Int} {p q : PICINFO}
    (h : checkCmpts env img n p = .pass img2 q) :
    (n = 1 ∧ img2 = img ∧ img2.cmptprec 0 = 8 ∧
      q = greyRamp 256 { p with type := .PIC8, colType := .F_GREYSCALE }) ∨
    (n = 3 ∧ (img2 = img ∨ env.converted = some img2) ∧ img2.cmptprec 0 = 8 ∧
      q = { p with type := .PIC24, colType := .F_FULLCOLOR }) := by
  unfold checkCmpts at h
  by_cases h1 : n = 1
  · left
    rw [if_pos h1] at h
    split_ifs at h with ha hb
    simp only [SwitchOutcome.pass.injEq] at h
    push_neg at hb
    exact ⟨h1, h.1.symm, by rw [← h.1]; exact hb, h.2.symm⟩
  · right
    rw [if_neg h1] at h
    by_cases h3 : n = 3
    · rw [if_pos h3] at h
      split_ifs at h with ha hb hc
      · simp only at h
        cases hcv : env.converted with
        | none => simp [hcv] at h
        | some c =>
          rw [hcv] at h
          simp only at h
          split_ifs at h with hd
          simp only [SwitchOutcome.pass.injEq] at h
          push_neg at hd
          exact ⟨h3, Or.inr (by rw [h.1]), by rw [← h.1]; exact hd, h.2.symm⟩
      · simp only at h
        split_ifs at h with hd
        simp only [SwitchOutcome.pass.injEq] at h
        push_neg at hd
        exact ⟨h3, Or.inl h.1.symm, by rw [← h.1]; exact hd, h.2.symm⟩
    · rw [if_neg h3] at h
      cases h

/-- C4: `LoadJP2K` returns 1 only if the decoded image has exactly 1 or exactly 3
components; for every other component count that passes the dimension check (the file
and the stream having been opened and the format found) it returns 0 and leaves
`pinfo->pic` as it was: nothing is allocated. -/
theorem LoadJP2K_component_count (env : LoadEnv) (pinfo : PICINFO) (img : JasImage)
    (hdec : env.decoded = some img) :
    (retOf (LoadJP2K env pinfo) = some 1 → img.numcmpts = 1 ∨ img.numcmpts = 3) ∧
    (env.fopenOk = true → env.streamOk = true → env.fmtFound = true →
      badDims img.width img.height img.numcmpts = some false →
      img.numcmpts ≠ 1 → img.numcmpts ≠ 3 →
      ∃ p2, LoadJP2K env pinfo = some (0, p2) ∧ p2.pic = pinfo.pic) := by
  constructor
  · intro hret
    obtain ⟨p2, hrun⟩ := retOf_eq_some hret
    obtain ⟨img0, himg0, hd⟩ := LoadJP2K_one_inv hrun
    rw [hdec] at himg0
    cases himg0
    obtain ⟨img2, q, _, hsw, _⟩ := loadDecoded_one_inv hd
    exact checkCmpts_pass_cmpts hsw
  · intro hf hs hm hbd h1 h3
    refine ⟨{ pinfo with w := wrapInt img.width, normw := wrapInt img.width,
                         h := wrapInt img.height, normh := wrapInt img.height }, ?_, rfl⟩
    unfold LoadJP2K
    simp only [hf, hs, hm, hdec, Bool.not_true, Bool.false_eq_true, if_false]
    unfold loadDecoded
    obtain ⟨_, _, hbs, _⟩ := badDims_inv hbd
    simp only [hbs, hbd]
    unfold checkCmpts
    rw [if_neg h1, if_neg h3]

/-- A witness of C4: the 2-by-2 RGB sample image has 3 components, and a 2-component image
is turned away without a buffer. -/
theorem LoadJP2K_component_count_witness :
    ((demoImage (fun _ => 8)).numcmpts = 1 ∨ (demoImage (fun _ => 8)).numcmpts = 3) ∧
    ∃ p2, LoadJP2K (demoEnv { demoGrey 3 2 with numcmpts := 2 }) demoPinfo = some (0, p2) ∧
      p2.pic = demoPinfo.pic :=
  ⟨(LoadJP2K_component_count (demoEnv (demoImage (fun _ => 8))) demoPinfo
      (demoImage (fun _ => 8)) rfl).1 (by decide),
   (LoadJP2K_component_count (demoEnv { demoGrey 3 2 with numcmpts := 2 }) demoPinfo
      { demoGrey 3 2 with numcmpts := 2 } rfl).2 rfl rfl rfl (by decide) (by decide) (by decide)⟩

/-- The 2-by-2 RGB sample image: the check is defined, `bufsize` is 12 and 12 bytes are
allocated. -/
theorem LoadJP2K_bufsize_exact_sample :
    (0 < (2 : Int) ∧ 0 < (2 : Int) ∧ bufsizeOf 2 2 3 = some (2 * 2 * 3)) ∧
    ∃ p2 pic, LoadJP2K (demoEnv (demoImage (fun _ => 8))) demoPinfo = some (1, p2) ∧
      p2.pic = some pic ∧ (pic.length : Int) = 2 * 2 * 3 :=
  ⟨(LoadJP2K_bufsize_exact 2 2 3 (by decide)).1 (by decide),
   (LoadJP2K_bufsize_exact 2 2 3 (by decide)).2 (demoEnv (demoImage (fun _ => 8))) demoPinfo
      (demoImage (fun _ => 8)) rfl rfl rfl rfl (by decide)⟩

/-- C1: the overflow check of `LoadJP2K` comes after the overflow.  For a decoded image of
3037000500 by 3037000500 pixels with one component, and for one of 2147483647 by
2147483647 pixels with three components, a product of `npixels = w * h; bufsize = vstride *
npixels;` does not fit a `long`; the multiplication is undefined in C, so the test that
follows has no defined outcome (`badDims` is `none`) and the run of `LoadJP2K` is
undefined: the image is not known to be rejected, and `bufsize` is not `w * h * n`. -/
theorem LoadJP2K_overflow_unchecked :
    (0 < (3037000500 : Int) ∧ ¬ isLong (3037000500 * 3037000500)) ∧
    npixelsOf 3037000500 3037000500 = none ∧
    bufsizeOf 3037000500 3037000500 1 = none ∧
    badDims 3037000500 3037000500 1 = none ∧
    LoadJP2K (demoEnv (demoGrey 3037000500 3037000500)) demoPinfo = none ∧
    (isInt 2147483647 ∧ isLong (2147483647 * 2147483647) ∧
      ¬ isLong (3 * (2147483647 * 2147483647))) ∧
    bufsizeOf 2147483647 2147483647 3 = none ∧
    badDims 2147483647 2147483647 3 = none := by
  refine ⟨by decide, by decide, by decide, by decide, ?_, by decide, by decide, by decide⟩
  unfold LoadJP2K
  simp only [demoEnv, Bool.not_true, Bool.false_eq_true, if_false]
  unfold loadDecoded
  have hb : bufsizeOf (demoGrey 3037000500 3037000500).width
      (demoGrey 3037000500 3037000500).height (demoGrey 3037000500 3037000500).numcmpts = none := by
    decide
  simp only [hb]

/-- A witness of C3 on the 12 bytes of the 2-by-2 sample picture. -/
theorem store_load_round_trip_witness :
    ∃ planes, storeColourPlanes demoPic (fun _ => true) 2 2 = some (true, planes) ∧
      loadPlanes planes 3 2 2 (2 * 2 * 3) = some (true, demoPic.map some) :=
  store_load_round_trip 2 2 demoPic (fun _ => true) (by decide) (by decide) (by intro c _; rfl)

/-- The tail of `LoadJP2K` returns 1 as soon as the two allocations succeed, the copy
loops stay inside the buffer and every `jas_image_readcmpt` succeeds. -/
theorem loadPixels_total (env : LoadEnv) (img2 : JasImage) (w h n bs : Int) (p : PICINFO)
    (hm : env.mallocOk = true) (hx : env.matrixOk = true)
    (hsz : (wrapInt h).toNat * (wrapInt w).toNat * n.toNat ≤ bs.toNat)
    (hrd : ∀ c, c < n.toNat → (img2.readcmpt c).isSome = true) :
    ∃ pic, loadPixels env img2 w h n bs p =
      some (1, { p with frmType := .F_JP2, pic := some pic }) := by
  obtain ⟨b, pic, hrun, _, hiff, _⟩ :=
    loadCopyCmpts_spec img2 n.toNat (wrapInt w).toNat (wrapInt h).toNat n.toNat 0
      (List.replicate bs.toNat none) (by omega) (by rw [List.length_replicate]; exact hsz)
  have hb : b = true := by
    rw [hiff]
    intro j hj
    rw [Nat.zero_add]
    exact hrd j hj
  subst hb
  refine ⟨pic, ?_⟩
  unfold loadPixels
  simp only [hm, hx, Bool.not_true, Bool.false_eq_true, if_false]
  rw [hrun]

/-- A witness of C2 on the 2-by-2 RGB sample image. -/
theorem LoadJP2K_interleaved_witness :
    ∃ img2 q p2 pic,
      checkCmpts (demoEnv (demoImage (fun _ => 8))) (demoImage (fun _ => 8))
        (demoImage (fun _ => 8)).numcmpts
        { demoPinfo with w := wrapInt (demoImage (fun _ => 8)).width,
                         normw := wrapInt (demoImage (fun _ => 8)).width,
                         h := wrapInt (demoImage (fun _ => 8)).height,
                         normh := wrapInt (demoImage (fun _ => 8)).height } = .pass img2 q ∧
      LoadJP2K (demoEnv (demoImage (fun _ => 8))) demoPinfo = some (1, p2) ∧
      p2.pic = some pic ∧
      pic.length = (demoImage (fun _ => 8)).width.toNat *
        (demoImage (fun _ => 8)).height.toNat * (demoImage (fun _ => 8)).numcmpts.toNat ∧
      (∀ c y x, c < (demoImage (fun _ => 8)).numcmpts.toNat →
        y < (demoImage (fun _ => 8)).height.toNat → x < (demoImage (fun _ => 8)).width.toNat →
        ∃ data, img2.readcmpt c = some data ∧
          pic[(y * (demoImage (fun _ => 8)).width.toNat + x) *
              (demoImage (fun _ => 8)).numcmpts.toNat + c]? =
            some (some (toByte (data y x))) ∧
          (0 ≤ data y x → data y x ≤ 255 → (toByte (data y x) : Int) = data y x)) ∧
      (∀ i, i < (demoImage (fun _ => 8)).width.toNat * (demoImage (fun _ => 8)).height.toNat *
          (demoImage (fun _ => 8)).numcmpts.toNat →
        ∃ v, pic[i]? = some (some v)) :=
  LoadJP2K_interleaved (demoEnv (demoImage (fun _ => 8))) demoPinfo (demoImage (fun _ => 8))
    rfl (by decide) (by decide) (by decide)

theorem wrapInt_toNat_le {x : Int} (hx : 0 < x) : (wrapInt x).toNat ≤ x.toNat := by
  unfold wrapInt
  omega

/-- The narrowed loop bounds never exceed the buffer of `w * h * n` bytes. -/
theorem narrowed_bounds_le {w h n : Int} (hw : 0 < w) (hh : 0 < h) (hn : 0 < n) :
    (wrapInt h).toNat * (wrapInt w).toNat * n.toNat ≤ (w * h * n).toNat := by
  rw [toNat_mul3 hw hh hn]
  exact Nat.mul_le_mul_right _ (Nat.mul_le_mul (wrapInt_toNat_le hh) (wrapInt_toNat_le hw))

/-- A grey 8-bit image that passes the dimension check is loaded with return value 1 when
every library call succeeds; the size fields receive the narrowed dimensions. -/
theorem LoadJP2K_grey_total (env : LoadEnv) (pinfo : PICINFO) (img : JasImage)
    (hf : env.fopenOk = true) (hs : env.streamOk = true) (hfm : env.fmtFound = true)
    (hdec : env.decoded = some img) (hm : env.mallocOk = true) (hx : env.matrixOk = true)
    (hn : img.numcmpts = 1) (hbd : badDims img.width img.height 1 = some false)
    (hcs : img.clrspcUnknown = false) (hfam : img.clrspcFam = JAS_CLRSPC_FAM_GRAY)
    (hprec : img.cmptprec 0 = 8) (hrd : (img.readcmpt 0).isSome = true) :
    ∃ p, LoadJP2K env pinfo = some (1, p) ∧ p.w = wrapInt img.width ∧
      p.normw = wrapInt img.width := by
  obtain ⟨hwpos, hhpos, _, hbs⟩ := badDims_false (le_refl 1) hbd
  have hsz := narrowed_bounds_le hwpos hhpos (by decide : (0 : Int) < 1)
  obtain ⟨pic, hpx⟩ := loadPixels_total env img img.width img.height 1
    (img.width * img.height * 1)
    (greyRamp 256 { pinfo with w := wrapInt img.width, normw := wrapInt img.width,
                               h := wrapInt img.height, normh := wrapInt img.height,
                               type := .PIC8, colType := .F_GREYSCALE }) hm hx hsz
    (by intro c hc
        have : c = 0 := by
          have : (1 : Int).toNat = 1 := rfl
          omega
        subst this
        exact hrd)
  have hrun : LoadJP2K env pinfo = loadPixels env img img.width img.height 1
      (img.width * img.height * 1)
      (greyRamp 256 { pinfo with w := wrapInt img.width, normw := wrapInt img.width,
                                 h := wrapInt img.height, normh := wrapInt img.height,
                                 type := .PIC8, colType := .F_GREYSCALE }) := by
    unfold LoadJP2K
    simp only [hf, hs, hfm, hdec, Bool.not_true, Bool.false_eq_true, if_false]
    unfold loadDecoded
    simp only [hn, hbs, hbd]
    unfold checkCmpts
    simp only [hcs, hfam, hprec, if_true, ne_eq, not_true_eq_false, Bool.not_false,
      decide_False, Bool.and_false, Bool.false_eq_true, if_false]
  rw [hpx] at hrun
  refine ⟨_, hrun, ?_, ?_⟩
  · simp only [greyRamp_w]
  · simp only [greyRamp_normw]

/-- C6: the size fields are stored without a range check.  A grey 8-bit image decoded as
2147483648 by 1 passes the dimension check (`w > 0` is tested on the `long`), and
`pinfo->normw = pinfo->w = w` narrows the width to the `int` -2147483648; when the library
calls that follow succeed, `LoadJP2K` returns 1 with `w` and `normw` negative instead of
the decoded width, and with nothing copied into the buffer, the loop bound `int width = w`
being negative. -/
theorem LoadJP2K_metadata_narrowing :
    ∃ p, LoadJP2K (demoEnv (demoGrey (2 ^ 31) 1)) demoPinfo = some (1, p) ∧
      (demoGrey (2 ^ 31) 1).width = 2147483648 ∧
      badDims (demoGrey (2 ^ 31) 1).width (demoGrey (2 ^ 31) 1).height 1 = some false ∧
      p.w = -2147483648 ∧ p.normw = -2147483648 ∧
      p.w ≠ (demoGrey (2 ^ 31) 1).width ∧
      p.pic = some (List.replicate 2147483648 none) := by
  obtain ⟨p, hrun, hw, hnw⟩ := LoadJP2K_grey_total (demoEnv (demoGrey (2 ^ 31) 1))
    demoPinfo (demoGrey (2 ^ 31) 1) rfl rfl rfl rfl rfl rfl rfl (by decide) rfl rfl rfl rfl
  have e : wrapInt (demoGrey (2 ^ 31) 1).width = -2147483648 := by decide
  rw [e] at hw hnw
  refine ⟨p, hrun, by decide, by decide, hw, hnw, ?_, ?_⟩
  · rw [hw]
    decide
  · obtain ⟨img0, himg0, hd⟩ := LoadJP2K_one_inv hrun
    obtain ⟨img2, q, _, _, hpx⟩ := loadDecoded_one_inv hd
    obtain ⟨pic, hcp, hp⟩ := loadPixels_one_inv hpx
    have himg : img0 = demoGrey (2 ^ 31) 1 := by
      have : (demoEnv (demoGrey (2 ^ 31) 1)).decoded = some (demoGrey (2 ^ 31) 1) := rfl
      rw [this] at himg0
      simp only [Option.some.injEq] at himg0
      exact himg0.symm
    subst himg
    rw [hp]
    simp only [Option.some.injEq]
    have hh0 : (wrapInt (demoGrey (2 ^ 31) 1).width).toNat = 0 := by decide
    have hn1 : (demoGrey (2 ^ 31) 1).numcmpts.toNat = 1 := rfl
    have hh1 : (wrapInt (demoGrey (2 ^ 31) 1).height).toNat = 1 := by decide
    have hbs : ((demoGrey (2 ^ 31) 1).numcmpts *
        ((demoGrey (2 ^ 31) 1).width * (demoGrey (2 ^ 31) 1).height)).toNat = 2147483648 := by
      decide
    rw [hh0, hn1, hh1, hbs] at hcp
    cases hr : img2.readcmpt 0 with
    | none =>
      simp only [loadCopyCmpts, hr, Option.some.injEq, Prod.mk.injEq] at hcp
      exact absurd hcp.1 (by decide)
    | some data =>
      simp only [loadCopyCmpts, hr, loadCopyRows, loadCopyRow, Option.some.injEq,
        Prod.mk.injEq, true_and] at hcp
      exact hcp.symm

/-- The picture fields left by the `switch (vstride)` block when it lets an image through. -/
theorem checkCmpts_pass_fields {env : LoadEnv} {img img2 : JasImage} {n : Int} {p q : PICINFO}
    (h : checkCmpts env img n p = .pass img2 q) :
    q.w = p.w ∧ q.normw = p.normw ∧ q.h = p.h ∧ q.normh = p.normh ∧
    (n = 1 → q.type = .PIC8 ∧ q.colType = .F_GREYSCALE ∧
      ∀ i, i < 256 → q.r i = i ∧ q.g i = i ∧ q.b i = i) ∧
    (n = 3 → q.type = .PIC24 ∧ q.colType = .F_FULLCOLOR) := by
  rcases checkCmpts_pass_inv h with ⟨hn, _, _, hq⟩ | ⟨hn, _, _, hq⟩
  · rw [hq]
    refine ⟨greyRamp_w _ _, greyRamp_normw _ _, greyRamp_h _ _, greyRamp_normh _ _, ?_, ?_⟩
    · intro _
      exact ⟨greyRamp_type _ _, greyRamp_colType _ _, fun i hi => greyRamp_below 256 _ i hi⟩
    · intro h3
      omega
  · rw [hq]
    refine ⟨rfl, rfl, rfl, rfl, ?_, ?_⟩
    · intro h1
      omega
    · intro _
      exact ⟨rfl, rfl⟩

/-- The picture fields after a successful load: for a 1-component image `type = PIC8`,
`colType = F_GREYSCALE` and the colour map is the identity grey ramp; for a 3-component
image `type = PIC24` and `colType = F_FULLCOLOR`; the size fields hold what the assignments
`pinfo->normw = pinfo->w = w` and `pinfo->normh = pinfo->h = h` leave of the `long` values
in an `int`, which are the decoded width and height whenever these fit in `int`. -/
theorem LoadJP2K_metadata (env : LoadEnv) (pinfo : PICINFO) (img : JasImage)
    (hdec : env.decoded = some img) (hret : retOf (LoadJP2K env pinfo) = some 1) :
    ∃ p, LoadJP2K env pinfo = some (1, p) ∧
      (img.numcmpts = 1 → p.type = .PIC8 ∧ p.colType = .F_GREYSCALE ∧
        ∀ i, i < 256 → p.r i = i ∧ p.g i = i ∧ p.b i = i) ∧
      (img.numcmpts = 3 → p.type = .PIC24 ∧ p.colType = .F_FULLCOLOR) ∧
      p.w = wrapInt img.width ∧ p.normw = wrapInt img.width ∧
      p.h = wrapInt img.height ∧ p.normh = wrapInt img.height ∧
      (isInt img.width → p.w = img.width ∧ p.normw = img.width) ∧
      (isInt img.height → p.h = img.height ∧ p.normh = img.height) := by
  obtain ⟨p, hrun⟩ := retOf_eq_some hret
  obtain ⟨img0, himg0, hd⟩ := LoadJP2K_one_inv hrun
  rw [hdec] at himg0
  cases himg0
  obtain ⟨img2, q, _, hsw, hpx⟩ := loadDecoded_one_inv hd
  obtain ⟨pic, _, hp⟩ := loadPixels_one_inv hpx
  obtain ⟨fw, fnw, fh, fnh, f1, f3⟩ := checkCmpts_pass_fields hsw
  simp only at fw fnw fh fnh
  have hpw : p.w = wrapInt img.width := by rw [hp]; exact fw
  have hpnw : p.normw = wrapInt img.width := by rw [hp]; exact fnw
  have hph : p.h = wrapInt img.height := by rw [hp]; exact fh
  have hpnh : p.normh = wrapInt img.height := by rw [hp]; exact fnh
  refine ⟨p, hrun, ?_, ?_, hpw, hpnw, hph, hpnh, ?_, ?_⟩
  · intro h1
    rw [hp]
    exact f1 h1
  · intro h3
    rw [hp]
    exact f3 h3
  · intro hi
    rw [hpw, hpnw, wrapInt_of_isInt hi]
    exact ⟨rfl, rfl⟩
  · intro hi
    rw [hph, hpnh, wrapInt_of_isInt hi]
    exact ⟨rfl, rfl⟩

/-- The picture fields of the 3-by-2 grey sample image after its load. -/
theorem LoadJP2K_metadata_sample :
    ∃ p, LoadJP2K (demoEnv (demoGrey 3 2)) demoPinfo = some (1, p) ∧
      ((demoGrey 3 2).numcmpts = 1 → p.type = .PIC8 ∧ p.colType = .F_GREYSCALE ∧
        ∀ i, i < 256 → p.r i = i ∧ p.g i = i ∧ p.b i = i) ∧
      ((demoGrey 3 2).numcmpts = 3 → p.type = .PIC24 ∧ p.colType = .F_FULLCOLOR) ∧
      p.w = wrapInt (demoGrey 3 2).width ∧ p.normw = wrapInt (demoGrey 3 2).width ∧
      p.h = wrapInt (demoGrey 3 2).height ∧ p.normh = wrapInt (demoGrey 3 2).height ∧
      (isInt (demoGrey 3 2).width → p.w = (demoGrey 3 2).width ∧ p.normw = (demoGrey 3 2).width) ∧
      (isInt (demoGrey 3 2).height →
        p.h = (demoGrey 3 2).height ∧ p.normh = (demoGrey 3 2).height) :=
  LoadJP2K_metadata (demoEnv (demoGrey 3 2)) demoPinfo (demoGrey 3 2) rfl (by decide)

/-! ## Theorems: `xvpopup.c` -/

/-! ### The filter of the text field -/

theorem filterScan_le (c : Int) : ∀ f : List Int, filterScan c f ≤ f.length := by
  intro f
  induction f with
  | nil => simp [filterScan]
  | cons a f ih =>
    rw [filterScan]
    split_ifs
    · simp only [List.length_cons]
      omega
    · omega

theorem filterScan_lt_iff (c : Int) : ∀ f : List Int, filterScan c f < f.length ↔ c ∈ f := by
  intro f
  induction f with
  | nil => simp [filterScan]
  | cons a f ih =>
    rw [filterScan]
    by_cases hca : c = a
    · simp [hca]
    · simp only [ne_eq, hca, not_false_eq_true, if_true, List.length_cons, List.mem_cons, false_or]
      rw [← ih]
      omega

theorem filterScan_eq_iff (c : Int) (f : List Int) : filterScan c f = f.length ↔ c ∉ f := by
  rw [← filterScan_lt_iff]
  have := filterScan_le c f
  omega

/-- A printable character that the filter turns away makes `doGSEdit` return 1 at once. -/
theorem doGSEdit_filtered (s : PopState) (c : Int) (filter : List Int) (n : Nat)
    (hc : 32 ≤ c ∧ c < 127) (hf : s.gsFilter = some filter) (hlen : strlen s.gsBuf = some n)
    (hrej : (s.gsAllow = 0 ∧ c ∈ filter) ∨ (s.gsAllow ≠ 0 ∧ filter ≠ [] ∧ c ∉ filter)) :
    doGSEdit s c = some (1, s) := by
  have hfr : filterRejects s c = true := by
    unfold filterRejects
    simp only [hf, Option.getD_some, decide_eq_true_eq]
    rcases hrej with ⟨ha, hin⟩ | ⟨ha, hne, hnin⟩
    · have h1 : filterScan c filter < filter.length := (filterScan_lt_iff c filter).mpr hin
      exact ⟨by omega, Or.inl ⟨ha, h1⟩⟩
    · have h1 : filterScan c filter = filter.length := (filterScan_eq_iff c filter).mpr hnin
      have h2 : filter.length ≠ 0 := by
        intro h0
        exact hne (List.length_eq_zero.mp h0)
      exact ⟨h2, Or.inr ⟨ha, h1⟩⟩
  unfold doGSEdit
  simp only [hlen]
  rw [if_pos hc, if_pos hfr]

theorem doGSKey_of_edit_one (env : XEnv) {s : PopState} {c : Int}
    (h : doGSEdit s c = some (1, s)) : doGSKey env s c = some (1, s) := by
  unfold doGSKey
  rw [h]
  simp

/-- With an empty filter string the filter test of `doGSEdit` is skipped: a printable
character is turned away only when the buffer is full. -/
theorem doGSEdit_empty_filter (s : PopState) (c : Int) (n : Nat)
    (hc : 32 ≤ c ∧ c < 127) (hf : s.gsFilter = some []) (hlen : strlen s.gsBuf = some n)
    (hroom : (n : Int) < s.gsBufLen - 1) :
    ∀ r, doGSEdit s c = some r → r.1 = 0 := by
  intro r hr
  have hfr : filterRejects s c = false := by
    unfold filterRejects
    simp [hf]
  unfold doGSEdit at hr
  simp only [hlen] at hr
  rw [if_pos hc, hfr] at hr
  simp only [Bool.false_eq_true, if_false] at hr
  unfold gsInsert at hr
  rw [if_neg (by omega)] at hr
  cases hb : bcopy s.gsBuf s.gsCurPos (s.gsCurPos + 1) ((n : Int) - s.gsCurPos + 1) with
  | none =>
    rw [hb] at hr
    cases hr
  | some b1 =>
    rw [hb] at hr
    simp only at hr
    cases hs : storeChar b1 s.gsCurPos c with
    | none =>
      rw [hs] at hr
      cases hr
    | some b2 =>
      rw [hs] at hr
      simp only [Option.some.injEq] at hr
      rw [← hr]

/-- C10 as stated fails for the empty filter string: with `allow = 1` and the filter `""`
the printable character `x` (120), which does not occur in the filter, is accepted
(`doGSKey` returns 0 and the buffer `"ab"` becomes `"abx"`). -/
theorem doGSKey_filter_counterexample :
    (32 ≤ (120 : Int) ∧ (120 : Int) < 127) ∧
    (demoText (some []) 1).gsFilter = some [] ∧ (demoText (some []) 1).gsAllow = 1 ∧
    (120 : Int) ∉ ([] : List Int) ∧
    (doGSKey demoXEnv (demoText (some []) 1) 120).map (fun r => (r.1, r.2.gsBuf)) =
      some (0, [97, 98, 120, 0, 0, 0, 0, 0]) := by
  decide

/-- C10, amended: for every printable character `c` typed into a text field whose buffer
is a C string, if `allow` is 0 then `c` is rejected (`doGSKey` returns 1, state unchanged)
whenever it occurs in the filter string; if `allow` is 1 and the filter string is not
empty then `c` is rejected whenever it does not occur in the filter string, so that it is
accepted only when it occurs there; with an empty filter string nothing is filtered: while
there is room in the buffer `doGSKey` never returns 1. -/
theorem doGSKey_filter (env : XEnv) (s : PopState) (c : Int) (filter : List Int) (n : Nat)
    (hc : 32 ≤ c ∧ c < 127) (hf : s.gsFilter = some filter) (hlen : strlen s.gsBuf = some n) :
    (s.gsAllow = 0 → c ∈ filter → doGSKey env s c = some (1, s)) ∧
    (s.gsAllow = 1 → filter ≠ [] → c ∉ filter → doGSKey env s c = some (1, s)) ∧
    (s.gsAllow = 1 → filter ≠ [] → ∀ r, doGSKey env s c = some r → r.1 = 0 → c ∈ filter) ∧
    (filter = [] → (n : Int) < s.gsBufLen - 1 → ∀ r, doGSKey env s c = some r → r.1 = 0) := by
  refine ⟨?_, ?_, ?_, ?_⟩
  · intro ha hin
    exact doGSKey_of_edit_one env (doGSEdit_filtered s c filter n hc hf hlen (Or.inl ⟨ha, hin⟩))
  · intro ha hne hnin
    exact doGSKey_of_edit_one env
      (doGSEdit_filtered s c filter n hc hf hlen (Or.inr ⟨by omega, hne, hnin⟩))
  · intro ha hne r hr h0
    by_contra hnin
    have := doGSKey_of_edit_one env
      (doGSEdit_filtered s c filter n hc hf hlen (Or.inr ⟨by omega, hne, hnin⟩))
    rw [this] at hr
    simp only [Option.some.injEq] at hr
    rw [← hr] at h0
    simp at h0
  · intro hnil hroom r hr
    subst hnil
    unfold doGSKey at hr
    cases he : doGSEdit s c with
    | none =>
      rw [he] at hr
      cases hr
    | some e =>
      obtain ⟨r0, s2⟩ := e
      have h0 : r0 = 0 := doGSEdit_empty_filter s c n hc hf hlen hroom (r0, s2) he
      subst h0
      rw [he] at hr
      simp only [ne_eq, not_true_eq_false, if_false] at hr
      cases hcg : changedGSBuf env s2 with
      | none =>
        rw [hcg] at hr
        cases hr
      | some s3 =>
        rw [hcg] at hr
        simp only [Option.some.injEq] at hr
        rw [← hr]

/-- A witness of the amended C10: the filter `"xy"` with `allow = 0` rejects `x`, with
`allow = 1` it rejects `a`; the empty filter lets `x` through. -/
theorem doGSKey_filter_witness :
    doGSKey demoXEnv (demoText (some [120, 121]) 0) 120 = some (1, demoText (some [120, 121]) 0) ∧
    doGSKey demoXEnv (demoText (some [120, 121]) 1) 97 = some (1, demoText (some [120, 121]) 1) ∧
    (∀ r, doGSKey demoXEnv (demoText (some []) 1) 120 = some r → r.1 = 0) :=
  ⟨(doGSKey_filter demoXEnv (demoText (some [120, 121]) 0) 120 [120, 121] 2 (by decide) rfl
      (by decide)).1 rfl (by decide),
   (doGSKey_filter demoXEnv (demoText (some [120, 121]) 1) 97 [120, 121] 2 (by decide) rfl
      (by decide)).2.1 rfl (by decide) (by decide),
   (doGSKey_filter demoXEnv (demoText (some []) 1) 120 [] 2 (by decide) rfl
      (by decide)).2.2.2 rfl (by decide)⟩

/-! ### What the text field and the pad dialog leave alone -/

theorem sameControl_refl (s : PopState) : sameControl s s := ⟨rfl, rfl, rfl, rfl, rfl⟩

theorem sameControl_trans {s s2 s3 : PopState} (h1 : sameControl s s2) (h2 : sameControl s2 s3) :
    sameControl s s3 := by
  obtain ⟨a1, a2, a3, a4, a5⟩ := h1
  obtain ⟨b1, b2, b3, b4, b5⟩ := h2
  exact ⟨b1.trans a1, b2.trans a2, b3.trans a3, b4.trans a4, b5.trans a5⟩

theorem changedGSBuf_control {env : XEnv} {s s2 : PopState} (h : changedGSBuf env s = some s2) :
    sameControl s s2 ∧ s2.gsBuf = s.gsBuf := by
  unfold changedGSBuf at h
  split at h
  · cases h
  · simp only at h
    split at h
    · cases h
    · simp only [Option.some.injEq] at h
      subst h
      exact ⟨⟨rfl, rfl, rfl, rfl, rfl⟩, rfl⟩

theorem gsInsert_control {s s2 : PopState} {len c r : Int}
    (h : gsInsert s len c = some (r, s2)) : sameControl s s2 := by
  unfold gsInsert at h
  split_ifs at h
  · simp only [Option.some.injEq, Prod.mk.injEq] at h
    rw [← h.2]
    exact sameControl_refl s
  · cases hb : bcopy s.gsBuf s.gsCurPos (s.gsCurPos + 1) (len - s.gsCurPos + 1) with
    | none =>
      rw [hb] at h
      cases h
    | some b1 =>
      rw [hb] at h
      simp only at h
      cases hs : storeChar b1 s.gsCurPos c with
      | none =>
        rw [hs] at h
        cases h
      | some b2 =>
        rw [hs] at h
        simp only [Option.some.injEq, Prod.mk.injEq] at h
        rw [← h.2]
        exact ⟨rfl, rfl, rfl, rfl, rfl⟩

theorem gsBackspace_control {s s2 : PopState} {len r : Int}
    (h : gsBackspace s len = some (r, s2)) : sameControl s s2 := by
  unfold gsBackspace at h
  split_ifs at h
  · simp only [Option.some.injEq, Prod.mk.injEq] at h
    rw [← h.2]
    exact sameControl_refl s
  · cases hb : bcopy s.gsBuf s.gsCurPos (s.gsCurPos - 1) (len - s.gsCurPos + 1) with
    | none =>
      rw [hb] at h
      cases h
    | some b1 =>
      rw [hb] at h
      simp only [Option.some.injEq, Prod.mk.injEq] at h
      rw [← h.2]
      exact ⟨rfl, rfl, rfl, rfl, rfl⟩

theorem gsClearLine_control {s s2 : PopState} {r : Int}
    (h : gsClearLine s = some (r, s2)) : sameControl s s2 := by
  unfold gsClearLine at h
  cases hb : storeChar s.gsBuf 0 0 with
  | none =>
    rw [hb] at h
    cases h
  | some b1 =>
    rw [hb] at h
    simp only [Option.some.injEq, Prod.mk.injEq] at h
    rw [← h.2]
    exact ⟨rfl, rfl, rfl, rfl, rfl⟩

theorem gsKillToEnd_control {s s2 : PopState} {r : Int}
    (h : gsKillToEnd s = some (r, s2)) : sameControl s s2 := by
  unfold gsKillToEnd at h
  cases hb : storeChar s.gsBuf s.gsCurPos 0 with
  | none =>
    rw [hb] at h
    cases h
  | some b1 =>
    rw [hb] at h
    simp only [Option.some.injEq, Prod.mk.injEq] at h
    rw [← h.2]
    exact ⟨rfl, rfl, rfl, rfl, rfl⟩

theorem gsDelete_control {s s2 : PopState} {len r : Int}
    (h : gsDelete s len = some (r, s2)) : sameControl s s2 := by
  unfold gsDelete at h
  split_ifs at h
  · simp only [Option.some.injEq, Prod.mk.injEq] at h
    rw [← h.2]
    exact sameControl_refl s
  · cases hb : bcopy s.gsBuf (s.gsCurPos + 1) s.gsCurPos (len - s.gsCurPos) with
    | none =>
      rw [hb] at h
      cases h
    | some b1 =>
      rw [hb] at h
      simp only [Option.some.injEq, Prod.mk.injEq] at h
      rw [← h.2]
      exact ⟨rfl, rfl, rfl, rfl, rfl⟩

/-- The branches of `doGSEdit` on a buffer whose `strlen` is `n`. -/
theorem doGSEdit_cases (s : PopState) (c : Int) (n : Nat) (hl : strlen s.gsBuf = some n) :
    doGSEdit s c = some (1, s) ∨ doGSEdit s c = gsInsert s n c ∨
    doGSEdit s c = gsBackspace s n ∨ doGSEdit s c = gsClearLine s ∨
    doGSEdit s c = gsKillToEnd s ∨ doGSEdit s c = gsDelete s n ∨
    ∃ p : Int, (p = 0 ∨ p = n ∨ (p = s.gsCurPos - 1 ∧ s.gsCurPos ≠ 0) ∨
        (p = s.gsCurPos + 1 ∧ s.gsCurPos ≠ n)) ∧
      doGSEdit s c = some (0, { s with gsCurPos := p }) := by
  unfold doGSEdit
  simp only [hl]
  by_cases h1 : 32 ≤ c ∧ c < 127
  · rw [if_pos h1]
    by_cases h2 : filterRejects s c = true
    · rw [if_pos h2]
      exact Or.inl rfl
    · rw [if_neg h2]
      exact Or.inr (Or.inl rfl)
  rw [if_neg h1]
  by_cases h3 : c = 8
  · rw [if_pos h3]
    exact Or.inr (Or.inr (Or.inl rfl))
  rw [if_neg h3]
  by_cases h4 : c = 21
  · rw [if_pos h4]
    exact Or.inr (Or.inr (Or.inr (Or.inl rfl)))
  rw [if_neg h4]
  by_cases h5 : c = 11
  · rw [if_pos h5]
    exact Or.inr (Or.inr (Or.inr (Or.inr (Or.inl rfl))))
  rw [if_neg h5]
  by_cases h6 : c = 1
  · rw [if_pos h6]
    exact Or.inr (Or.inr (Or.inr (Or.inr (Or.inr (Or.inr ⟨0, Or.inl rfl, rfl⟩)))))
  rw [if_neg h6]
  by_cases h7 : c = 5
  · rw [if_pos h7]
    exact Or.inr (Or.inr (Or.inr (Or.inr (Or.inr (Or.inr ⟨n, Or.inr (Or.inl rfl), rfl⟩)))))
  rw [if_neg h7]
  by_cases h8 : c = 4 ∨ c = 127
  · rw [if_pos h8]
    exact Or.inr (Or.inr (Or.inr (Or.inr (Or.inr (Or.inl rfl)))))
  rw [if_neg h8]
  by_cases h9 : c = 2
  · rw [if_pos h9]
    by_cases hz : s.gsCurPos = 0
    · rw [if_pos hz]
      exact Or.inl rfl
    · rw [if_neg hz]
      exact Or.inr (Or.inr (Or.inr (Or.inr (Or.inr (Or.inr
        ⟨s.gsCurPos - 1, Or.inr (Or.inr (Or.inl ⟨rfl, hz⟩)), rfl⟩)))))
  rw [if_neg h9]
  by_cases h10 : c = 6
  · rw [if_pos h10]
    by_cases hz : s.gsCurPos = n
    · rw [if_pos hz]
      exact Or.inl rfl
    · rw [if_neg hz]
      exact Or.inr (Or.inr (Or.inr (Or.inr (Or.inr (Or.inr
        ⟨s.gsCurPos + 1, Or.inr (Or.inr (Or.inr ⟨rfl, hz⟩)), rfl⟩)))))
  rw [if_neg h10]
  exact Or.inl rfl

theorem doGSEdit_control {s s2 : PopState} {c r : Int} (h : doGSEdit s c = some (r, s2)) :
    sameControl s s2 := by
  cases hl : strlen s.gsBuf with
  | none =>
    unfold doGSEdit at h
    simp only [hl] at h
    cases h
  | some n =>
    rcases doGSEdit_cases s c n hl with h1 | h1 | h1 | h1 | h1 | h1 | ⟨p, _, h1⟩
    all_goals rw [h1] at h
    · simp only [Option.some.injEq, Prod.mk.injEq] at h
      rw [← h.2]
      exact sameControl_refl s
    · exact gsInsert_control h
    · exact gsBackspace_control h
    · exact gsClearLine_control h
    · exact gsKillToEnd_control h
    · exact gsDelete_control h
    · simp only [Option.some.injEq, Prod.mk.injEq] at h
      rw [← h.2]
      exact ⟨rfl, rfl, rfl, rfl, rfl⟩

theorem doGSKey_control {env : XEnv} {s s2 : PopState} {c r : Int}
    (h : doGSKey env s c = some (r, s2)) : sameControl s s2 := by
  unfold doGSKey at h
  cases he : doGSEdit s c with
  | none =>
    rw [he] at h
    cases h
  | some e =>
    obtain ⟨r0, s1⟩ := e
    rw [he] at h
    simp only at h
    have h1 := doGSEdit_control he
    split_ifs at h with hr
    · simp only [Option.some.injEq, Prod.mk.injEq] at h
      rw [← h.2]
      exact h1
    · cases hc : changedGSBuf env s1 with
      | none =>
        rw [hc] at h
        cases h
      | some s3 =>
        rw [hc] at h
        simp only [Option.some.injEq, Prod.mk.injEq] at h
        rw [← h.2]
        exact sameControl_trans h1 (changedGSBuf_control hc).1

theorem doGetStrKey_control {env : XEnv} {s s2 : PopState} {c : Int}
    (h : doGetStrKey env s c = some s2) : sameControl s s2 := by
  unfold doGetStrKey at h
  cases hk : doGSKey env s c with
  | none =>
    rw [hk] at h
    cases h
  | some k =>
    obtain ⟨r, s3⟩ := k
    rw [hk] at h
    simp only [Option.map_some', Option.some.injEq] at h
    subst h
    exact doGSKey_control hk

theorem padRetarget_control {env : XEnv} {s s2 : PopState} {b : List Int}
    (h : padRetarget env s b = some s2) : sameControl s s2 := by
  unfold padRetarget at h
  cases hl : strlen b with
  | none =>
    rw [hl] at h
    cases h
  | some n =>
    rw [hl] at h
    simp only at h
    obtain ⟨⟨a1, a2, a3, a4, a5⟩, _⟩ := changedGSBuf_control h
    exact ⟨a1, a2, a3, a4, a5⟩

theorem clickPad_control {env : XEnv} {s s2 : PopState} {xev : XEvent} {x y : Int}
    (h : clickPad env s xev x y = some s2) : sameControl s s2 := by
  unfold clickPad at h
  by_cases h1 : env.PTINRECT x y s.padDButt.x s.padDButt.y s.padDButt.w s.padDButt.h = true
  · rw [if_pos h1] at h
    cases h
    exact sameControl_refl s
  rw [if_neg h1] at h
  by_cases h2 : env.PTINRECT x y s.padOMButt.x s.padOMButt.y s.padOMButt.w s.padOMButt.h = true
  · rw [if_pos h2] at h
    by_cases h3 : xev.padTrack = true
    · rw [if_pos h3] at h
      by_cases h4 : env.PAD_OMAX = 0
      · rw [if_pos h4] at h
        cases h
      · rw [if_neg h4] at h
        cases h
        exact ⟨rfl, rfl, rfl, rfl, rfl⟩
    · rw [if_neg h3] at h
      cases h
      exact sameControl_refl s
  rw [if_neg h2] at h
  by_cases h5 : xev.mthdClick = true
  · rw [if_pos h5] at h
    simp only at h
    by_cases h6 : xev.menuChoice < 0 ∨ xev.menuChoice = s.padMode
    · rw [if_pos h6] at h
      cases h
      exact sameControl_refl s
    · rw [if_neg h6] at h
      cases hm : padMethodCopy s xev.menuChoice with
      | none =>
        rw [hm] at h
        cases h
      | some b =>
        rw [hm] at h
        simp only at h
        cases hr : padRetarget env s b with
        | none =>
          rw [hr] at h
          cases h
        | some s3 =>
          rw [hr] at h
          simp only [Option.some.injEq] at h
          obtain ⟨a1, a2, a3, a4, a5⟩ := padRetarget_control hr
          rw [← h]
          exact ⟨a1, a2, a3, a4, a5⟩
  rw [if_neg h5] at h
  by_cases h7 : xev.dfltClick = true
  · rw [if_pos h7] at h
    simp only at h
    by_cases h8 : xev.menuChoice < 0
    · rw [if_pos h8] at h
      cases h
      exact sameControl_refl s
    · rw [if_neg h8] at h
      cases hm : padDefaultCopy s xev.menuChoice with
      | none =>
        rw [hm] at h
        cases h
      | some b =>
        rw [hm] at h
        exact padRetarget_control h
  rw [if_neg h7] at h
  cases h
  exact sameControl_refl s

/-- A click in the pop-up window either ends the pop-up on a button found under the pointer
and tracked, or leaves the control variables alone. -/
theorem clickPUD_cases {env : XEnv} {s s2 : PopState} {xev : XEvent} {x y : Int}
    (h : clickPUD env s xev x y = some s2) :
    sameControl s s2 ∨
    ∃ i : Nat, findButton env s.bts x y s.nbts.toNat 0 = some i ∧ (i : Int) < s.nbts ∧
      xev.btTrack = true ∧ s2 = { s with popUp := 0, selected := i } := by
  unfold clickPUD at h
  cases hf : findButton env s.bts x y s.nbts.toNat 0 with
  | none =>
    rw [hf] at h
    cases h
  | some i =>
    rw [hf] at h
    simp only at h
    by_cases h1 : (i : Int) < s.nbts ∧ xev.btTrack = true
    · rw [if_pos h1] at h
      simp only [Option.some.injEq] at h
      exact Or.inr ⟨i, rfl, h1.1, h1.2, h.symm⟩
    rw [if_neg h1] at h
    left
    by_cases h2 : s.popUp = ISGRAB ∧ xev.cbClick = true
    · rw [if_pos h2] at h
      cases h
      exact sameControl_refl s
    rw [if_neg h2] at h
    by_cases h3 : s.popUp = ISPAD
    · rw [if_pos h3] at h
      exact clickPad_control h
    rw [if_neg h3] at h
    cases h
    exact sameControl_refl s

theorem doGetStrKey_map_control {env : XEnv} {s s2 : PopState} {c rv : Int}
    (h : (doGetStrKey env s c).map (fun s3 => ((1 : Int), s3)) = some (rv, s2)) :
    sameControl s s2 ∧ rv = 1 := by
  cases hk : doGetStrKey env s c with
  | none =>
    rw [hk] at h
    cases h
  | some s3 =>
    rw [hk] at h
    simp only [Option.map_some', Option.some.injEq, Prod.mk.injEq] at h
    rw [← h.2]
    exact ⟨doGetStrKey_control hk, h.1.symm⟩

theorem keyCursor_control {env : XEnv} {s s2 : PopState} {xev : XEvent} {rv : Int}
    (h : keyCursor env s xev = some (rv, s2)) : sameControl s s2 ∧ (rv = 0 ∨ rv = 1) := by
  unfold keyCursor at h
  by_cases h1 : hasTextField s = true
  · rw [if_pos h1] at h
    by_cases h2 : xev.ck = .CK_LEFT
    · rw [if_pos h2] at h
      obtain ⟨a, b⟩ := doGetStrKey_map_control h
      exact ⟨a, Or.inr b⟩
    rw [if_neg h2] at h
    by_cases h3 : xev.ck = .CK_RIGHT
    · rw [if_pos h3] at h
      obtain ⟨a, b⟩ := doGetStrKey_map_control h
      exact ⟨a, Or.inr b⟩
    rw [if_neg h3] at h
    simp only [Option.some.injEq, Prod.mk.injEq] at h
    rw [← h.2]
    exact ⟨sameControl_refl s, Or.inl h.1.symm⟩
  · rw [if_neg h1] at h
    simp only [Option.some.injEq, Prod.mk.injEq] at h
    rw [← h.2]
    exact ⟨sameControl_refl s, Or.inl h.1.symm⟩

theorem keyChar_control {env : XEnv} {s s2 : PopState} {xev : XEvent} {rv1 rv : Int}
    (h : keyChar env s rv1 xev = some (rv, s2)) :
    sameControl s s2 ∧ (rv = 0 ∨ rv = 1 ∨ rv = rv1) := by
  unfold keyChar at h
  by_cases h1 : xev.stlen ≠ 0 ∧ rv1 = 0
  · rw [if_pos h1] at h
    simp only at h
    by_cases h2 : accelHit s.accel s.nbts (if xev.buf0 = 13 then 10 else xev.buf0) = true
    · rw [if_pos h2] at h
      simp only [Option.some.injEq, Prod.mk.injEq] at h
      rw [← h.2]
      exact ⟨sameControl_refl s, Or.inr (Or.inl h.1.symm)⟩
    rw [if_neg h2] at h
    by_cases h3 : (if xev.buf0 = 13 then 10 else xev.buf0) = 27 ∧ s.nbts = 1
    · rw [if_pos h3] at h
      simp only [Option.some.injEq, Prod.mk.injEq] at h
      rw [← h.2]
      exact ⟨sameControl_refl s, Or.inr (Or.inl h.1.symm)⟩
    rw [if_neg h3] at h
    by_cases h4 : hasTextField s = true
    · rw [if_pos h4] at h
      by_cases h5 : xev.window = s.popW
      · rw [if_pos h5] at h
        obtain ⟨a, b⟩ := doGetStrKey_map_control h
        exact ⟨a, Or.inr (Or.inl b)⟩
      · rw [if_neg h5] at h
        simp only [Option.some.injEq, Prod.mk.injEq] at h
        rw [← h.2]
        exact ⟨sameControl_refl s, Or.inl h.1.symm⟩
    · rw [if_neg h4] at h
      simp only [Option.some.injEq, Prod.mk.injEq] at h
      rw [← h.2]
      exact ⟨sameControl_refl s, Or.inl h.1.symm⟩
  · rw [if_neg h1] at h
    simp only [Option.some.injEq, Prod.mk.injEq] at h
    rw [← h.2]
    exact ⟨sameControl_refl s, Or.inr (Or.inr h.1.symm)⟩

theorem keyPress_control {env : XEnv} {s s2 : PopState} {xev : XEvent} {rv : Int}
    (h : keyPress env s xev = some (rv, s2)) : sameControl s s2 ∧ (rv = 0 ∨ rv = 1) := by
  unfold keyPress at h
  by_cases h0 : xev.lookupLen < 0 ∨ 128 ≤ xev.lookupLen
  · rw [if_pos h0] at h
    cases h
  rw [if_neg h0] at h
  cases hc : keyCursor env s xev with
  | none =>
    rw [hc] at h
    cases h
  | some r1 =>
    obtain ⟨rv1, s1⟩ := r1
    rw [hc] at h
    simp only at h
    obtain ⟨c1, hr1⟩ := keyCursor_control hc
    cases hk : keyChar env s1 rv1 xev with
    | none =>
      rw [hk] at h
      cases h
    | some r2 =>
      obtain ⟨rv2, s3⟩ := r2
      rw [hk] at h
      simp only at h
      obtain ⟨c2, hr2⟩ := keyChar_control hk
      by_cases hz : xev.stlen = 0
      · rw [if_pos hz] at h
        simp only [Option.some.injEq, Prod.mk.injEq] at h
        rw [← h.2]
        exact ⟨sameControl_trans c1 c2, Or.inr h.1.symm⟩
      · rw [if_neg hz] at h
        simp only [Option.some.injEq, Prod.mk.injEq] at h
        rw [← h.2, ← h.1]
        refine ⟨sameControl_trans c1 c2, ?_⟩
        rcases hr2 with e | e | e
        · exact Or.inl e
        · exact Or.inr e
        · rw [e]
          exact hr1

/-! ### `PUCheckEvent` -/

/-- What `puBranch` can do to the control variables, and the values of `rv` it leaves for a
key or a button press. -/
theorem puBranch_cases {env : XEnv} {s s2 : PopState} {xev : XEvent} {rv : Int}
    (h : puBranch env s xev = some (rv, s2)) :
    (sameControl s s2 ∨
      ∃ i : Nat, xev.type = .ButtonPress ∧ xev.button = Button1 ∧ xev.window = s.popW ∧
        findButton env s.bts xev.x xev.y s.nbts.toNat 0 = some i ∧ (i : Int) < s.nbts ∧
        xev.btTrack = true ∧ s2 = { s with popUp := 0, selected := i }) ∧
    ((xev.type = .KeyPress ∨ xev.type = .ButtonPress) → rv = 0 ∨ rv = 1) := by
  unfold puBranch at h
  cases hty : xev.type with
  | Expose =>
    rw [hty] at h
    simp only at h
    refine ⟨Or.inl ?_, by intro hk; rcases hk with hk | hk <;> cases hk⟩
    by_cases h1 : xev.window = s.popW
    · rw [if_pos h1] at h
      cases h
      exact sameControl_refl s
    rw [if_neg h1] at h
    by_cases h2 : onPadDial s xev = true
    · rw [if_pos h2] at h
      cases h
      exact sameControl_refl s
    · rw [if_neg h2] at h
      cases h
      exact sameControl_refl s
  | ButtonPress =>
    rw [hty] at h
    simp only at h
    by_cases h0 : xev.button = Button1
    · rw [if_pos h0] at h
      by_cases h1 : xev.window = s.popW
      · rw [if_pos h1] at h
        cases hc : clickPUD env s xev xev.x xev.y with
        | none =>
          rw [hc] at h
          cases h
        | some s3 =>
          rw [hc] at h
          simp only [Option.map_some', Option.some.injEq, Prod.mk.injEq] at h
          obtain ⟨hrv, hs⟩ := h
          subst hs
          refine ⟨?_, fun _ => Or.inr hrv.symm⟩
          rcases clickPUD_cases hc with hsc | ⟨i, hf, hi, hbt, he⟩
          · exact Or.inl hsc
          · exact Or.inr ⟨i, rfl, h0, h1, hf, hi, hbt, he⟩
      rw [if_neg h1] at h
      by_cases h2 : onPadDial s xev = true
      · rw [if_pos h2] at h
        simp only [Option.some.injEq, Prod.mk.injEq] at h
        rw [← h.2]
        exact ⟨Or.inl (sameControl_refl s), fun _ => Or.inr h.1.symm⟩
      · rw [if_neg h2] at h
        simp only [Option.some.injEq, Prod.mk.injEq] at h
        rw [← h.2]
        exact ⟨Or.inl (sameControl_refl s), fun _ => Or.inl h.1.symm⟩
    · rw [if_neg h0] at h
      simp only [Option.some.injEq, Prod.mk.injEq] at h
      rw [← h.2]
      exact ⟨Or.inl (sameControl_refl s), fun _ => Or.inl h.1.symm⟩
  | KeyPress =>
    rw [hty] at h
    simp only at h
    obtain ⟨a, b⟩ := keyPress_control h
    exact ⟨Or.inl a, fun _ => b⟩
  | ClientMessage =>
    rw [hty] at h
    simp only at h
    refine ⟨Or.inl ?_, by intro hk; rcases hk with hk | hk <;> cases hk⟩
    by_cases h1 : xev.wmDelete = true ∧ xev.window = s.popW
    · rw [if_pos h1] at h
      split at h
      · cases h
      · cases h
        exact sameControl_refl s
    · rw [if_neg h1] at h
      cases h
      exact sameControl_refl s
  | Other =>
    rw [hty] at h
    simp only at h
    cases h
    exact ⟨Or.inl (sameControl_refl s), by intro hk; rcases hk with hk | hk <;> cases hk⟩

/-- Inversion of `PUCheckEvent` while a pop-up is up. -/
theorem PUCheckEvent_inv {env : XEnv} {s s2 : PopState} {xev : XEvent} {rv : Int}
    (hup : s.popUp ≠ 0) (h : PUCheckEvent env s xev = some (rv, s2)) :
    ∃ rv0, puBranch env s xev = some (rv0, s2) ∧
      ((rv0 = 0 ∧ (xev.type = .KeyPress ∨ xev.type = .ButtonPress) ∧ rv = 1) ∨
       (¬ (rv0 = 0 ∧ (xev.type = .KeyPress ∨ xev.type = .ButtonPress)) ∧ rv = rv0)) := by
  unfold PUCheckEvent at h
  rw [if_neg hup] at h
  cases hb : puBranch env s xev with
  | none =>
    rw [hb] at h
    cases h
  | some r =>
    obtain ⟨rv0, s3⟩ := r
    rw [hb] at h
    simp only at h
    by_cases hc : rv0 = 0 ∧ (xev.type = .KeyPress ∨ xev.type = .ButtonPress)
    · rw [if_pos hc] at h
      simp only [Option.some.injEq, Prod.mk.injEq] at h
      rw [← h.2]
      exact ⟨rv0, rfl, Or.inl ⟨hc.1, hc.2, h.1.symm⟩⟩
    · rw [if_neg hc] at h
      simp only [Option.some.injEq, Prod.mk.injEq] at h
      rw [← h.2]
      exact ⟨rv0, rfl, Or.inr ⟨hc, h.1.symm⟩⟩

/-- While a pop-up is up, whatever `PUCheckEvent` returns for a key or button press is 1. -/
theorem PUCheckEvent_returns_one {env : XEnv} {s s2 : PopState} {xev : XEvent} {rv : Int}
    (hup : s.popUp ≠ 0) (hty : xev.type = .KeyPress ∨ xev.type = .ButtonPress)
    (h : PUCheckEvent env s xev = some (rv, s2)) : rv = 1 := by
  obtain ⟨rv0, hb, hcase⟩ := PUCheckEvent_inv hup h
  rcases hcase with ⟨_, _, h1⟩ | ⟨hn, h1⟩
  · exact h1
  · rcases (puBranch_cases hb).2 hty with h0 | h0
    · exact absurd ⟨h0, hty⟩ hn
    · rw [h1, h0]

/-! ### C strings -/

theorem strlen_spec : ∀ (buf : List Int) (n : Nat), strlen buf = some n →
    n < buf.length ∧ buf[n]? = some 0 := by
  intro buf
  induction buf with
  | nil =>
    intro n h
    simp [strlen] at h
  | cons c cs ih =>
    intro n h
    rw [strlen] at h
    by_cases hc : c = 0
    · rw [if_pos hc] at h
      simp only [Option.some.injEq] at h
      subst h
      subst hc
      simp
    · rw [if_neg hc] at h
      cases hs : strlen cs with
      | none =>
        rw [hs] at h
        cases h
      | some m =>
        rw [hs] at h
        simp only [Option.map_some', Option.some.injEq] at h
        subst h
        obtain ⟨h1, h2⟩ := ih m hs
        simp only [List.length_cons, List.getElem?_cons_succ]
        exact ⟨by omega, h2⟩

theorem strlen_of_mem : ∀ (buf : List Int), (0 : Int) ∈ buf → ∃ n, strlen buf = some n := by
  intro buf
  induction buf with
  | nil =>
    intro h
    cases h
  | cons c cs ih =>
    intro h
    rw [strlen]
    by_cases hc : c = 0
    · rw [if_pos hc]
      exact ⟨0, rfl⟩
    · rw [if_neg hc]
      have hm : (0 : Int) ∈ cs := by
        rcases List.mem_cons.mp h with h0 | h0
        · exact absurd h0.symm hc
        · exact h0
      obtain ⟨m, hm2⟩ := ih hm
      rw [hm2]
      exact ⟨m + 1, rfl⟩

theorem strlen_of_getElem? {buf : List Int} {i : Nat} (h : buf[i]? = some 0) :
    ∃ n, strlen buf = some n :=
  strlen_of_mem buf (List.getElem?_mem h)

/-- A `bcopy` whose two ranges lie inside the array succeeds; every byte of the result is
described by the old array. -/
theorem bcopy_some (buf : List Int) (src dst n : Int) (h0 : 0 ≤ n) (h1 : 0 ≤ src)
    (h2 : 0 ≤ dst) (h3 : src + n ≤ buf.length) (h4 : dst + n ≤ buf.length) :
    ∃ b, bcopy buf src dst n = some b ∧ b.length = buf.length ∧
      ∀ i : Nat, i < buf.length →
        b[i]? = some (if dst ≤ (i : Int) ∧ (i : Int) < dst + n then
          buf.getD (src + ((i : Int) - dst)).toNat 0 else buf.getD i 0) := by
  unfold bcopy
  rw [if_neg (by omega)]
  refine ⟨_, rfl, by simp, ?_⟩
  intro i hi
  rw [List.getElem?_map, List.getElem?_range hi]
  rfl

theorem storeChar_some {buf : List Int} {i c : Int} (h0 : 0 ≤ i) (h1 : i < buf.length) :
    storeChar buf i c = some (buf.set i.toNat c) := by
  unfold storeChar
  rw [if_pos ⟨h0, h1⟩]

theorem getD_of_getElem? {buf : List Int} {n : Nat} {v : Int} (h : buf[n]? = some v) :
    buf.getD n 0 = v := by
  rw [List.getD_eq_getElem?_getD, h]
  rfl

/-- A successful `strcpy` leaves a NUL in the destination. -/
theorem strcpy_has_nul {dst src b : List Int} (h : strcpy dst src = some b) :
    ∃ n, strlen b = some n := by
  unfold strcpy at h
  cases hs : strlen src with
  | none =>
    rw [hs] at h
    cases h
  | some n =>
    rw [hs] at h
    simp only at h
    by_cases hfit : n + 1 ≤ dst.length
    · rw [if_pos hfit] at h
      simp only [Option.some.injEq] at h
      obtain ⟨hn, hz⟩ := strlen_spec src n hs
      have hb : b[n]? = some 0 := by
        rw [← h, List.getElem?_append_left (by rw [List.length_take]; omega),
          List.getElem?_take, if_pos (by omega)]
        exact hz
      exact strlen_of_getElem? hb
    · rw [if_neg hfit] at h
      cases h

/-! ### The text field never faults when it is in order -/

theorem XTextWidth_nonneg (env : XEnv) (buf : List Int) (st count : Int) :
    0 ≤ XTextWidth env buf st count := by
  unfold XTextWidth
  exact Int.ofNat_nonneg _

theorem XTextWidth_of_nonpos (env : XEnv) (buf : List Int) (st count : Int) (h : count ≤ 0) :
    XTextWidth env buf st count = 0 := by
  unfold XTextWidth
  have : count.toNat = 0 := by omega
  rw [this]
  simp

theorem shrinkWindow_total (env : XEnv) (buf : List Int) (lim cur : Int) (hlim : 0 ≤ lim) :
    ∀ (k : Nat) (st en : Int), (en - st).toNat + 1 ≤ k →
      ∃ r, shrinkWindow env buf lim cur k st en = some r := by
  intro k
  induction k with
  | zero =>
    intro st en h
    omega
  | succ k ih =>
    intro st en h
    rw [shrinkWindow]
    by_cases hw : XTextWidth env buf st (en - st) > lim
    · rw [if_pos hw]
      have hpos : 0 < en - st := by
        by_contra hle
        have := XTextWidth_of_nonpos env buf st (en - st) (by omega)
        omega
      by_cases hc : en ≠ cur
      · rw [if_pos hc]
        exact ih st (en - 1) (by omega)
      · rw [if_neg hc]
        exact ih (st + 1) en (by omega)
    · rw [if_neg hw]
      exact ⟨_, rfl⟩

theorem changedGSBuf_total (env : XEnv) (s : PopState) (n : Nat) (hl : strlen s.gsBuf = some n)
    (hw : 6 * env.dpiMult ≤ s.gsw) : ∃ s2, changedGSBuf env s = some s2 := by
  unfold changedGSBuf
  simp only [hl]
  generalize hst : (if (if s.gsCurPos < s.gsStPos then s.gsCurPos else s.gsStPos) > (n : Int)
    then (if (n : Int) > 0 then (n : Int) - 1 else 0)
    else (if s.gsCurPos < s.gsStPos then s.gsCurPos else s.gsStPos)) = st2
  generalize hen : growEnPos env s.gsBuf (s.gsw - 6 * env.dpiMult) (n : Int) st2 _ _ = en3
  obtain ⟨r, hr⟩ := shrinkWindow_total env s.gsBuf (s.gsw - 6 * env.dpiMult) s.gsCurPos
    (by omega) ((en3 - st2).toNat + 1) st2 en3 (le_refl _)
  rw [hr]
  exact ⟨_, rfl⟩

theorem textFieldOK_iff {env : XEnv} {s : PopState} (h : textFieldOK env s) :
    ∃ n, strlen s.gsBuf = some n ∧ n < s.gsBuf.length ∧ s.gsBuf[n]? = some 0 ∧
      0 ≤ s.gsCurPos ∧ s.gsCurPos ≤ (n : Int) ∧ s.gsBufLen ≤ (s.gsBuf.length : Int) ∧
      6 * env.dpiMult ≤ s.gsw := by
  unfold textFieldOK at h
  cases hl : strlen s.gsBuf with
  | none =>
    rw [hl] at h
    exact absurd h (by simp)
  | some n =>
    rw [hl] at h
    simp only at h
    obtain ⟨h1, h2⟩ := strlen_spec s.gsBuf n hl
    exact ⟨n, rfl, h1, h2, h.1, h.2.1, h.2.2.1, h.2.2.2⟩

/-- On a text field that is in order every branch of `doGSEdit` stays inside the array and
leaves a C string in it. -/
theorem doGSEdit_total (env : XEnv) (s : PopState) (c : Int) (hok : textFieldOK env s) :
    ∃ r s2, doGSEdit s c = some (r, s2) ∧ (∃ m, strlen s2.gsBuf = some m) ∧
      s2.gsw = s.gsw := by
  obtain ⟨n, hl, hn, hz, hc0, hcn, hbl, _⟩ := textFieldOK_iff hok
  have hz0 : s.gsBuf.getD n 0 = 0 := getD_of_getElem? hz
  rcases doGSEdit_cases s c n hl with h1 | h1 | h1 | h1 | h1 | h1 | ⟨p, _, h1⟩
  all_goals rw [h1]
  · exact ⟨1, s, rfl, ⟨n, hl⟩, rfl⟩
  · unfold gsInsert
    by_cases hfull : (n : Int) ≥ s.gsBufLen - 1
    · rw [if_pos hfull]
      exact ⟨1, s, rfl, ⟨n, hl⟩, rfl⟩
    · rw [if_neg hfull]
      obtain ⟨b1, hb1, hlen1, hget1⟩ := bcopy_some s.gsBuf (s.gsCurPos)
        (s.gsCurPos + 1) ((n : Int) - s.gsCurPos + 1)
        (by omega) hc0 (by omega) (by omega) (by omega)
      rw [hb1]
      simp only
      rw [storeChar_some hc0 (by omega)]
      refine ⟨0, _, rfl, ?_, rfl⟩
      have hidx : b1[n + 1]? = some 0 := by
        rw [hget1 (n + 1) (by omega), if_pos (by constructor <;> push_cast <;> omega)]
        have : (s.gsCurPos + (((n + 1 : Nat) : Int) - (s.gsCurPos + 1))).toNat = n := by
          push_cast
          omega
        rw [this, hz0]
      have hidx2 : (b1.set s.gsCurPos.toNat c)[n + 1]? = some 0 := by
        rw [List.getElem?_set_ne (by omega)]
        exact hidx
      exact strlen_of_getElem? hidx2
  · unfold gsBackspace
    by_cases hz1 : s.gsCurPos = 0
    · rw [if_pos hz1]
      exact ⟨1, s, rfl, ⟨n, hl⟩, rfl⟩
    · rw [if_neg hz1]
      obtain ⟨b1, hb1, hlen1, hget1⟩ := bcopy_some s.gsBuf (s.gsCurPos)
        (s.gsCurPos - 1) ((n : Int) - s.gsCurPos + 1)
        (by omega) hc0 (by omega) (by omega) (by omega)
      rw [hb1]
      refine ⟨0, _, rfl, ?_, rfl⟩
      have hn1 : 1 ≤ n := by omega
      have hidx : b1[n - 1]? = some 0 := by
        rw [hget1 (n - 1) (by omega), if_pos (by constructor <;> omega)]
        have : (s.gsCurPos + (((n - 1 : Nat) : Int) - (s.gsCurPos - 1))).toNat = n := by
          omega
        rw [this, hz0]
      exact strlen_of_getElem? hidx
  · unfold gsClearLine
    rw [storeChar_some (le_refl 0) (by omega)]
    refine ⟨0, _, rfl, ?_, rfl⟩
    have hidx : (s.gsBuf.set (0 : Int).toNat 0)[0]? = some 0 := by
      simp only [Int.toNat_zero]
      exact List.getElem?_set_self (by omega)
    exact strlen_of_getElem? hidx
  · unfold gsKillToEnd
    rw [storeChar_some hc0 (by omega)]
    refine ⟨0, _, rfl, ?_, rfl⟩
    have hidx : (s.gsBuf.set s.gsCurPos.toNat 0)[s.gsCurPos.toNat]? = some 0 :=
      List.getElem?_set_self (by omega)
    exact strlen_of_getElem? hidx
  · unfold gsDelete
    by_cases hz1 : s.gsCurPos = (n : Int)
    · rw [if_pos hz1]
      exact ⟨1, s, rfl, ⟨n, hl⟩, rfl⟩
    · rw [if_neg hz1]
      obtain ⟨b1, hb1, hlen1, hget1⟩ := bcopy_some s.gsBuf (s.gsCurPos + 1)
        (s.gsCurPos) ((n : Int) - s.gsCurPos)
        (by omega) (by omega) hc0 (by omega) (by omega)
      rw [hb1]
      refine ⟨0, _, rfl, ?_, rfl⟩
      have hn1 : 1 ≤ n := by omega
      have hidx : b1[n - 1]? = some 0 := by
        rw [hget1 (n - 1) (by omega), if_pos (by constructor <;> omega)]
        have : (s.gsCurPos + 1 + (((n - 1 : Nat) : Int) - s.gsCurPos)).toNat = n := by
          omega
        rw [this, hz0]
      exact strlen_of_getElem? hidx
  · exact ⟨0, _, rfl, ⟨n, hl⟩, rfl⟩

theorem doGSKey_total (env : XEnv) (s : PopState) (c : Int) (hok : textFieldOK env s) :
    ∃ r, doGSKey env s c = some r := by
  obtain ⟨_, _, _, _, _, _, _, hw⟩ := textFieldOK_iff hok
  obtain ⟨r, s2, he, ⟨m, hm⟩, hgw⟩ := doGSEdit_total env s c hok
  unfold doGSKey
  rw [he]
  simp only
  by_cases hr : r ≠ 0
  · rw [if_pos hr]
    exact ⟨_, rfl⟩
  · rw [if_neg hr]
    obtain ⟨s3, hs3⟩ := changedGSBuf_total env s2 m hm (by rw [hgw]; exact hw)
    rw [hs3]
    exact ⟨_, rfl⟩

theorem doGetStrKey_total (env : XEnv) (s : PopState) (c : Int) (hok : textFieldOK env s) :
    ∃ s2, (doGetStrKey env s c).map (fun s3 => ((1 : Int), s3)) = some (1, s2) := by
  obtain ⟨r, hr⟩ := doGSKey_total env s c hok
  unfold doGetStrKey
  rw [hr]
  exact ⟨r.2, rfl⟩

theorem padRetarget_total (env : XEnv) (s : PopState) (b : List Int) (n : Nat)
    (hl : strlen b = some n) (hw : 6 * env.dpiMult ≤ s.gsw) :
    ∃ s2, padRetarget env s b = some s2 := by
  unfold padRetarget
  rw [hl]
  exact changedGSBuf_total env _ n hl hw

theorem padMethodCopy_has_nul {s : PopState} {i : Int} {b : List Int} {n : Nat}
    (hl : strlen s.gsBuf = some n) (h : padMethodCopy s i = some b) :
    ∃ m, strlen b = some m := by
  unfold padMethodCopy at h
  by_cases h1 : i = PAD_SOLID
  · rw [if_pos h1] at h
    exact strcpy_has_nul h
  rw [if_neg h1] at h
  by_cases h2 : i = PAD_BGGEN
  · rw [if_pos h2] at h
    exact strcpy_has_nul h
  rw [if_neg h2] at h
  by_cases h3 : i = PAD_LOAD
  · rw [if_pos h3] at h
    exact strcpy_has_nul h
  rw [if_neg h3] at h
  cases h
  exact ⟨n, hl⟩

theorem padDefaultCopy_has_nul {s : PopState} {i : Int} {b : List Int} {n : Nat}
    (hl : strlen s.gsBuf = some n) (h : padDefaultCopy s i = some b) :
    ∃ m, strlen b = some m := by
  unfold padDefaultCopy at h
  by_cases h1 : s.padMode = PAD_SOLID
  · rw [if_pos h1] at h
    split at h
    · cases h
    · exact strcpy_has_nul h
  rw [if_neg h1] at h
  by_cases h2 : s.padMode = PAD_BGGEN
  · rw [if_pos h2] at h
    split at h
    · cases h
    · exact strcpy_has_nul h
  rw [if_neg h2] at h
  by_cases h3 : s.padMode = PAD_LOAD
  · rw [if_pos h3] at h
    split at h
    · cases h
    · exact strcpy_has_nul h
  rw [if_neg h3] at h
  cases h
  exact ⟨n, hl⟩

theorem clickPad_total (env : XEnv) (s : PopState) (xev : XEvent) (x y : Int)
    (hok : textFieldOK env s) (hmax : env.PAD_OMAX ≠ 0)
    (hm : (padMethodCopy s xev.menuChoice).isSome = true)
    (hd : (padDefaultCopy s xev.menuChoice).isSome = true) :
    ∃ s2, clickPad env s xev x y = some s2 := by
  obtain ⟨n, hl, _, _, _, _, _, hw⟩ := textFieldOK_iff hok
  unfold clickPad
  by_cases h1 : env.PTINRECT x y s.padDButt.x s.padDButt.y s.padDButt.w s.padDButt.h = true
  · rw [if_pos h1]
    exact ⟨_, rfl⟩
  rw [if_neg h1]
  by_cases h2 : env.PTINRECT x y s.padOMButt.x s.padOMButt.y s.padOMButt.w s.padOMButt.h = true
  · rw [if_pos h2]
    by_cases h3 : xev.padTrack = true
    · rw [if_pos h3, if_neg hmax]
      exact ⟨_, rfl⟩
    · rw [if_neg h3]
      exact ⟨_, rfl⟩
  rw [if_neg h2]
  by_cases h5 : xev.mthdClick = true
  · rw [if_pos h5]
    simp only
    by_cases h6 : xev.menuChoice < 0 ∨ xev.menuChoice = s.padMode
    · rw [if_pos h6]
      exact ⟨_, rfl⟩
    · rw [if_neg h6]
      obtain ⟨b, hb⟩ := Option.isSome_iff_exists.mp hm
      rw [hb]
      simp only
      obtain ⟨m, hm2⟩ := padMethodCopy_has_nul hl hb
      obtain ⟨s3, hs3⟩ := padRetarget_total env s b m hm2 hw
      rw [hs3]
      exact ⟨_, rfl⟩
  rw [if_neg h5]
  by_cases h7 : xev.dfltClick = true
  · rw [if_pos h7]
    simp only
    by_cases h8 : xev.menuChoice < 0
    · rw [if_pos h8]
      exact ⟨_, rfl⟩
    · rw [if_neg h8]
      obtain ⟨b, hb⟩ := Option.isSome_iff_exists.mp hd
      rw [hb]
      simp only
      obtain ⟨m, hm2⟩ := padDefaultCopy_has_nul hl hb
      exact padRetarget_total env s b m hm2 hw
  rw [if_neg h7]
  exact ⟨_, rfl⟩

theorem findButton_total (env : XEnv) (bts : List BUTT) (x y : Int) :
    ∀ (k i : Nat), i + k ≤ bts.length → ∃ j, findButton env bts x y k i = some j := by
  intro k
  induction k with
  | zero =>
    intro i _
    exact ⟨i, rfl⟩
  | succ k ih =>
    intro i h
    rw [findButton]
    have hi : i < bts.length := by omega
    rw [List.getElem?_eq_getElem hi]
    simp only
    by_cases hp : env.PTINRECT x y bts[i].x bts[i].y bts[i].w bts[i].h = true
    · rw [if_pos hp]
      exact ⟨i, rfl⟩
    · rw [if_neg hp]
      exact ih (i + 1) (by omega)

theorem hasTextField_of_pad {s : PopState} (h : s.popUp = ISPAD) : hasTextField s = true := by
  unfold hasTextField
  simp [h]

theorem clickPUD_total (env : XEnv) (s : PopState) (xev : XEvent) (hok : eventOK env s xev) :
    ∃ s2, clickPUD env s xev xev.x xev.y = some s2 := by
  obtain ⟨_, hb, htf, hpad⟩ := hok
  unfold clickPUD
  obtain ⟨i, hi⟩ := findButton_total env s.bts xev.x xev.y s.nbts.toNat 0 (by omega)
  rw [hi]
  simp only
  by_cases h1 : (i : Int) < s.nbts ∧ xev.btTrack = true
  · rw [if_pos h1]
    exact ⟨_, rfl⟩
  rw [if_neg h1]
  by_cases h2 : s.popUp = ISGRAB ∧ xev.cbClick = true
  · rw [if_pos h2]
    exact ⟨_, rfl⟩
  rw [if_neg h2]
  by_cases h3 : s.popUp = ISPAD
  · rw [if_pos h3]
    obtain ⟨hmax, hm, hd⟩ := hpad h3
    exact clickPad_total env s xev xev.x xev.y (htf (hasTextField_of_pad h3)) hmax hm hd
  · rw [if_neg h3]
    exact ⟨_, rfl⟩

theorem keyCursor_total (env : XEnv) (s : PopState) (xev : XEvent)
    (htf : hasTextField s = true → textFieldOK env s) :
    ∃ rv s2, keyCursor env s xev = some (rv, s2) ∧ (rv = 0 → s2 = s) := by
  unfold keyCursor
  by_cases h1 : hasTextField s = true
  · rw [if_pos h1]
    by_cases h2 : xev.ck = .CK_LEFT
    · rw [if_pos h2]
      obtain ⟨s2, hs2⟩ := doGetStrKey_total env s 2 (htf h1)
      exact ⟨1, s2, hs2, by intro h; omega⟩
    rw [if_neg h2]
    by_cases h3 : xev.ck = .CK_RIGHT
    · rw [if_pos h3]
      obtain ⟨s2, hs2⟩ := doGetStrKey_total env s 6 (htf h1)
      exact ⟨1, s2, hs2, by intro h; omega⟩
    rw [if_neg h3]
    exact ⟨0, s, rfl, fun _ => rfl⟩
  · rw [if_neg h1]
    exact ⟨0, s, rfl, fun _ => rfl⟩

theorem keyChar_total (env : XEnv) (s : PopState) (rv1 : Int) (xev : XEvent)
    (htf : rv1 = 0 → hasTextField s = true → textFieldOK env s) :
    ∃ r, keyChar env s rv1 xev = some r := by
  unfold keyChar
  by_cases h1 : xev.stlen ≠ 0 ∧ rv1 = 0
  · rw [if_pos h1]
    simp only
    by_cases h2 : accelHit s.accel s.nbts (if xev.buf0 = 13 then 10 else xev.buf0) = true
    · rw [if_pos h2]
      exact ⟨_, rfl⟩
    rw [if_neg h2]
    by_cases h3 : (if xev.buf0 = 13 then 10 else xev.buf0) = 27 ∧ s.nbts = 1
    · rw [if_pos h3]
      exact ⟨_, rfl⟩
    rw [if_neg h3]
    by_cases h4 : hasTextField s = true
    · rw [if_pos h4]
      by_cases h5 : xev.window = s.popW
      · rw [if_pos h5]
        obtain ⟨s2, hs2⟩ := doGetStrKey_total env s (if xev.buf0 = 13 then 10 else xev.buf0)
          (htf h1.2 h4)
        exact ⟨_, hs2⟩
      · rw [if_neg h5]
        exact ⟨_, rfl⟩
    · rw [if_neg h4]
      exact ⟨_, rfl⟩
  · rw [if_neg h1]
    exact ⟨_, rfl⟩

theorem keyPress_total (env : XEnv) (s : PopState) (xev : XEvent)
    (hlk : 0 ≤ xev.lookupLen ∧ xev.lookupLen < 128)
    (htf : hasTextField s = true → textFieldOK env s) :
    ∃ r, keyPress env s xev = some r := by
  unfold keyPress
  rw [if_neg (by omega)]
  obtain ⟨rv1, s1, h1, hsame⟩ := keyCursor_total env s xev htf
  rw [h1]
  simp only
  obtain ⟨r2, h2⟩ := keyChar_total env s1 rv1 xev
    (by intro h0; rw [hsame h0]; exact htf)
  obtain ⟨rv2, s2⟩ := r2
  rw [h2]
  simp only
  by_cases hz : xev.stlen = 0
  · rw [if_pos hz]
    exact ⟨_, rfl⟩
  · rw [if_neg hz]
    exact ⟨_, rfl⟩

theorem puBranch_total (env : XEnv) (s : PopState) (xev : XEvent)
    (hty : xev.type = .KeyPress ∨ xev.type = .ButtonPress) (hok : eventOK env s xev) :
    ∃ r, puBranch env s xev = some r := by
  unfold puBranch
  rcases hty with hty | hty
  · rw [hty]
    simp only
    exact keyPress_total env s xev (hok.1 hty) hok.2.2.1
  · rw [hty]
    simp only
    by_cases h0 : xev.button = Button1
    · rw [if_pos h0]
      by_cases h1 : xev.window = s.popW
      · rw [if_pos h1]
        obtain ⟨s2, hs2⟩ := clickPUD_total env s xev hok
        rw [hs2]
        exact ⟨_, rfl⟩
      rw [if_neg h1]
      by_cases h2 : onPadDial s xev = true
      · rw [if_pos h2]
        exact ⟨_, rfl⟩
      · rw [if_neg h2]
        exact ⟨_, rfl⟩
    · rw [if_neg h0]
      exact ⟨_, rfl⟩

/-- C7: while a pop-up is up (`popUp != 0`), `PUCheckEvent` returns 1 for every `KeyPress`
event and every `ButtonPress` event, whichever window, button or key it carries: any value
it returns is 1, and it does return whenever the state and the event are in order
(`eventOK`), so nothing else in XV gets to see the event. -/
theorem PUCheckEvent_eats_keys_and_clicks (env : XEnv) (s : PopState) (xev : XEvent)
    (hup : s.popUp ≠ 0) (hty : xev.type = .KeyPress ∨ xev.type = .ButtonPress) :
    (∀ r, PUCheckEvent env s xev = some r → r.1 = 1) ∧
    (eventOK env s xev → ∃ s2, PUCheckEvent env s xev = some (1, s2)) := by
  constructor
  · intro r hr
    obtain ⟨rv, s2⟩ := r
    exact PUCheckEvent_returns_one hup hty hr
  · intro hok
    obtain ⟨r, hr⟩ := puBranch_total env s xev hty hok
    obtain ⟨rv0, s3⟩ := r
    have hsome : ∃ q, PUCheckEvent env s xev = some q := by
      unfold PUCheckEvent
      rw [if_neg hup, hr]
      simp only
      by_cases hc : rv0 = 0 ∧ (xev.type = .KeyPress ∨ xev.type = .ButtonPress)
      · rw [if_pos hc]
        exact ⟨_, rfl⟩
      · rw [if_neg hc]
        exact ⟨_, rfl⟩
    obtain ⟨q, hq⟩ := hsome
    obtain ⟨rv, s2⟩ := q
    have h1 : rv = 1 := PUCheckEvent_returns_one hup hty hq
    subst h1
    exact ⟨s2, hq⟩

/-- A witness of C7: in the text-entry sample state the key `x` and a click of button 3
outside every window of the pop-up are both answered with 1. -/
theorem PUCheckEvent_eats_keys_and_clicks_witness :
    (∃ s2, PUCheckEvent demoXEnv (demoText none 0) (keyEvent 120) = some (1, s2)) ∧
    (∃ s2, PUCheckEvent demoXEnv (demoText none 0) (clickEvent 7 3 5 5 false) = some (1, s2)) :=
  ⟨(PUCheckEvent_eats_keys_and_clicks demoXEnv (demoText none 0) (keyEvent 120) (by decide)
      (Or.inl rfl)).2 (by decide),
   (PUCheckEvent_eats_keys_and_clicks demoXEnv (demoText none 0) (clickEvent 7 3 5 5 false)
      (by decide) (Or.inr rfl)).2 (by decide)⟩

/-! ### The modal loop of `doPopUp` -/

theorem PUCheckEvent_state {env : XEnv} {s s2 : PopState} {xev : XEvent} {rv : Int}
    (h : PUCheckEvent env s xev = some (rv, s2)) :
    sameControl s s2 ∨
      ∃ i : Nat, (i : Int) < s.nbts ∧ s2 = { s with popUp := 0, selected := i } := by
  by_cases hup : s.popUp = 0
  · unfold PUCheckEvent at h
    rw [if_pos hup] at h
    simp only [Option.some.injEq, Prod.mk.injEq] at h
    rw [← h.2]
    exact Or.inl (sameControl_refl s)
  · obtain ⟨rv0, hb, _⟩ := PUCheckEvent_inv hup h
    rcases (puBranch_cases hb).1 with hc | ⟨i, _, _, _, _, hi, _, he⟩
    · exact Or.inl hc
    · exact Or.inr ⟨i, hi, he⟩

/-- One `HandleEvent` call keeps `nbts` and keeps `selected` a valid button index. -/
theorem handleStep_inv (env : XEnv) (n : Int) (hn : 1 ≤ n) {s s2 : PopState} {step : HStep}
    (hinv : s.nbts = n ∧ 0 ≤ s.selected ∧ s.selected < n)
    (h : handleStep env s step = some s2) :
    s2.nbts = n ∧ 0 ≤ s2.selected ∧ s2.selected < n := by
  obtain ⟨hnb, hs0, hs1⟩ := hinv
  cases step with
  | event xev =>
    simp only [handleStep] at h
    cases hp : PUCheckEvent env s xev with
    | none =>
      rw [hp] at h
      cases h
    | some r =>
      obtain ⟨rv, s3⟩ := r
      rw [hp] at h
      simp only [Option.map_some', Option.some.injEq] at h
      subst h
      rcases PUCheckEvent_state hp with ⟨a1, a2, _, _, _⟩ | ⟨i, hi, he⟩
      · rw [a1, a2]
        exact ⟨hnb, hs0, hs1⟩
      · rw [he]
        simp only
        exact ⟨hnb, by omega, by omega⟩
  | closePopUp =>
    simp only [handleStep, Option.some.injEq] at h
    subst h
    unfold ClosePopUp
    by_cases h1 : s.popUp = ISALERT
    · rw [if_pos h1]
      exact ⟨hnb, hs0, hs1⟩
    rw [if_neg h1]
    by_cases h2 : s.popUp = ISPOPUP
    · rw [if_pos h2]
      simp only
      exact ⟨hnb, by omega, by omega⟩
    · rw [if_neg h2]
      exact ⟨hnb, hs0, hs1⟩
  | closeAlert =>
    simp only [handleStep, Option.some.injEq] at h
    subst h
    exact ⟨hnb, hs0, hs1⟩
  | other =>
    simp only [handleStep, Option.some.injEq] at h
    subst h
    exact ⟨hnb, hs0, hs1⟩

theorem waitLoop_inv (env : XEnv) (n : Int) (hn : 1 ≤ n) :
    ∀ (steps : List HStep) (s s2 : PopState),
      (s.nbts = n ∧ 0 ≤ s.selected ∧ s.selected < n) → waitLoop env s steps = some s2 →
      s2.nbts = n ∧ 0 ≤ s2.selected ∧ s2.selected < n := by
  intro steps
  induction steps with
  | nil =>
    intro s s2 hinv h
    simp only [waitLoop, Option.some.injEq] at h
    subst h
    exact hinv
  | cons step rest ih =>
    intro s s2 hinv h
    rw [waitLoop] at h
    by_cases hup : s.popUp ≠ 0
    · rw [if_pos hup] at h
      cases hs : handleStep env s step with
      | none =>
        rw [hs] at h
        cases h
      | some s3 =>
        rw [hs] at h
        exact ih s3 s2 (handleStep_inv env n hn hinv hs) h
    · rw [if_neg hup] at h
      simp only [Option.some.injEq] at h
      subst h
      exact hinv

theorem waitLoop_append (env : XEnv) :
    ∀ (pre post : List HStep) (s : PopState),
      waitLoop env s (pre ++ post) = (waitLoop env s pre).bind (fun s2 => waitLoop env s2 post) := by
  intro pre
  induction pre with
  | nil =>
    intro post s
    simp [waitLoop]
  | cons step rest ih =>
    intro post s
    rw [List.cons_append, waitLoop, waitLoop]
    by_cases hup : s.popUp ≠ 0
    · rw [if_pos hup, if_pos hup]
      cases hs : handleStep env s step with
      | none => rfl
      | some s3 => exact ih post s3
    · rw [if_neg hup, if_neg hup]
      simp only [Option.some_bind]
      cases post with
      | nil => rfl
      | cons p ps =>
        rw [waitLoop, if_neg hup]

theorem doPopUpLoop_inv {env : XEnv} {s : PopState} {steps : List HStep} {r : Int × PopState}
    (h : doPopUpLoop env s steps = some r) :
    waitLoop env s steps = some r.2 ∧ r.2.popUp = 0 ∧ r.1 = r.2.selected := by
  unfold doPopUpLoop at h
  cases hw : waitLoop env s steps with
  | none =>
    rw [hw] at h
    cases h
  | some s2 =>
    rw [hw] at h
    simp only at h
    by_cases hup : s2.popUp ≠ 0
    · rw [if_pos hup] at h
      cases h
    · rw [if_neg hup] at h
      simp only [Option.some.injEq] at h
      rw [← h]
      exact ⟨rfl, by simpa using hup, rfl⟩

theorem makeButtons_length (env : XEnv) (labels : List Int) (n puwide puhigh : Int) :
    ∀ (k i : Nat) (bts : List BUTT) (accel : List Int) (r : List BUTT × List Int),
      makeButtons env labels n puwide puhigh k i bts accel = some r →
      r.1.length = bts.length + k := by
  intro k
  induction k with
  | zero =>
    intro i bts accel r h
    simp only [makeButtons, Option.some.injEq] at h
    rw [← h]
    rfl
  | succ k ih =>
    intro i bts accel r h
    rw [makeButtons] at h
    cases hl : labels[i]? with
    | none =>
      rw [hl] at h
      cases h
    | some l =>
      rw [hl] at h
      simp only at h
      by_cases ha : i < accel.length
      · rw [if_pos ha] at h
        have := ih _ _ _ _ h
        rw [this, List.length_append]
        simp only [List.length_singleton]
        omega
      · rw [if_neg ha] at h
        cases h

theorem openButtons_spec {env : XEnv} {s s1 : PopState} {labels : List Int} {n poptyp : Int}
    (h : openButtons env s labels n poptyp = some s1) :
    s1.nbts = n ∧ s1.selected = 0 ∧ s1.popUp = poptyp ∧ s1.bts.length = n.toNat := by
  unfold openButtons at h
  by_cases hm : (!env.mallocOk) = true
  · rw [if_pos hm] at h
    cases h
  rw [if_neg hm] at h
  cases hmk : makeButtons env labels n s.puwide s.puhigh n.toNat 0 [] s.accel with
  | none =>
    rw [hmk] at h
    cases h
  | some r =>
    obtain ⟨bts, accel⟩ := r
    rw [hmk] at h
    simp only at h
    by_cases hg : (poptyp = ISGRAB ∨ poptyp = ISPAD) ∧ strlen s.gsBuf = none
    · rw [if_pos hg] at h
      cases h
    · rw [if_neg hg] at h
      simp only [Option.some.injEq] at h
      rw [← h]
      refine ⟨rfl, rfl, rfl, ?_⟩
      have := makeButtons_length _ _ _ _ _ _ _ _ _ _ hmk
      simpa using this

/-- What `doPopUp` has set up when it enters its loop. -/
theorem doPopUpOpen_spec {env : XEnv} {s s1 : PopState} {labels : List Int} {n poptyp : Int}
    (h : doPopUpOpen env s labels n poptyp = some s1) :
    s1.nbts = n ∧ s1.selected = 0 ∧ s1.popUp = poptyp ∧ s1.bts.length = n.toNat := by
  unfold doPopUpOpen at h
  split at h
  · cases h
  · exact openButtons_spec h

/-- Every return of `doPopUp` happens with `popUp = 0`, the value returned is `selected`, and
for at least one button it is a valid button index. -/
theorem doPopUp_result {env : XEnv} {s : PopState} {labels : List Int} {n poptyp : Int}
    {steps : List HStep} {r : Int × PopState}
    (h : doPopUp env s labels n poptyp steps = some r) :
    r.2.popUp = 0 ∧ r.1 = r.2.selected ∧ (1 ≤ n → 0 ≤ r.1 ∧ r.1 < n) := by
  unfold doPopUp at h
  cases ho : doPopUpOpen env s labels n poptyp with
  | none =>
    rw [ho] at h
    cases h
  | some s1 =>
    rw [ho] at h
    simp only at h
    obtain ⟨hw, hz, hsel⟩ := doPopUpLoop_inv h
    refine ⟨hz, hsel, ?_⟩
    intro hn
    obtain ⟨h1, h2, _, _⟩ := doPopUpOpen_spec ho
    have := waitLoop_inv env n hn steps s1 r.2 ⟨h1, by omega, by omega⟩ hw
    rw [hsel]
    exact ⟨this.2.1, this.2.2⟩

theorem GetStrPopUp_inv {env : XEnv} {s : PopState} {labels : List Int} {n : Int}
    {buf : List Int} {buflen : Int} {filstr : Option (List Int)} {allow : Int}
    {steps : List HStep} {r : Int × PopState}
    (h : GetStrPopUp env s labels n buf buflen filstr allow steps = some r) :
    ∃ s2, doPopUp env s2 labels n ISGETSTR steps = some r := by
  unfold GetStrPopUp at h
  split at h
  · cases h
  · simp only at h
    split at h
    · cases h
    · exact ⟨_, h⟩

theorem GrabPopUp_inv {env : XEnv} {s : PopState} {delaybuf : List Int}
    {steps : List HStep} {r : Int × PopState}
    (h : GrabPopUp env s delaybuf steps = some r) :
    ∃ s2, doPopUp env s2 [10, 97, 27] 3 ISGRAB steps = some r := by
  unfold GrabPopUp at h
  split at h
  · cases h
  · simp only at h
    split at h
    · cases h
    · exact ⟨_, h⟩

theorem map_pair_inv {f : List Int → PopState} {o : Option (List Int)} {rv : Int}
    {r : Int × PopState} (h : o.map (fun sb => (rv, f sb)) = some r) :
    ∃ sb, r = (rv, f sb) := by
  cases o with
  | none => cases h
  | some sb =>
    simp only [Option.map_some', Option.some.injEq] at h
    exact ⟨sb, h.symm⟩

theorem padSave_inv {rv : Int} {s : PopState} {r : Int × PopState} (h : padSave rv s = some r) :
    r.1 = rv ∧ r.2.popUp = s.popUp := by
  unfold padSave at h
  simp only at h
  by_cases h0 : rv = 0
  · rw [if_pos h0] at h
    by_cases h1 : s.padMode = PAD_SOLID
    · rw [if_pos h1] at h
      obtain ⟨sb, hsb⟩ := map_pair_inv h
      rw [hsb]
      exact ⟨rfl, rfl⟩
    rw [if_neg h1] at h
    by_cases h2 : s.padMode = PAD_BGGEN
    · rw [if_pos h2] at h
      obtain ⟨sb, hsb⟩ := map_pair_inv h
      rw [hsb]
      exact ⟨rfl, rfl⟩
    rw [if_neg h2] at h
    by_cases h3 : s.padMode = PAD_LOAD
    · rw [if_pos h3] at h
      obtain ⟨sb, hsb⟩ := map_pair_inv h
      rw [hsb]
      exact ⟨rfl, rfl⟩
    rw [if_neg h3] at h
    simp only [Option.some.injEq] at h
    rw [← h]
    exact ⟨rfl, rfl⟩
  · rw [if_neg h0] at h
    simp only [Option.some.injEq] at h
    rw [← h]
    exact ⟨rfl, rfl⟩

theorem padDialog_inv {env : XEnv} {s : PopState} {b : List Int} {steps : List HStep}
    {r : Int × PopState} (h : padDialog env s b steps = some r) :
    ∃ s3 s4, doPopUp env s3 [10, 27] 2 ISPAD steps = some (r.1, s4) ∧ r.2.popUp = s4.popUp := by
  unfold padDialog at h
  cases hl : strlen b with
  | none =>
    rw [hl] at h
    cases h
  | some len =>
    rw [hl] at h
    simp only at h
    generalize hcg : changedGSBuf env _ = cg at h
    cases cg with
    | none => cases h
    | some s3 =>
      simp only at h
      cases hd : doPopUp env s3 [10, 27] 2 ISPAD steps with
      | none =>
        rw [hd] at h
        cases h
      | some q =>
        obtain ⟨rv, s4⟩ := q
        rw [hd] at h
        simp only at h
        obtain ⟨e1, e2⟩ := padSave_inv h
        exact ⟨s3, s4, by rw [e1]; exact hd, e2⟩

theorem PadPopUp_inv {env : XEnv} {s : PopState} {colVals bgVals loadVals : List (List Int)}
    {steps : List HStep} {r : Int × PopState}
    (h : PadPopUp env s colVals bgVals loadVals steps = some r) :
    ∃ s3 s4, doPopUp env s3 [10, 27] 2 ISPAD steps = some (r.1, s4) ∧ r.2.popUp = s4.popUp := by
  unfold PadPopUp at h
  cases hi : padInit s with
  | none =>
    rw [hi] at h
    cases h
  | some s0 =>
    rw [hi] at h
    simp only at h
    generalize hec : padEntryCopy _ = ec at h
    cases ec with
    | none => cases h
    | some b => exact padDialog_inv h

/-- C8: `doPopUp` sets `popUp` to the requested kind before it enters its loop (and can
then return: a `CloseAlert` ends the loop), and every call of `doPopUp`, hence of `PopUp`,
`GetStrPopUp`, `GrabPopUp` and `PadPopUp`, that returns does so with `popUp = 0`. -/
theorem popUp_lifetime (env : XEnv) (s : PopState) (labels : List Int) (n poptyp : Int) :
    (∀ s1, doPopUpOpen env s labels n poptyp = some s1 →
      s1.popUp = poptyp ∧ ∃ r, doPopUp env s labels n poptyp [.closeAlert] = some r) ∧
    (∀ steps r, doPopUp env s labels n poptyp steps = some r → r.2.popUp = 0) ∧
    (∀ steps r, PopUp env s labels n steps = some r → r.2.popUp = 0) ∧
    (∀ buf buflen filstr allow steps r,
      GetStrPopUp env s labels n buf buflen filstr allow steps = some r → r.2.popUp = 0) ∧
    (∀ delaybuf steps r, GrabPopUp env s delaybuf steps = some r → r.2.popUp = 0) ∧
    (∀ colVals bgVals loadVals steps r,
      PadPopUp env s colVals bgVals loadVals steps = some r → r.2.popUp = 0) := by
  refine ⟨?_, ?_, ?_, ?_, ?_, ?_⟩
  · intro s1 ho
    refine ⟨(doPopUpOpen_spec ho).2.2.1, ?_⟩
    unfold doPopUp
    rw [ho]
    simp only
    unfold doPopUpLoop
    by_cases hup : s1.popUp ≠ 0
    · simp only [waitLoop, if_pos hup, handleStep, CloseAlert, ne_eq, not_true_eq_false,
        if_false]
      exact ⟨_, rfl⟩
    · simp only [waitLoop, if_neg hup]
      exact ⟨_, rfl⟩
  · intro steps r h
    exact (doPopUp_result h).1
  · intro steps r h
    exact (doPopUp_result h).1
  · intro buf buflen filstr allow steps r h
    obtain ⟨s2, h2⟩ := GetStrPopUp_inv h
    exact (doPopUp_result h2).1
  · intro delaybuf steps r h
    obtain ⟨s2, h2⟩ := GrabPopUp_inv h
    exact (doPopUp_result h2).1
  · intro colVals bgVals loadVals steps r h
    obtain ⟨s3, s4, h2, hp⟩ := PadPopUp_inv h
    rw [hp]
    exact (doPopUp_result h2).1

/-- A click in the pop-up window that finds button `i` under the pointer and is tracked
ends the pop-up with `selected = i`. -/
theorem PUCheckEvent_tracked_click {env : XEnv} {s : PopState} {xev : XEvent} {i : Nat}
    (hup : s.popUp ≠ 0) (hty : xev.type = .ButtonPress) (hb : xev.button = Button1)
    (hw : xev.window = s.popW)
    (hf : findButton env s.bts xev.x xev.y s.nbts.toNat 0 = some i)
    (hi : (i : Int) < s.nbts) (ht : xev.btTrack = true) :
    PUCheckEvent env s xev = some (1, { s with popUp := 0, selected := i }) := by
  have hc : clickPUD env s xev xev.x xev.y = some { s with popUp := 0, selected := i } := by
    unfold clickPUD
    rw [hf]
    simp only
    rw [if_pos ⟨hi, ht⟩]
  have hbr : puBranch env s xev = some (1, { s with popUp := 0, selected := i }) := by
    unfold puBranch
    rw [hty]
    simp only
    rw [if_pos hb, if_pos hw, hc]
    rfl
  unfold PUCheckEvent
  rw [if_neg hup, hbr]
  simp only
  rw [if_neg (by intro h; exact absurd h.1 (by decide))]

/-- C9: for every modal pop-up opened with `n >= 1` buttons, the value `doPopUp` returns
(and so the value `PopUp`, `GetStrPopUp`, `GrabPopUp` with its 3 buttons and `PadPopUp`
with its 2 buttons return) is a valid button index, whatever sequence of events,
`ClosePopUp` and `CloseAlert` calls ended the pop-up; and when the pop-up, still up after
the calls `pre`, is ended by a click that finds button `i` and is tracked, the value is `i`. -/
theorem doPopUp_button_index (env : XEnv) (s : PopState) (labels : List Int) (n poptyp : Int)
    (hn : 1 ≤ n) :
    (∀ steps r, doPopUp env s labels n poptyp steps = some r → 0 ≤ r.1 ∧ r.1 < n) ∧
    (∀ s1 pre s2 xev (i : Nat), doPopUpOpen env s labels n poptyp = some s1 →
      waitLoop env s1 pre = some s2 → s2.popUp ≠ 0 →
      xev.type = .ButtonPress → xev.button = Button1 → xev.window = s2.popW →
      findButton env s2.bts xev.x xev.y s2.nbts.toNat 0 = some i → (i : Int) < s2.nbts →
      xev.btTrack = true →
      ∃ s3, doPopUp env s labels n poptyp (pre ++ [.event xev]) = some ((i : Int), s3)) ∧
    (∀ steps r, PopUp env s labels n steps = some r → 0 ≤ r.1 ∧ r.1 < n) ∧
    (∀ buf buflen filstr allow steps r,
      GetStrPopUp env s labels n buf buflen filstr allow steps = some r → 0 ≤ r.1 ∧ r.1 < n) ∧
    (∀ delaybuf steps r, GrabPopUp env s delaybuf steps = some r → 0 ≤ r.1 ∧ r.1 < 3) ∧
    (∀ colVals bgVals loadVals steps r,
      PadPopUp env s colVals bgVals loadVals steps = some r → 0 ≤ r.1 ∧ r.1 < 2) := by
  refine ⟨?_, ?_, ?_, ?_, ?_, ?_⟩
  · intro steps r h
    exact (doPopUp_result h).2.2 hn
  · intro s1 pre s2 xev i ho hpre hup hty hb hw hf hi ht
    have hev := PUCheckEvent_tracked_click hup hty hb hw hf hi ht
    have hlast : waitLoop env s2 [.event xev] =
        some { s2 with popUp := 0, selected := i } := by
      simp only [waitLoop, if_pos hup, handleStep, hev, Option.map_some']
    refine ⟨{ s2 with popUp := 0, selected := i }, ?_⟩
    unfold doPopUp
    rw [ho]
    simp only
    unfold doPopUpLoop
    rw [waitLoop_append, hpre]
    simp only [Option.some_bind]
    rw [hlast]
    simp
  · intro steps r h
    exact (doPopUp_result h).2.2 hn
  · intro buf buflen filstr allow steps r h
    obtain ⟨s2, h2⟩ := GetStrPopUp_inv h
    exact (doPopUp_result h2).2.2 hn
  · intro delaybuf steps r h
    obtain ⟨s2, h2⟩ := GrabPopUp_inv h
    exact (doPopUp_result h2).2.2 (by decide)
  · intro colVals bgVals loadVals steps r h
    obtain ⟨s3, s4, h2, _⟩ := PadPopUp_inv h
    exact (doPopUp_result h2).2.2 (by decide)

/-- A witness of C9: a confirm box with two buttons, a key that is eaten, then a tracked
click on the second button at (400, 140): `doPopUp` returns 1, which is below 2. -/
theorem doPopUp_button_index_witness :
    ∃ s3, doPopUp demoXEnv popInit [10, 27] 2 ISPOPUP
        ([.event (keyEvent 120)] ++ [.event (clickEvent 100 1 400 140 true)]) =
          some (((1 : Nat) : Int), s3) ∧
      (0 ≤ (((1 : Nat) : Int), s3).1 ∧ (((1 : Nat) : Int), s3).1 < 2) := by
  obtain ⟨s3, h3⟩ := (doPopUp_button_index demoXEnv popInit [10, 27] 2 ISPOPUP (by decide)).2.1
    demoOpened [.event (keyEvent 120)] demoAfterKey (clickEvent 100 1 400 140 true) 1
    rfl rfl (by decide) rfl rfl rfl rfl (by decide) rfl
  exact ⟨s3, h3,
    (doPopUp_button_index demoXEnv popInit [10, 27] 2 ISPOPUP (by decide)).1 _ _ h3⟩

/-- A witness of C8: the confirm box opened from `popInit` enters its loop with
`popUp = ISPOPUP`, and the call that a `CloseAlert` ends returns with `popUp = 0`. -/
theorem popUp_lifetime_witness :
    demoOpened.popUp = ISPOPUP ∧
    ∃ r, doPopUp demoXEnv popInit [10, 27] 2 ISPOPUP [.closeAlert] = some r ∧ r.2.popUp = 0 := by
  obtain ⟨hp, r, hr⟩ := (popUp_lifetime demoXEnv popInit [10, 27] 2 ISPOPUP).1 demoOpened rfl
  exact ⟨hp, r, hr, (popUp_lifetime demoXEnv popInit [10, 27] 2 ISPOPUP).2.1 _ r hr⟩

/-! ## `doGSKey`: what it returns -/

theorem gsInsert_ret {s s1 : PopState} {len c r : Int} (h : gsInsert s len c = some (r, s1)) :
    (r = 1 ∧ s1 = s ∧ len ≥ s.gsBufLen - 1) ∨ (r = 0 ∧ ¬ len ≥ s.gsBufLen - 1) := by
  unfold gsInsert at h
  by_cases hf : len ≥ s.gsBufLen - 1
  · rw [if_pos hf] at h
    simp only [Option.some.injEq, Prod.mk.injEq] at h
    exact Or.inl ⟨h.1.symm, h.2.symm, hf⟩
  · rw [if_neg hf] at h
    cases hb : bcopy s.gsBuf s.gsCurPos (s.gsCurPos + 1) (len - s.gsCurPos + 1) with
    | none =>
      rw [hb] at h
      cases h
    | some b1 =>
      rw [hb] at h
      simp only at h
      cases hs : storeChar b1 s.gsCurPos c with
      | none =>
        rw [hs] at h
        cases h
      | some b2 =>
        rw [hs] at h
        simp only [Option.some.injEq, Prod.mk.injEq] at h
        exact Or.inr ⟨h.1.symm, hf⟩

theorem gsBackspace_ret {s s1 : PopState} {len r : Int} (h : gsBackspace s len = some (r, s1)) :
    (r = 1 ∧ s1 = s ∧ s.gsCurPos = 0) ∨ (r = 0 ∧ s.gsCurPos ≠ 0) := by
  unfold gsBackspace at h
  by_cases hf : s.gsCurPos = 0
  · rw [if_pos hf] at h
    simp only [Option.some.injEq, Prod.mk.injEq] at h
    exact Or.inl ⟨h.1.symm, h.2.symm, hf⟩
  · rw [if_neg hf] at h
    cases hb : bcopy s.gsBuf s.gsCurPos (s.gsCurPos - 1) (len - s.gsCurPos + 1) with
    | none =>
      rw [hb] at h
      cases h
    | some b1 =>
      rw [hb] at h
      simp only [Option.some.injEq, Prod.mk.injEq] at h
      exact Or.inr ⟨h.1.symm, hf⟩

theorem gsDelete_ret {s s1 : PopState} {len r : Int} (h : gsDelete s len = some (r, s1)) :
    (r = 1 ∧ s1 = s ∧ s.gsCurPos = len) ∨ (r = 0 ∧ s.gsCurPos ≠ len) := by
  unfold gsDelete at h
  by_cases hf : s.gsCurPos = len
  · rw [if_pos hf] at h
    simp only [Option.some.injEq, Prod.mk.injEq] at h
    exact Or.inl ⟨h.1.symm, h.2.symm, hf⟩
  · rw [if_neg hf] at h
    cases hb : bcopy s.gsBuf (s.gsCurPos + 1) s.gsCurPos (len - s.gsCurPos) with
    | none =>
      rw [hb] at h
      cases h
    | some b1 =>
      rw [hb] at h
      simp only [Option.some.injEq, Prod.mk.injEq] at h
      exact Or.inr ⟨h.1.symm, hf⟩

theorem gsClearLine_ret {s s1 : PopState} {r : Int} (h : gsClearLine s = some (r, s1)) :
    r = 0 := by
  unfold gsClearLine at h
  cases hb : storeChar s.gsBuf 0 0 with
  | none =>
    rw [hb] at h
    cases h
  | some b1 =>
    rw [hb] at h
    simp only [Option.some.injEq, Prod.mk.injEq] at h
    exact h.1.symm

theorem gsKillToEnd_ret {s s1 : PopState} {r : Int} (h : gsKillToEnd s = some (r, s1)) :
    r = 0 := by
  unfold gsKillToEnd at h
  cases hb : storeChar s.gsBuf s.gsCurPos 0 with
  | none =>
    rw [hb] at h
    cases h
  | some b1 =>
    rw [hb] at h
    simp only [Option.some.injEq, Prod.mk.injEq] at h
    exact h.1.symm

/-- The value with which `doGSEdit` ends: 1 with the state untouched exactly for a refused
key, 0 otherwise. -/
theorem doGSEdit_ret {s s1 : PopState} {c r : Int} {n : Nat} (hl : strlen s.gsBuf = some n)
    (h : doGSEdit s c = some (r, s1)) :
    (r = 1 ∧ s1 = s ∧ keyRefused s n c) ∨ (r = 0 ∧ ¬ keyRefused s n c) := by
  unfold doGSEdit at h
  simp only [hl] at h
  unfold keyRefused
  by_cases h1 : 32 ≤ c ∧ c < 127
  · rw [if_pos h1] at h
    by_cases h2 : filterRejects s c = true
    · rw [if_pos h2] at h
      simp only [Option.some.injEq, Prod.mk.injEq] at h
      exact Or.inl ⟨h.1.symm, h.2.symm, Or.inl ⟨h1, Or.inl h2⟩⟩
    · rw [if_neg h2] at h
      rcases gsInsert_ret h with ⟨a, b, c1⟩ | ⟨a, c1⟩
      · exact Or.inl ⟨a, b, Or.inl ⟨h1, Or.inr c1⟩⟩
      · refine Or.inr ⟨a, ?_⟩
        rintro (⟨_, hx | hx⟩ | hx | hx | hx | hx | hx)
        · exact h2 hx
        · exact c1 hx
        all_goals omega
  rw [if_neg h1] at h
  by_cases h3 : c = 8
  · rw [if_pos h3] at h
    rcases gsBackspace_ret h with ⟨a, b, c1⟩ | ⟨a, c1⟩
    · exact Or.inl ⟨a, b, Or.inr (Or.inl ⟨h3, c1⟩)⟩
    · refine Or.inr ⟨a, ?_⟩
      rintro (⟨hx, _⟩ | hx | hx | hx | hx | hx)
      all_goals omega
  rw [if_neg h3] at h
  by_cases h4 : c = 21
  · rw [if_pos h4] at h
    refine Or.inr ⟨gsClearLine_ret h, ?_⟩
    rintro (⟨hx, _⟩ | hx | hx | hx | hx | hx)
    all_goals omega
  rw [if_neg h4] at h
  by_cases h5 : c = 11
  · rw [if_pos h5] at h
    refine Or.inr ⟨gsKillToEnd_ret h, ?_⟩
    rintro (⟨hx, _⟩ | hx | hx | hx | hx | hx)
    all_goals omega
  rw [if_neg h5] at h
  by_cases h6 : c = 1
  · rw [if_pos h6] at h
    simp only [Option.some.injEq, Prod.mk.injEq] at h
    refine Or.inr ⟨h.1.symm, ?_⟩
    rintro (⟨hx, _⟩ | hx | hx | hx | hx | hx)
    all_goals omega
  rw [if_neg h6] at h
  by_cases h7 : c = 5
  · rw [if_pos h7] at h
    simp only [Option.some.injEq, Prod.mk.injEq] at h
    refine Or.inr ⟨h.1.symm, ?_⟩
    rintro (⟨hx, _⟩ | hx | hx | hx | hx | hx)
    all_goals omega
  rw [if_neg h7] at h
  by_cases h8 : c = 4 ∨ c = 127
  · rw [if_pos h8] at h
    rcases gsDelete_ret h with ⟨a, b, c1⟩ | ⟨a, c1⟩
    · exact Or.inl ⟨a, b, Or.inr (Or.inr (Or.inl ⟨h8, c1⟩))⟩
    · refine Or.inr ⟨a, ?_⟩
      rintro (⟨hx, _⟩ | hx | hx | hx | hx | hx)
      all_goals omega
  rw [if_neg h8] at h
  by_cases h9 : c = 2
  · rw [if_pos h9] at h
    by_cases hz : s.gsCurPos = 0
    · rw [if_pos hz] at h
      simp only [Option.some.injEq, Prod.mk.injEq] at h
      exact Or.inl ⟨h.1.symm, h.2.symm, Or.inr (Or.inr (Or.inr (Or.inl ⟨h9, hz⟩)))⟩
    · rw [if_neg hz] at h
      simp only [Option.some.injEq, Prod.mk.injEq] at h
      refine Or.inr ⟨h.1.symm, ?_⟩
      rintro (⟨hx, _⟩ | hx | hx | hx | hx | hx)
      all_goals omega
  rw [if_neg h9] at h
  by_cases h10 : c = 6
  · rw [if_pos h10] at h
    by_cases hz : s.gsCurPos = (n : Int)
    · rw [if_pos hz] at h
      simp only [Option.some.injEq, Prod.mk.injEq] at h
      exact Or.inl ⟨h.1.symm, h.2.symm,
        Or.inr (Or.inr (Or.inr (Or.inr (Or.inl ⟨h10, hz⟩))))⟩
    · rw [if_neg hz] at h
      simp only [Option.some.injEq, Prod.mk.injEq] at h
      refine Or.inr ⟨h.1.symm, ?_⟩
      rintro (⟨hx, _⟩ | hx | hx | hx | hx | hx)
      all_goals omega
  rw [if_neg h10] at h
  simp only [Option.some.injEq, Prod.mk.injEq] at h
  refine Or.inl ⟨h.1.symm, h.2.symm, ?_⟩
  refine Or.inr (Or.inr (Or.inr (Or.inr (Or.inr ⟨h1, h3, h4, h5, h6, h7, ?_, ?_, h9, h10⟩))))
  · exact fun hx => h8 (Or.inl hx)
  · exact fun hx => h8 (Or.inr hx)

/-- The two ways in which `doGSKey` returns. -/
theorem doGSKey_ret {env : XEnv} {s : PopState} {c : Int} {r : Int × PopState} {n : Nat}
    (hl : strlen s.gsBuf = some n) (h : doGSKey env s c = some r) :
    (r.1 = 1 ∧ r.2 = s ∧ keyRefused s n c) ∨
    (r.1 = 0 ∧ ¬ keyRefused s n c ∧
      ∃ s1, doGSEdit s c = some (0, s1) ∧ changedGSBuf env s1 = some r.2) := by
  unfold doGSKey at h
  cases he : doGSEdit s c with
  | none =>
    rw [he] at h
    cases h
  | some e =>
    obtain ⟨r0, s1⟩ := e
    rw [he] at h
    simp only at h
    rcases doGSEdit_ret hl he with ⟨a, b, c1⟩ | ⟨a, c1⟩
    · rw [if_pos (by omega)] at h
      simp only [Option.some.injEq] at h
      rw [← h]
      exact Or.inl ⟨a, b, c1⟩
    · rw [if_neg (by omega)] at h
      cases hc : changedGSBuf env s1 with
      | none =>
        rw [hc] at h
        cases h
      | some s3 =>
        rw [hc] at h
        simp only [Option.some.injEq] at h
        rw [← h]
        subst a
        exact Or.inr ⟨rfl, c1, s1, rfl, hc⟩

/-- C11: `doGSKey` returns only 0 or 1; it returns 1 exactly when the character was not
accepted (`keyRefused`: filtered out, buffer full, nothing to delete, cursor at the end it
is asked to leave, or a character it does not handle); whenever it returns 1 the state is
the one before the call, so `gsBuf`, `gsCurPos`, `gsStPos` and `gsEnPos` are unchanged; and
on a text field that is in order it does return. -/
theorem doGSKey_return_value (env : XEnv) (s : PopState) (c : Int) :
    (∀ r, doGSKey env s c = some r →
      (r.1 = 0 ∨ r.1 = 1) ∧
      (∀ n, strlen s.gsBuf = some n → (r.1 = 1 ↔ keyRefused s n c)) ∧
      (r.1 = 1 → r.2 = s ∧ r.2.gsBuf = s.gsBuf ∧ r.2.gsCurPos = s.gsCurPos ∧
        r.2.gsStPos = s.gsStPos ∧ r.2.gsEnPos = s.gsEnPos)) ∧
    (textFieldOK env s → ∃ r, doGSKey env s c = some r) := by
  refine ⟨?_, doGSKey_total env s c⟩
  intro r h
  cases hl : strlen s.gsBuf with
  | none =>
    unfold doGSKey doGSEdit at h
    simp only [hl] at h
    cases h
  | some n =>
    rcases doGSKey_ret hl h with ⟨a, b, c1⟩ | ⟨a, c1, _⟩
    · refine ⟨Or.inr a, ?_, ?_⟩
      · intro m hm
        simp only [Option.some.injEq] at hm
        subst hm
        exact ⟨fun _ => c1, fun _ => a⟩
      · intro _
        rw [b]
        exact ⟨rfl, rfl, rfl, rfl, rfl⟩
    · refine ⟨Or.inl a, ?_, ?_⟩
      · intro m hm
        simp only [Option.some.injEq] at hm
        subst hm
        exact ⟨fun h1 => absurd h1 (by omega), fun h1 => absurd h1 c1⟩
      · intro h1
        omega

/-- A witness of C11: in the sample text field with the filter `"xy"` (disallowed), the key
`x` is refused and the key `a` is accepted. -/
theorem doGSKey_return_value_witness :
    (∃ r, doGSKey demoXEnv (demoText (some [120, 121]) 0) 120 = some r ∧ r.1 = 1 ∧
      r.2 = demoText (some [120, 121]) 0) ∧
    (∃ r, doGSKey demoXEnv (demoText (some [120, 121]) 0) 97 = some r ∧ r.1 = 0) := by
  obtain ⟨r1, h1⟩ := (doGSKey_return_value demoXEnv (demoText (some [120, 121]) 0) 120).2
    (by decide)
  obtain ⟨r2, h2⟩ := (doGSKey_return_value demoXEnv (demoText (some [120, 121]) 0) 97).2
    (by decide)
  have a1 := (doGSKey_return_value demoXEnv (demoText (some [120, 121]) 0) 120).1 r1 h1
  have a2 := (doGSKey_return_value demoXEnv (demoText (some [120, 121]) 0) 97).1 r2 h2
  have k1 : r1.1 = 1 := (a1.2.1 2 rfl).mpr (by decide)
  have k2 : r2.1 = 0 := by
    rcases a2.1 with h0 | h0
    · exact h0
    · exact absurd ((a2.2.1 2 rfl).mp h0) (by decide)
  exact ⟨⟨r1, h1, k1, (a1.2.2 k1).1⟩, ⟨r2, h2, k2⟩⟩

/-! ## `doGSKey`: the string stays inside the caller's buffer -/

theorem strlen_le_of_getElem? : ∀ (buf : List Int) (i : Nat), buf[i]? = some 0 →
    ∃ m, strlen buf = some m ∧ m ≤ i := by
  intro buf
  induction buf with
  | nil =>
    intro i h
    simp at h
  | cons c cs ih =>
    intro i h
    rw [strlen]
    by_cases hc : c = 0
    · rw [if_pos hc]
      exact ⟨0, rfl, Nat.zero_le _⟩
    · rw [if_neg hc]
      cases i with
      | zero =>
        simp only [List.getElem?_cons_zero, Option.some.injEq] at h
        exact absurd h hc
      | succ j =>
        simp only [List.getElem?_cons_succ] at h
        obtain ⟨m, hm, hle⟩ := ih j h
        rw [hm]
        exact ⟨m + 1, rfl, by omega⟩

/-- A `bcopy` changes no byte outside its destination. -/
theorem bcopy_frame {buf b : List Int} {src dst n : Int} (h : bcopy buf src dst n = some b) :
    b.length = buf.length ∧
      ∀ i : Nat, ¬ (dst ≤ (i : Int) ∧ (i : Int) < dst + n) → b[i]? = buf[i]? := by
  unfold bcopy at h
  split_ifs at h with hc
  simp only [Option.some.injEq] at h
  subst h
  refine ⟨by simp, ?_⟩
  intro i hi
  by_cases hlt : i < buf.length
  · rw [List.getElem?_map, List.getElem?_range hlt]
    simp only [Option.map_some']
    rw [if_neg hi, List.getD_eq_getElem?_getD, List.getElem?_eq_getElem hlt]
    rfl
  · rw [List.getElem?_eq_none (by simpa using hlt), List.getElem?_eq_none (by omega)]

/-- A store changes no other byte. -/
theorem storeChar_frame {buf b : List Int} {i c : Int} (h : storeChar buf i c = some b) :
    b.length = buf.length ∧ ∀ j : Nat, (j : Int) ≠ i → b[j]? = buf[j]? := by
  unfold storeChar at h
  split_ifs at h with hc
  simp only [Option.some.injEq] at h
  subst h
  refine ⟨by simp, ?_⟩
  intro j hj
  rw [List.getElem?_set_ne (by omega)]

theorem changedGSBuf_bufLen {env : XEnv} {s s2 : PopState} (h : changedGSBuf env s = some s2) :
    s2.gsBufLen = s.gsBufLen := by
  unfold changedGSBuf at h
  split at h
  · cases h
  · simp only at h
    split at h
    · cases h
    · simp only [Option.some.injEq] at h
      subst h
      rfl

/-- The branch `doGSEdit` takes, paired with the stores `gsStores` lists for it. -/
theorem doGSEdit_stores_cases (s : PopState) (c : Int) (n : Nat)
    (hl : strlen s.gsBuf = some n) :
    (doGSEdit s c = some (1, s) ∧ gsStores s n c = []) ∨
    (doGSEdit s c = gsInsert s n c ∧ 32 ≤ c ∧
      gsStores s n c = (if (n : Int) ≥ s.gsBufLen - 1 then []
        else [(s.gsCurPos + 1, (n : Int) - s.gsCurPos + 1), (s.gsCurPos, 1)])) ∨
    (doGSEdit s c = gsBackspace s n ∧
      gsStores s n c = (if s.gsCurPos = 0 then []
        else [(s.gsCurPos - 1, (n : Int) - s.gsCurPos + 1)])) ∨
    (doGSEdit s c = gsClearLine s ∧ gsStores s n c = [(0, 1)]) ∨
    (doGSEdit s c = gsKillToEnd s ∧ gsStores s n c = [(s.gsCurPos, 1)]) ∨
    (doGSEdit s c = gsDelete s n ∧
      gsStores s n c = (if s.gsCurPos = (n : Int) then []
        else [(s.gsCurPos, (n : Int) - s.gsCurPos)])) ∨
    (∃ p : Int, (p = 0 ∨ p = n ∨ (p = s.gsCurPos - 1 ∧ s.gsCurPos ≠ 0) ∨
        (p = s.gsCurPos + 1 ∧ s.gsCurPos ≠ n)) ∧
      doGSEdit s c = some (0, { s with gsCurPos := p }) ∧ gsStores s n c = []) := by
  unfold doGSEdit gsStores
  simp only [hl]
  by_cases h1 : 32 ≤ c ∧ c < 127
  · rw [if_pos h1, if_pos h1]
    by_cases h2 : filterRejects s c = true
    · rw [if_pos h2, if_pos h2]
      exact Or.inl ⟨rfl, rfl⟩
    · rw [if_neg h2, if_neg h2]
      exact Or.inr (Or.inl ⟨rfl, h1.1, rfl⟩)
  rw [if_neg h1, if_neg h1]
  by_cases h3 : c = 8
  · rw [if_pos h3, if_pos h3]
    exact Or.inr (Or.inr (Or.inl ⟨rfl, rfl⟩))
  rw [if_neg h3, if_neg h3]
  by_cases h4 : c = 21
  · rw [if_pos h4, if_pos h4]
    exact Or.inr (Or.inr (Or.inr (Or.inl ⟨rfl, rfl⟩)))
  rw [if_neg h4, if_neg h4]
  by_cases h5 : c = 11
  · rw [if_pos h5, if_pos h5]
    exact Or.inr (Or.inr (Or.inr (Or.inr (Or.inl ⟨rfl, rfl⟩))))
  rw [if_neg h5, if_neg h5]
  by_cases h6 : c = 1
  · rw [if_pos h6, if_pos h6]
    exact Or.inr (Or.inr (Or.inr (Or.inr (Or.inr (Or.inr ⟨0, Or.inl rfl, rfl, rfl⟩)))))
  rw [if_neg h6, if_neg h6]
  by_cases h7 : c = 5
  · rw [if_pos h7, if_pos h7]
    exact Or.inr (Or.inr (Or.inr (Or.inr (Or.inr (Or.inr
      ⟨n, Or.inr (Or.inl rfl), rfl, rfl⟩)))))
  rw [if_neg h7, if_neg h7]
  by_cases h8 : c = 4 ∨ c = 127
  · rw [if_pos h8, if_pos h8]
    exact Or.inr (Or.inr (Or.inr (Or.inr (Or.inr (Or.inl ⟨rfl, rfl⟩)))))
  rw [if_neg h8, if_neg h8]
  by_cases h9 : c = 2
  · rw [if_pos h9]
    by_cases hz : s.gsCurPos = 0
    · rw [if_pos hz]
      exact Or.inl ⟨rfl, rfl⟩
    · rw [if_neg hz]
      exact Or.inr (Or.inr (Or.inr (Or.inr (Or.inr (Or.inr
        ⟨s.gsCurPos - 1, Or.inr (Or.inr (Or.inl ⟨rfl, hz⟩)), rfl, rfl⟩)))))
  rw [if_neg h9]
  by_cases h10 : c = 6
  · rw [if_pos h10]
    by_cases hz : s.gsCurPos = n
    · rw [if_pos hz]
      exact Or.inl ⟨rfl, rfl⟩
    · rw [if_neg hz]
      exact Or.inr (Or.inr (Or.inr (Or.inr (Or.inr (Or.inr
        ⟨s.gsCurPos + 1, Or.inr (Or.inr (Or.inr ⟨rfl, hz⟩)), rfl, rfl⟩)))))
  rw [if_neg h10]
  exact Or.inl ⟨rfl, rfl⟩

theorem storedAt_nil (i : Int) : ¬ storedAt [] i := by
  rintro ⟨p, hp, _⟩
  cases hp

theorem storedAt_one {a k i : Int} (h : ¬ storedAt [(a, k)] i) : ¬ (a ≤ i ∧ i < a + k) :=
  fun hx => h ⟨(a, k), List.mem_singleton.mpr rfl, hx.1, hx.2⟩

theorem storedAt_two {a k a2 k2 i : Int} (h : ¬ storedAt [(a, k), (a2, k2)] i) :
    ¬ (a ≤ i ∧ i < a + k) ∧ ¬ (a2 ≤ i ∧ i < a2 + k2) :=
  ⟨fun hx => h ⟨(a, k), List.mem_cons_self _ _, hx.1, hx.2⟩,
   fun hx => h ⟨(a2, k2), List.mem_cons_of_mem _ (List.mem_singleton.mpr rfl), hx.1, hx.2⟩⟩

/-- On a string that fits the buffer, with the cursor inside it, the editing part of
`doGSKey` stores only at indices `0 .. gsBufLen-1`, does not fault, changes no byte outside
the listed stores and leaves a string that fits the buffer. -/
theorem doGSEdit_in_buffer (s : PopState) (c : Int) (n : Nat)
    (hl : strlen s.gsBuf = some n) (hn : (n : Int) ≤ s.gsBufLen - 1)
    (hc0 : 0 ≤ s.gsCurPos) (hc1 : s.gsCurPos ≤ (n : Int))
    (hlen : s.gsBufLen ≤ (s.gsBuf.length : Int)) :
    (∀ p, p ∈ gsStores s n c → 0 ≤ p.1 ∧ 0 ≤ p.2 ∧ p.1 + p.2 ≤ s.gsBufLen) ∧
    ∃ r s1, doGSEdit s c = some (r, s1) ∧ s1.gsBufLen = s.gsBufLen ∧ s1.gsw = s.gsw ∧
      s1.gsBuf.length = s.gsBuf.length ∧
      (∃ m : Nat, strlen s1.gsBuf = some m ∧ (m : Int) ≤ s.gsBufLen - 1) ∧
      (∀ i : Nat, ¬ storedAt (gsStores s n c) i → s1.gsBuf[i]? = s.gsBuf[i]?) := by
  obtain ⟨hnl, hz⟩ := strlen_spec s.gsBuf n hl
  have hz0 : s.gsBuf.getD n 0 = 0 := getD_of_getElem? hz
  rcases doGSEdit_stores_cases s c n hl with ⟨h1, h2⟩ | ⟨h1, hpr, h2⟩ | ⟨h1, h2⟩ | ⟨h1, h2⟩ |
    ⟨h1, h2⟩ | ⟨h1, h2⟩ | ⟨p, _, h1, h2⟩
  · rw [h1, h2]
    exact ⟨fun p hp => absurd hp (List.not_mem_nil p),
      1, s, rfl, rfl, rfl, rfl, ⟨n, hl, hn⟩, fun i _ => rfl⟩
  · rw [h1, h2]
    unfold gsInsert
    by_cases hfull : (n : Int) ≥ s.gsBufLen - 1
    · rw [if_pos hfull, if_pos hfull]
      exact ⟨fun p hp => absurd hp (List.not_mem_nil p),
        1, s, rfl, rfl, rfl, rfl, ⟨n, hl, hn⟩, fun i _ => rfl⟩
    · rw [if_neg hfull, if_neg hfull]
      refine ⟨?_, ?_⟩
      · intro p hp
        simp only [List.mem_cons, List.mem_singleton, List.not_mem_nil, or_false] at hp
        rcases hp with hp | hp
        all_goals subst hp
        all_goals simp only
        all_goals omega
      obtain ⟨b1, hb1, hlen1, hget1⟩ := bcopy_some s.gsBuf (s.gsCurPos)
        (s.gsCurPos + 1) ((n : Int) - s.gsCurPos + 1)
        (by omega) hc0 (by omega) (by omega) (by omega)
      rw [hb1]
      simp only
      rw [storeChar_some hc0 (by omega)]
      have hidx : b1[n + 1]? = some 0 := by
        rw [hget1 (n + 1) (by omega), if_pos (by constructor <;> push_cast <;> omega)]
        have : (s.gsCurPos + (((n + 1 : Nat) : Int) - (s.gsCurPos + 1))).toNat = n := by
          push_cast
          omega
        rw [this, hz0]
      have hidx2 : (b1.set s.gsCurPos.toNat c)[n + 1]? = some 0 := by
        rw [List.getElem?_set_ne (by omega)]
        exact hidx
      obtain ⟨m, hm, hmle⟩ := strlen_le_of_getElem? _ _ hidx2
      refine ⟨0, _, rfl, rfl, rfl, ?_, ⟨m, hm, by omega⟩, ?_⟩
      · simp only [List.length_set]
        exact hlen1
      · intro i hi
        obtain ⟨ha, hb⟩ := storedAt_two hi
        simp only
        rw [List.getElem?_set_ne (by omega)]
        exact (bcopy_frame hb1).2 i ha
  · rw [h1, h2]
    unfold gsBackspace
    by_cases hz1 : s.gsCurPos = 0
    · rw [if_pos hz1, if_pos hz1]
      exact ⟨fun p hp => absurd hp (List.not_mem_nil p),
        1, s, rfl, rfl, rfl, rfl, ⟨n, hl, hn⟩, fun i _ => rfl⟩
    · rw [if_neg hz1, if_neg hz1]
      refine ⟨?_, ?_⟩
      · intro p hp
        simp only [List.mem_singleton] at hp
        subst hp
        simp only
        omega
      obtain ⟨b1, hb1, hlen1, hget1⟩ := bcopy_some s.gsBuf (s.gsCurPos)
        (s.gsCurPos - 1) ((n : Int) - s.gsCurPos + 1)
        (by omega) hc0 (by omega) (by omega) (by omega)
      rw [hb1]
      have hn1 : 1 ≤ n := by omega
      have hidx : b1[n - 1]? = some 0 := by
        rw [hget1 (n - 1) (by omega), if_pos (by constructor <;> omega)]
        have : (s.gsCurPos + (((n - 1 : Nat) : Int) - (s.gsCurPos - 1))).toNat = n := by
          omega
        rw [this, hz0]
      obtain ⟨m, hm, hmle⟩ := strlen_le_of_getElem? _ _ hidx
      refine ⟨0, _, rfl, rfl, rfl, hlen1, ⟨m, hm, by omega⟩, ?_⟩
      intro i hi
      exact (bcopy_frame hb1).2 i (storedAt_one hi)
  · rw [h1, h2]
    unfold gsClearLine
    rw [storeChar_some (le_refl 0) (by omega)]
    refine ⟨?_, ?_⟩
    · intro p hp
      simp only [List.mem_singleton] at hp
      subst hp
      simp only
      omega
    have hidx : (s.gsBuf.set (0 : Int).toNat 0)[0]? = some 0 := by
      simp only [Int.toNat_zero]
      exact List.getElem?_set_self (by omega)
    obtain ⟨m, hm, hmle⟩ := strlen_le_of_getElem? _ _ hidx
    refine ⟨0, _, rfl, rfl, rfl, by simp, ⟨m, hm, by omega⟩, ?_⟩
    intro i hi
    have := storedAt_one hi
    simp only
    rw [List.getElem?_set_ne (by simp only [Int.toNat_zero]; omega)]
  · rw [h1, h2]
    unfold gsKillToEnd
    rw [storeChar_some hc0 (by omega)]
    refine ⟨?_, ?_⟩
    · intro p hp
      simp only [List.mem_singleton] at hp
      subst hp
      simp only
      omega
    have hidx : (s.gsBuf.set s.gsCurPos.toNat 0)[s.gsCurPos.toNat]? = some 0 :=
      List.getElem?_set_self (by omega)
    obtain ⟨m, hm, hmle⟩ := strlen_le_of_getElem? _ _ hidx
    refine ⟨0, _, rfl, rfl, rfl, by simp, ⟨m, hm, by omega⟩, ?_⟩
    intro i hi
    have := storedAt_one hi
    simp only
    rw [List.getElem?_set_ne (by omega)]
  · rw [h1, h2]
    unfold gsDelete
    by_cases hz1 : s.gsCurPos = (n : Int)
    · rw [if_pos hz1, if_pos hz1]
      exact ⟨fun p hp => absurd hp (List.not_mem_nil p),
        1, s, rfl, rfl, rfl, rfl, ⟨n, hl, hn⟩, fun i _ => rfl⟩
    · rw [if_neg hz1, if_neg hz1]
      refine ⟨?_, ?_⟩
      · intro p hp
        simp only [List.mem_singleton] at hp
        subst hp
        simp only
        omega
      obtain ⟨b1, hb1, hlen1, hget1⟩ := bcopy_some s.gsBuf (s.gsCurPos + 1)
        (s.gsCurPos) ((n : Int) - s.gsCurPos)
        (by omega) (by omega) hc0 (by omega) (by omega)
      rw [hb1]
      have hn1 : 1 ≤ n := by omega
      have hidx : b1[n - 1]? = some 0 := by
        rw [hget1 (n - 1) (by omega), if_pos (by constructor <;> omega)]
        have : (s.gsCurPos + 1 + (((n - 1 : Nat) : Int) - s.gsCurPos)).toNat = n := by
          omega
        rw [this, hz0]
      obtain ⟨m, hm, hmle⟩ := strlen_le_of_getElem? _ _ hidx
      refine ⟨0, _, rfl, rfl, rfl, hlen1, ⟨m, hm, by omega⟩, ?_⟩
      intro i hi
      exact (bcopy_frame hb1).2 i (storedAt_one hi)
  · rw [h1, h2]
    exact ⟨fun p hp => absurd hp (List.not_mem_nil p),
      0, _, rfl, rfl, rfl, rfl, ⟨n, hl, hn⟩, fun i _ => rfl⟩

/-- C12: if `strlen(gsBuf) <= gsBufLen-1` and `0 <= gsCurPos <= strlen(gsBuf)` hold before a
key (the buffer having at least `gsBufLen` bytes), then for any character every byte
`doGSKey` stores lies at an index in `0 .. gsBufLen-1`, the stores are carried out without
a fault, and after `doGSKey` the string is NUL-terminated with
`strlen(gsBuf) <= gsBufLen-1`, `gsBufLen` and the array being the same and no byte outside
the listed stores having changed; `doGSKey` returns when the field is at least as wide as
its border. -/
theorem doGSKey_stays_in_buffer (env : XEnv) (s : PopState) (c : Int) (n : Nat)
    (hl : strlen s.gsBuf = some n) (hn : (n : Int) ≤ s.gsBufLen - 1)
    (hc0 : 0 ≤ s.gsCurPos) (hc1 : s.gsCurPos ≤ (n : Int))
    (hlen : s.gsBufLen ≤ (s.gsBuf.length : Int)) :
    (∀ p, p ∈ gsStores s n c → ∀ i : Int, p.1 ≤ i → i < p.1 + p.2 →
      0 ≤ i ∧ i ≤ s.gsBufLen - 1) ∧
    (∃ r s1, doGSEdit s c = some (r, s1)) ∧
    (∀ r, doGSKey env s c = some r →
      r.2.gsBufLen = s.gsBufLen ∧ r.2.gsBuf.length = s.gsBuf.length ∧
      (∃ m : Nat, strlen r.2.gsBuf = some m ∧ (m : Int) ≤ r.2.gsBufLen - 1) ∧
      (∀ i : Nat, ¬ storedAt (gsStores s n c) i → r.2.gsBuf[i]? = s.gsBuf[i]?)) ∧
    (6 * env.dpiMult ≤ s.gsw → ∃ r, doGSKey env s c = some r) := by
  obtain ⟨hst, r0, s1, he, hbl, hgw, hlen1, ⟨m, hm, hmle⟩, hfr⟩ :=
    doGSEdit_in_buffer s c n hl hn hc0 hc1 hlen
  refine ⟨?_, ⟨r0, s1, he⟩, ?_, ?_⟩
  · intro p hp i h1 h2
    obtain ⟨a, b, d⟩ := hst p hp
    omega
  · intro r h
    unfold doGSKey at h
    rw [he] at h
    simp only at h
    by_cases hr : r0 ≠ 0
    · rw [if_pos hr] at h
      simp only [Option.some.injEq] at h
      rw [← h]
      exact ⟨hbl, hlen1, ⟨m, hm, by rw [hbl]; exact hmle⟩, hfr⟩
    · rw [if_neg hr] at h
      cases hc : changedGSBuf env s1 with
      | none =>
        rw [hc] at h
        cases h
      | some s3 =>
        rw [hc] at h
        simp only [Option.some.injEq] at h
        rw [← h]
        have hb := (changedGSBuf_control hc).2
        have hb2 := changedGSBuf_bufLen hc
        simp only
        rw [hb, hb2]
        exact ⟨hbl, hlen1, ⟨m, hm, by rw [hbl]; exact hmle⟩, hfr⟩
  · intro hw
    unfold doGSKey
    rw [he]
    simp only
    by_cases hr : r0 ≠ 0
    · rw [if_pos hr]
      exact ⟨_, rfl⟩
    · rw [if_neg hr]
      obtain ⟨s3, hs3⟩ := changedGSBuf_total env s1 m hm (by rw [hgw]; exact hw)
      rw [hs3]
      exact ⟨_, rfl⟩

/-- A witness of C12: the key `a` typed into the 8-byte sample buffer holding `"ab"`. -/
theorem doGSKey_stays_in_buffer_witness :
    (∀ p, p ∈ gsStores (demoText none 0) 2 97 → ∀ i : Int, p.1 ≤ i → i < p.1 + p.2 →
      0 ≤ i ∧ i ≤ 7) ∧
    ∃ r, doGSKey demoXEnv (demoText none 0) 97 = some r ∧
      ∃ m : Nat, strlen r.2.gsBuf = some m ∧ (m : Int) ≤ r.2.gsBufLen - 1 := by
  have h := doGSKey_stays_in_buffer demoXEnv (demoText none 0) 97 2 rfl (by decide) (by decide)
    (by decide) (by decide)
  obtain ⟨r, hr⟩ := h.2.2.2 (by decide)
  exact ⟨h.1, r, hr, (h.2.2.1 r hr).2.2.1⟩

/-! ## `ClosePopUp` -/

/-- C13 as stated fails for a text-entry pop-up: with `popUp = ISGETSTR` before the call,
`ClosePopUp` returns with `popUp` still `ISGETSTR`. -/
theorem ClosePopUp_counterexample :
    (demoText none 0).popUp = ISGETSTR ∧ (ClosePopUp (demoText none 0)).popUp = 3 ∧
      (ClosePopUp (demoText none 0)).popUp ≠ 0 := by
  decide

/-- C13, amended: `ClosePopUp` closes a confirm box and an alert: if `popUp` is `ISPOPUP` or
`ISALERT` before the call then `popUp = 0` after it (and it stays 0 when no pop-up is
open); a text-entry, grab or pad pop-up is left as it is: `ClosePopUp` changes nothing. -/
theorem ClosePopUp_confirm_or_alert (s : PopState) :
    ((s.popUp = ISPOPUP ∨ s.popUp = ISALERT ∨ s.popUp = 0) → (ClosePopUp s).popUp = 0) ∧
    ((s.popUp = ISGETSTR ∨ s.popUp = ISGRAB ∨ s.popUp = ISPAD) → ClosePopUp s = s) := by
  constructor
  · intro h
    unfold ClosePopUp
    by_cases h1 : s.popUp = ISALERT
    · rw [if_pos h1]
      rfl
    rw [if_neg h1]
    by_cases h2 : s.popUp = ISPOPUP
    · rw [if_pos h2]
    rw [if_neg h2]
    rcases h with h | h | h
    · exact absurd h h2
    · exact absurd h h1
    · exact h
  · intro h
    unfold ClosePopUp
    have h1 : s.popUp ≠ ISALERT := by
      unfold ISALERT
      unfold ISGETSTR ISGRAB ISPAD at h
      omega
    have h2 : s.popUp ≠ ISPOPUP := by
      unfold ISPOPUP
      unfold ISGETSTR ISGRAB ISPAD at h
      omega
    rw [if_neg h1, if_neg h2]

/-- A witness of the amended C13: the open confirm box `demoOpened` is closed, the
text-entry box `demoText` is left alone. -/
theorem ClosePopUp_confirm_or_alert_witness :
    (ClosePopUp demoOpened).popUp = 0 ∧
    ClosePopUp (demoText none 0) = demoText none 0 :=
  ⟨(ClosePopUp_confirm_or_alert demoOpened).1 (Or.inl rfl),
   (ClosePopUp_confirm_or_alert (demoText none 0)).2 (Or.inl rfl)⟩

/-- One `HandleEvent` call keeps `nbts`, and it keeps `popUp` or sets it to 0. -/
theorem handleStep_popUp {env : XEnv} {s s2 : PopState} {step : HStep}
    (h : handleStep env s step = some s2) :
    s2.nbts = s.nbts ∧ (s2.popUp = s.popUp ∨ s2.popUp = 0) := by
  cases step with
  | event xev =>
    simp only [handleStep] at h
    cases hp : PUCheckEvent env s xev with
    | none =>
      rw [hp] at h
      cases h
    | some r =>
      obtain ⟨rv, s3⟩ := r
      rw [hp] at h
      simp only [Option.map_some', Option.some.injEq] at h
      subst h
      rcases PUCheckEvent_state hp with ⟨a1, _, a3, _, _⟩ | ⟨i, _, he⟩
      · exact ⟨a1, Or.inl a3⟩
      · rw [he]
        exact ⟨rfl, Or.inr rfl⟩
  | closePopUp =>
    simp only [handleStep, Option.some.injEq] at h
    subst h
    unfold ClosePopUp
    by_cases h1 : s.popUp = ISALERT
    · rw [if_pos h1]
      exact ⟨rfl, Or.inr rfl⟩
    rw [if_neg h1]
    by_cases h2 : s.popUp = ISPOPUP
    · rw [if_pos h2]
      exact ⟨rfl, Or.inr rfl⟩
    · rw [if_neg h2]
      exact ⟨rfl, Or.inl rfl⟩
  | closeAlert =>
    simp only [handleStep, Option.some.injEq] at h
    subst h
    exact ⟨rfl, Or.inr rfl⟩
  | other =>
    simp only [handleStep, Option.some.injEq] at h
    subst h
    exact ⟨rfl, Or.inl rfl⟩

theorem waitLoop_popUp (env : XEnv) :
    ∀ (steps : List HStep) (s s2 : PopState), waitLoop env s steps = some s2 →
      s2.nbts = s.nbts ∧ (s2.popUp = s.popUp ∨ s2.popUp = 0) := by
  intro steps
  induction steps with
  | nil =>
    intro s s2 h
    simp only [waitLoop, Option.some.injEq] at h
    subst h
    exact ⟨rfl, Or.inl rfl⟩
  | cons step rest ih =>
    intro s s2 h
    rw [waitLoop] at h
    by_cases hup : s.popUp ≠ 0
    · rw [if_pos hup] at h
      cases hs : handleStep env s step with
      | none =>
        rw [hs] at h
        cases h
      | some s3 =>
        rw [hs] at h
        obtain ⟨a1, a2⟩ := handleStep_popUp hs
        obtain ⟨b1, b2⟩ := ih s3 s2 h
        refine ⟨b1.trans a1, ?_⟩
        rcases b2 with b2 | b2
        · rcases a2 with a2 | a2
          · exact Or.inl (b2.trans a2)
          · exact Or.inr (b2.trans a2)
        · exact Or.inr b2
    · rw [if_neg hup] at h
      simp only [Option.some.injEq] at h
      subst h
      exact ⟨rfl, Or.inl rfl⟩

/-- C14: when a confirm pop-up with `n` buttons is open, `ClosePopUp` sets `selected` to
`n-1`, the index of the last button, and ends the pop-up: a `PopUp` call that is still
waiting after the calls `pre` (in a state `s2` with `popUp = ISPOPUP` and `nbts = n`)
returns `n-1` when `ClosePopUp` is called next. -/
theorem ClosePopUp_returns_cancel (env : XEnv) (s : PopState) (labels : List Int) (n : Int) :
    (∀ s2 : PopState, s2.popUp = ISPOPUP →
      (ClosePopUp s2).selected = s2.nbts - 1 ∧ (ClosePopUp s2).popUp = 0) ∧
    (∀ s1 pre s2, doPopUpOpen env s labels n ISPOPUP = some s1 →
      waitLoop env s1 pre = some s2 → s2.popUp ≠ 0 →
      s2.popUp = ISPOPUP ∧ s2.nbts = n ∧ (ClosePopUp s2).selected = n - 1 ∧
      doPopUp env s labels n ISPOPUP (pre ++ [.closePopUp]) = some (n - 1, ClosePopUp s2) ∧
      PopUp env s labels n (pre ++ [.closePopUp]) = some (n - 1, ClosePopUp s2)) := by
  have hclose : ∀ s2 : PopState, s2.popUp = ISPOPUP →
      ClosePopUp s2 = { s2 with popUp := 0, selected := s2.nbts - 1 } := by
    intro s2 h2
    unfold ClosePopUp
    rw [if_neg (by rw [h2]; decide), if_pos h2]
  refine ⟨?_, ?_⟩
  · intro s2 h2
    rw [hclose s2 h2]
    exact ⟨rfl, rfl⟩
  · intro s1 pre s2 ho hpre hup
    obtain ⟨h1, _, h3, _⟩ := doPopUpOpen_spec ho
    obtain ⟨a1, a2⟩ := waitLoop_popUp env pre s1 s2 hpre
    have hp : s2.popUp = ISPOPUP := by
      rcases a2 with a2 | a2
      · exact a2.trans h3
      · exact absurd a2 hup
    have hnb : s2.nbts = n := a1.trans h1
    have hd : doPopUp env s labels n ISPOPUP (pre ++ [.closePopUp]) =
        some (n - 1, ClosePopUp s2) := by
      have hlast : waitLoop env s2 [.closePopUp] = some (ClosePopUp s2) := by
        simp only [waitLoop, if_pos hup, handleStep]
      unfold doPopUp
      rw [ho]
      simp only
      unfold doPopUpLoop
      rw [waitLoop_append, hpre]
      simp only [Option.some_bind]
      rw [hlast]
      simp only
      rw [hclose s2 hp]
      simp only [ne_eq, not_true_eq_false, if_false, hnb]
    refine ⟨hp, hnb, ?_, hd, ?_⟩
    · rw [hclose s2 hp]
      simp only [hnb]
    · unfold PopUp
      exact hd

/-- A witness of C14: the confirm box with two buttons, still waiting after a key, is
ended by `ClosePopUp`, and `PopUp` returns 1, the index of its last button. -/
theorem ClosePopUp_returns_cancel_witness :
    PopUp demoXEnv popInit [10, 27] 2 ([.event (keyEvent 120)] ++ [.closePopUp]) =
      some (2 - 1, ClosePopUp demoAfterKey) :=
  ((ClosePopUp_returns_cancel demoXEnv popInit [10, 27] 2).2 demoOpened
    [.event (keyEvent 120)] demoAfterKey rfl rfl (by decide)).2.2.2.2

/-! ## `CenterMapFlexWindow` -/

theorem clampOnScreen_spec {disp w wx r : Int} (hw : w ≤ disp)
    (h : clampOnScreen disp w wx = some r) : 0 ≤ r ∧ r + w ≤ disp := by
  unfold clampOnScreen at h
  simp only at h
  cases ha : addInt (if wx < 0 then 0 else wx) w with
  | none =>
    rw [ha] at h
    cases h
  | some sum =>
    rw [ha] at h
    simp only at h
    unfold addInt at ha
    split_ifs at ha with h1 h2
    all_goals simp only [Option.some.injEq] at ha
    all_goals subst ha
    · by_cases hgt : 0 + w > disp
      · rw [if_pos hgt] at h
        unfold subInt at h
        split_ifs at h
        simp only [Option.some.injEq] at h
        omega
      · rw [if_neg hgt] at h
        simp only [Option.some.injEq] at h
        omega
    · by_cases hgt : wx + w > disp
      · rw [if_pos hgt] at h
        unfold subInt at h
        split_ifs at h
        simp only [Option.some.injEq] at h
        omega
      · rw [if_neg hgt] at h
        simp only [Option.some.injEq] at h
        omega

theorem clampOnScreen_total (disp w wx : Int) (hd : inRange29 disp) (hw : inRange29 w)
    (hx : -(2 ^ 30) ≤ wx ∧ wx ≤ 2 ^ 30) : ∃ r, clampOnScreen disp w wx = some r := by
  unfold inRange29 at hd hw
  unfold clampOnScreen
  simp only
  have ha : addInt (if wx < 0 then 0 else wx) w = some ((if wx < 0 then 0 else wx) + w) := by
    unfold addInt isInt
    rw [if_pos]
    split_ifs <;> constructor <;> omega
  rw [ha]
  simp only
  have hs : subInt disp w = some (disp - w) := by
    unfold subInt isInt
    rw [if_pos (by constructor <;> omega)]
  rw [hs]
  split_ifs <;> exact ⟨_, rfl⟩

theorem centerPos_spec {pointer : Option (Int × Int)} {dispWIDE dispHIGH dx dy w h : Int}
    {r : Int × Int} (hw : w ≤ dispWIDE) (hh : h ≤ dispHIGH)
    (hr : centerPos pointer dispWIDE dispHIGH dx dy w h = some r) :
    0 ≤ r.1 ∧ r.1 + w ≤ dispWIDE ∧ 0 ≤ r.2 ∧ r.2 + h ≤ dispHIGH := by
  unfold centerPos at hr
  cases pointer with
  | none =>
    simp only at hr
    unfold subInt at hr
    split_ifs at hr
    simp only [Option.some.injEq] at hr
    rw [← hr]
    simp only
    rw [Int.tdiv_eq_ediv (by omega) (by decide), Int.tdiv_eq_ediv (by omega) (by decide)]
    omega
  | some p =>
    obtain ⟨x, y⟩ := p
    simp only at hr
    cases h1 : subInt x dx with
    | none =>
      rw [h1] at hr
      cases hr
    | some wx0 =>
      cases h2 : subInt y dy with
      | none =>
        rw [h1, h2] at hr
        cases hr
      | some wy0 =>
        rw [h1, h2] at hr
        simp only at hr
        cases h3 : clampOnScreen dispWIDE w wx0 with
        | none =>
          rw [h3] at hr
          cases hr
        | some wx =>
          cases h4 : clampOnScreen dispHIGH h wy0 with
          | none =>
            rw [h3, h4] at hr
            cases hr
          | some wy =>
            rw [h3, h4] at hr
            simp only [Option.some.injEq] at hr
            rw [← hr]
            have a := clampOnScreen_spec hw h3
            have b := clampOnScreen_spec hh h4
            exact ⟨a.1, a.2, b.1, b.2⟩

theorem centerPos_total {pointer : Option (Int × Int)} {dispWIDE dispHIGH dx dy w h : Int}
    (hD : inRange29 dispWIDE) (hH : inRange29 dispHIGH) (hdx : inRange29 dx)
    (hdy : inRange29 dy) (hw : inRange29 w) (hh : inRange29 h)
    (hp : ∀ x y, pointer = some (x, y) → inRange29 x ∧ inRange29 y) :
    ∃ r, centerPos pointer dispWIDE dispHIGH dx dy w h = some r := by
  unfold centerPos
  cases pointer with
  | none =>
    simp only
    have h1 : subInt dispWIDE w = some (dispWIDE - w) := by
      unfold inRange29 at hD hw
      unfold subInt isInt
      rw [if_pos (by constructor <;> omega)]
    have h2 : subInt dispHIGH h = some (dispHIGH - h) := by
      unfold inRange29 at hH hh
      unfold subInt isInt
      rw [if_pos (by constructor <;> omega)]
    rw [h1, h2]
    exact ⟨_, rfl⟩
  | some p =>
    obtain ⟨x, y⟩ := p
    obtain ⟨hx, hy⟩ := hp x y rfl
    simp only
    have h1 : subInt x dx = some (x - dx) := by
      unfold inRange29 at hx hdx
      unfold subInt isInt
      rw [if_pos (by constructor <;> omega)]
    have h2 : subInt y dy = some (y - dy) := by
      unfold inRange29 at hy hdy
      unfold subInt isInt
      rw [if_pos (by constructor <;> omega)]
    rw [h1, h2]
    simp only
    obtain ⟨a, ha⟩ := clampOnScreen_total dispWIDE w (x - dx) hD hw (by
      unfold inRange29 at hx hdx
      constructor <;> omega)
    obtain ⟨b, hb⟩ := clampOnScreen_total dispHIGH h (y - dy) hH hh (by
      unfold inRange29 at hy hdy
      constructor <;> omega)
    rw [ha, hb]
    exact ⟨_, rfl⟩

/-- C15: `CenterMapFlexWindow` places the window fully on the screen: for every pointer
position, every offset, both when the pointer query succeeds and when it fails, and every
window size with `w <= dispWIDE` and `h <= dispHIGH`, the position it computes (and passes
to `XMoveWindow` and into the hints) satisfies `0 <= wx`, `wx + w <= dispWIDE`, `0 <= wy`
and `wy + h <= dispHIGH`; the same holds for `CenterMapWindow`; and a position is computed
whenever no `int` operation overflows, which is so for values of magnitude up to `2^29`. -/
theorem CenterMapFlexWindow_on_screen (pointer : Option (Int × Int))
    (dispWIDE dispHIGH : Int) (hints0 : XSizeHints) (dx dy w h keepsize : Int)
    (hw : w ≤ dispWIDE) (hh : h ≤ dispHIGH) :
    (∀ r, CenterMapFlexWindow pointer dispWIDE dispHIGH hints0 dx dy w h keepsize = some r →
      (0 ≤ r.wx ∧ r.wx + w ≤ dispWIDE ∧ 0 ≤ r.wy ∧ r.wy + h ≤ dispHIGH) ∧
      r.hints.x = r.wx ∧ r.hints.y = r.wy ∧ r.hints.width = w ∧ r.hints.height = h) ∧
    (∀ r, CenterMapWindow pointer dispWIDE dispHIGH hints0 dx dy w h = some r →
      0 ≤ r.wx ∧ r.wx + w ≤ dispWIDE ∧ 0 ≤ r.wy ∧ r.wy + h ≤ dispHIGH) ∧
    (inRange29 dispWIDE → inRange29 dispHIGH → inRange29 dx → inRange29 dy → inRange29 w →
      inRange29 h → (∀ x y, pointer = some (x, y) → inRange29 x ∧ inRange29 y) →
      ∃ r, CenterMapFlexWindow pointer dispWIDE dispHIGH hints0 dx dy w h keepsize = some r) := by
  have key : ∀ k r, CenterMapFlexWindow pointer dispWIDE dispHIGH hints0 dx dy w h k = some r →
      (0 ≤ r.wx ∧ r.wx + w ≤ dispWIDE ∧ 0 ≤ r.wy ∧ r.wy + h ≤ dispHIGH) ∧
      r.hints.x = r.wx ∧ r.hints.y = r.wy ∧ r.hints.width = w ∧ r.hints.height = h := by
    intro k r hr
    unfold CenterMapFlexWindow at hr
    cases hc : centerPos pointer dispWIDE dispHIGH dx dy w h with
    | none =>
      rw [hc] at hr
      cases hr
    | some p =>
      obtain ⟨wx, wy⟩ := p
      rw [hc] at hr
      simp only [Option.some.injEq] at hr
      have hp := centerPos_spec hw hh hc
      rw [← hr]
      refine ⟨hp, ?_⟩
      by_cases hk : k ≠ 0
      · rw [if_pos hk]
        exact ⟨rfl, rfl, rfl, rfl⟩
      · rw [if_neg hk]
        exact ⟨rfl, rfl, rfl, rfl⟩
  refine ⟨key keepsize, fun r hr => (key 1 r hr).1, ?_⟩
  intro hD hH hdx hdy hw2 hh2 hp
  obtain ⟨p, hp2⟩ := centerPos_total hD hH hdx hdy hw2 hh2 hp
  unfold CenterMapFlexWindow
  rw [hp2]
  exact ⟨_, rfl⟩

/-- A witness of C15: a 480-by-170 window on a 1024-by-768 screen, mapped with the offset
(430, 150) while the pointer is at (1000, 20): the position is (544, 0). -/
theorem CenterMapFlexWindow_on_screen_witness :
    ∃ r, CenterMapFlexWindow (some (1000, 20)) 1024 768 noHints 430 150 480 170 1 = some r ∧
      (0 ≤ r.wx ∧ r.wx + 480 ≤ 1024 ∧ 0 ≤ r.wy ∧ r.wy + 170 ≤ 768) ∧ r.wx = 544 ∧ r.wy = 0 := by
  have h := CenterMapFlexWindow_on_screen (some (1000, 20)) 1024 768 noHints 430 150 480 170 1
    (by decide) (by decide)
  refine ⟨_, rfl, (h.1 _ rfl).1, ?_, ?_⟩ <;> decide

/-! ## The "Save JPEG 2000" dialog: the area of a coding block -/

theorem setAt_same {α : Type} (a : Nat → α) (i : Nat) (v : α) : setAt a i v i = v := by
  unfold setAt
  rw [if_pos rfl]

theorem setAt_other {α : Type} (a : Nat → α) {i k : Nat} (v : α) (h : k ≠ i) :
    setAt a i v k = a k := by
  unfold setAt
  rw [if_neg h]

theorem cblkSize_nat (a : Nat) : cblkSize (a : Int) = CBoxList.getD a 0 := by
  unfold cblkSize
  rw [if_neg (by omega), Int.toNat_ofNat]

/-- Entry `a` of `CBoxList` is `2^(a+1)`. -/
theorem CBoxList_pow (a : Nat) (ha : a < CBoxList.length) : CBoxList.getD a 0 = 2 ^ (a + 1) := by
  have ha2 : a < 11 := ha
  interval_cases a <;> rfl

/-- Two entries of `CBoxList` have a product of at most 4096 exactly when their indices add
up to at most 10. -/
theorem cblk_product_le (a b : Nat) (ha : a < CBoxList.length) (hb : b < CBoxList.length) :
    CBoxList.getD a 0 * CBoxList.getD b 0 ≤ 4096 ↔ a + b ≤ 10 := by
  rw [CBoxList_pow a ha, CBoxList_pow b hb, ← pow_add]
  have h4096 : (4096 : Nat) = 2 ^ 12 := by norm_num
  rw [h4096, Nat.pow_le_pow_iff_right (by norm_num)]
  omega

theorem cboxAt_which {env : JEnv} (hlib : menuLibOK env) {m : MBUTT} {a : Nat}
    (h : cboxAt m a) : env.MBWhich m = a := by
  obtain ⟨h1, h2, h3, h4⟩ := h
  exact hlib.2.1 m a h1 h3 (by rw [h2]; exact_mod_cast h4)

theorem cboxAt_select {env : JEnv} (hlib : menuLibOK env) {m : MBUTT} {a : Nat}
    (h : cboxAt m a) (n : Nat) (hn : n < CBoxList.length) :
    env.MBSelect m (n : Int) = { m with flags := sole n } ∧
      cboxAt (env.MBSelect m (n : Int)) n := by
  obtain ⟨h1, h2, h3, h4⟩ := h
  have hs := hlib.2.2 m a (n : Int) h1 h3 (by omega) (by rw [h2]; exact_mod_cast hn)
  rw [Int.toNat_ofNat] at hs
  refine ⟨hs, ?_⟩
  rw [hs]
  exact ⟨h1, h2, rfl, hn⟩

theorem cboxAt_select_same {env : JEnv} (hlib : menuLibOK env) {m : MBUTT} {a : Nat}
    (h : cboxAt m a) : env.MBSelect m (a : Int) = m := by
  rw [(cboxAt_select hlib h a h.2.2.2).1]
  obtain ⟨_, _, h3, _⟩ := h
  cases m with
  | mk hc nl fl =>
    simp only at h3
    rw [h3]

/-- The invariant only looks at the two coding-block menus. -/
theorem cblkInv_of_menu {env : JEnv} {s s2 : JP2KState} (h0 : s2.menu 0 = s.menu 0)
    (h1 : s2.menu 1 = s.menu 1) (h : cblkInv env s) : cblkInv env s2 := by
  unfold cblkInv at *
  rw [h0, h1]
  exact h

theorem cblkInv_intro {env : JEnv} (hlib : menuLibOK env) {s : JP2KState} {a b : Nat}
    (ha : cboxAt (s.menu 0) a) (hb : cboxAt (s.menu 1) b) (hsum : a + b ≤ 10) :
    cblkInv env s := by
  refine ⟨a, b, ha, hb, ?_⟩
  rw [cboxAt_which hlib ha, cboxAt_which hlib hb, cblkSize_nat, cblkSize_nat]
  exact (cblk_product_le a b ha.2.2.2 hb.2.2.2).mpr hsum

theorem cblkInv_elim {env : JEnv} (hlib : menuLibOK env) {s : JP2KState}
    (h : cblkInv env s) :
    ∃ a b : Nat, cboxAt (s.menu 0) a ∧ cboxAt (s.menu 1) b ∧ a + b ≤ 10 := by
  obtain ⟨a, b, ha, hb, hp⟩ := h
  refine ⟨a, b, ha, hb, ?_⟩
  rw [cboxAt_which hlib ha, cboxAt_which hlib hb, cblkSize_nat, cblkSize_nat] at hp
  exact (cblk_product_le a b ha.2.2.2 hb.2.2.2).mp hp

theorem limitOrthogonal_menu (env : JEnv) (s : JP2KState) (i j : Int) (h : i = 0 ∨ i = 1) :
    (limitOrthogonal env s i j).menu =
      (if env.MBWhich (s.menu (notIdx i)) + j ≥ 10 then
        setAt s.menu (notIdx i) (env.MBSelect (s.menu (notIdx i)) (10 - j))
       else s.menu) := by
  unfold limitOrthogonal
  have hi : i = J_MCBXH ∨ i = J_MCBXW := by
    unfold J_MCBXH J_MCBXW
    omega
  rw [if_pos hi]
  by_cases hge : env.MBWhich (s.menu (notIdx i)) + j ≥ 10
  · rw [if_pos hge, if_pos hge]
  · rw [if_neg hge, if_neg hge]

theorem limitOrthogonal_other (env : JEnv) (s : JP2KState) (i j : Int) (h : i ≠ 0 ∧ i ≠ 1) :
    limitOrthogonal env s i j = s := by
  unfold limitOrthogonal
  have hi : ¬ (i = J_MCBXH ∨ i = J_MCBXW) := by
    unfold J_MCBXH J_MCBXW
    omega
  rw [if_neg hi]

theorem menuChoice_menu (env : JEnv) (s : JP2KState) (i j : Int) (hj : 0 ≤ j) :
    (menuChoice env s i j).menu = setAt (limitOrthogonal env s i j).menu i.toNat
        (env.MBSelect ((limitOrthogonal env s i j).menu i.toNat) j) := by
  unfold menuChoice
  rw [if_pos hj]

/-- A choice `j` in the width menu: the width becomes `j`, the height becomes `10 - j` when
it was above that and stays otherwise. -/
theorem menuChoice_width {env : JEnv} (hlib : menuLibOK env) {s : JP2KState} {a b : Nat}
    (ha : cboxAt (s.menu 0) a) (hb : cboxAt (s.menu 1) b) (j : Nat)
    (hj : j < CBoxList.length) :
    cboxAt ((menuChoice env s 0 j).menu 0) j ∧
    cboxAt ((menuChoice env s 0 j).menu 1) (if b + j ≥ 10 then 10 - j else b) ∧
    (b + j ≤ 10 → (menuChoice env s 0 j).menu 1 = s.menu 1) := by
  have hj2 : j < 11 := hj
  have hn : notIdx 0 = 1 := rfl
  rw [menuChoice_menu env s 0 j (by omega), limitOrthogonal_menu env s 0 j (Or.inl rfl), hn,
    cboxAt_which hlib hb, Int.toNat_zero]
  by_cases hge : (b : Int) + (j : Int) ≥ 10
  · rw [if_pos hge, if_pos (by omega)]
    have h10 : (10 : Int) - (j : Int) = ((10 - j : Nat) : Int) := by omega
    rw [h10]
    have hsel := cboxAt_select hlib hb (10 - j) (by show 10 - j < 11; omega)
    refine ⟨?_, ?_, ?_⟩
    · rw [setAt_same, setAt_other _ _ (by decide)]
      exact (cboxAt_select hlib ha j hj).2
    · rw [setAt_other _ _ (by decide), setAt_same]
      exact hsel.2
    · intro hle
      rw [setAt_other _ _ (by decide), setAt_same]
      have hb10 : 10 - j = b := by omega
      rw [hb10]
      exact cboxAt_select_same hlib hb
  · rw [if_neg hge, if_neg (by omega)]
    refine ⟨?_, ?_, ?_⟩
    · rw [setAt_same]
      exact (cboxAt_select hlib ha j hj).2
    · rw [setAt_other _ _ (by decide)]
      exact hb
    · intro _
      rw [setAt_other _ _ (by decide)]

/-- A choice `j` in the height menu: the mirror image of `menuChoice_width`. -/
theorem menuChoice_height {env : JEnv} (hlib : menuLibOK env) {s : JP2KState} {a b : Nat}
    (ha : cboxAt (s.menu 0) a) (hb : cboxAt (s.menu 1) b) (j : Nat)
    (hj : j < CBoxList.length) :
    cboxAt ((menuChoice env s 1 j).menu 1) j ∧
    cboxAt ((menuChoice env s 1 j).menu 0) (if a + j ≥ 10 then 10 - j else a) ∧
    (a + j ≤ 10 → (menuChoice env s 1 j).menu 0 = s.menu 0) := by
  have hj2 : j < 11 := hj
  have hn : notIdx 1 = 0 := rfl
  have h1 : (1 : Int).toNat = 1 := rfl
  rw [menuChoice_menu env s 1 j (by omega), limitOrthogonal_menu env s 1 j (Or.inr rfl), hn,
    cboxAt_which hlib ha, h1]
  by_cases hge : (a : Int) + (j : Int) ≥ 10
  · rw [if_pos hge, if_pos (by omega)]
    have h10 : (10 : Int) - (j : Int) = ((10 - j : Nat) : Int) := by omega
    rw [h10]
    have hsel := cboxAt_select hlib ha (10 - j) (by show 10 - j < 11; omega)
    refine ⟨?_, ?_, ?_⟩
    · rw [setAt_same, setAt_other _ _ (by decide)]
      exact (cboxAt_select hlib hb j hj).2
    · rw [setAt_other _ _ (by decide), setAt_same]
      exact hsel.2
    · intro hle
      rw [setAt_other _ _ (by decide), setAt_same]
      have hb10 : 10 - j = a := by omega
      rw [hb10]
      exact cboxAt_select_same hlib ha
  · rw [if_neg hge, if_neg (by omega)]
    refine ⟨?_, ?_, ?_⟩
    · rw [setAt_same]
      exact (cboxAt_select hlib hb j hj).2
    · rw [setAt_other _ _ (by decide)]
      exact ha
    · intro _
      rw [setAt_other _ _ (by decide)]

theorem scanDown_lt (hit : Nat → Bool) : ∀ n : Nat, scanDown hit n < n ∧ -1 ≤ scanDown hit n := by
  intro n
  induction n with
  | zero =>
    simp [scanDown]
  | succ k ih =>
    rw [scanDown]
    by_cases h : hit k = true
    · rw [if_pos h]
      constructor <;> push_cast <;> omega
    · rw [if_neg h]
      constructor <;> push_cast <;> omega

/-- A choice in another menu, or no choice, leaves the two coding-block menus alone. -/
theorem menuChoice_other (env : JEnv) (s : JP2KState) (i j : Int) (hi : 2 ≤ i) :
    (menuChoice env s i j).menu 0 = s.menu 0 ∧ (menuChoice env s i j).menu 1 = s.menu 1 := by
  by_cases hj : 0 ≤ j
  · rw [menuChoice_menu env s i j hj, limitOrthogonal_other env s i j (by omega)]
    exact ⟨setAt_other _ _ (by omega), setAt_other _ _ (by omega)⟩
  · unfold menuChoice
    rw [if_neg (by omega)]
    exact ⟨rfl, rfl⟩

/-- The coding-block invariant survives every menu choice. -/
theorem menuChoice_inv {env : JEnv} (hlib : menuLibOK env) {s : JP2KState} (i j : Int)
    (hi : 0 ≤ i) (hj : (i = 0 ∨ i = 1) → j < CBoxList.length) (h : cblkInv env s) :
    cblkInv env (menuChoice env s i j) := by
  by_cases hj0 : 0 ≤ j
  · by_cases h2 : 2 ≤ i
    · obtain ⟨e0, e1⟩ := menuChoice_other env s i j h2
      exact cblkInv_of_menu e0 e1 h
    · obtain ⟨a, b, ha, hb, hsum⟩ := cblkInv_elim hlib h
      have hjn : j = ((j.toNat : Nat) : Int) := by omega
      have hlt : j.toNat < CBoxList.length := by
        have := hj (by omega)
        omega
      have ha11 : a < 11 := ha.2.2.2
      have hb11 : b < 11 := hb.2.2.2
      have hj11 : j.toNat < 11 := hlt
      rcases (by omega : i = 0 ∨ i = 1) with h0 | h1
      · subst h0
        rw [hjn]
        obtain ⟨c0, c1, _⟩ := menuChoice_width hlib ha hb j.toNat hlt
        refine cblkInv_intro hlib c0 c1 ?_
        split_ifs <;> omega
      · subst h1
        rw [hjn]
        obtain ⟨c1, c0, _⟩ := menuChoice_height hlib ha hb j.toNat hlt
        refine cblkInv_intro hlib c0 c1 ?_
        split_ifs <;> omega
  · unfold menuChoice
    rw [if_neg (by omega)]
    exact h

theorem okButton_menu {env : JEnv} {s : JP2KState} {xev : JEvent} {r : Int × JP2KState}
    (h : okButton env s xev = some r) : r.2.menu = s.menu := by
  unfold okButton at h
  by_cases h1 : (toUnsigned (s.textval J_TGBIT) - 1) % 2 ^ 32 > 7
  · rw [if_pos h1] at h
    simp only [Option.some.injEq] at h
    rw [← h]
  rw [if_neg h1] at h
  by_cases h2 : toUnsigned (s.textval J_TRES) ≤ 0
  · rw [if_pos h2] at h
    simp only [Option.some.injEq] at h
    rw [← h]
  rw [if_neg h2] at h
  cases hb : buildOptions env s xev with
  | none =>
    rw [hb] at h
    cases h
  | some o =>
    rw [hb] at h
    simp only [Option.some.injEq] at h
    rw [← h]
    rfl

/-- What an event can do to the menus: nothing, or the choice in the menu that was
clicked. -/
theorem JP2KCheckEvent_menu {env : JEnv} {s : JP2KState} {xev : JEvent} {r : Int × JP2KState}
    (h : JP2KCheckEvent env s xev = some r) :
    r.2.menu = s.menu ∨
      (0 ≤ scanDown xev.mbClick J_NMENU ∧
        r.2 = menuChoice env s (scanDown xev.mbClick J_NMENU) xev.mbTrack) := by
  unfold JP2KCheckEvent at h
  by_cases hup : s.jp2kUp = 0
  · rw [if_pos hup] at h
    simp only [Option.some.injEq] at h
    rw [← h]
    exact Or.inl rfl
  rw [if_neg hup] at h
  cases ht : xev.type with
  | Expose =>
    rw [ht] at h
    simp only [Option.some.injEq] at h
    rw [← h]
    exact Or.inl rfl
  | KeyPress =>
    rw [ht] at h
    simp only at h
    unfold jKeyPress at h
    by_cases h1 : xev.lookupLen < 0 ∨ xev.lookupLen ≥ 128
    · rw [if_pos h1] at h
      cases h
    rw [if_neg h1] at h
    by_cases h2 : xev.window = s.jp2kW
    · rw [if_pos h2] at h
      simp only [Option.some.injEq] at h
      rw [← h]
      exact Or.inl rfl
    rw [if_neg h2] at h
    by_cases h3 : scanDown (fun k => decide (xev.window = s.text k)) J_NTEXT ≥ 0
    · rw [if_pos h3] at h
      simp only [Option.some.injEq] at h
      rw [← h]
      exact Or.inl rfl
    · rw [if_neg h3] at h
      simp only [Option.some.injEq] at h
      rw [← h]
      exact Or.inl rfl
  | ButtonPress =>
    rw [ht] at h
    simp only at h
    unfold jButtonPress at h
    by_cases h1 : xev.button = Button1 ∧ xev.window = s.jp2kW
    · rw [if_pos h1] at h
      by_cases h2 : buttonHit env s xev ≥ 0
      · rw [if_pos h2] at h
        by_cases h3 : xev.btTrack = false
        · rw [if_pos h3] at h
          simp only [Option.some.injEq] at h
          rw [← h]
          exact Or.inl rfl
        rw [if_neg h3] at h
        by_cases h4 : buttonHit env s xev ≠ J_BOK
        · rw [if_pos h4] at h
          simp only [Option.some.injEq] at h
          rw [← h]
          exact Or.inl rfl
        · rw [if_neg h4] at h
          exact Or.inl (okButton_menu h)
      rw [if_neg h2] at h
      by_cases h5 : scanDown xev.cbClick J_NCHKB ≥ 0
      · rw [if_pos h5] at h
        simp only [Option.some.injEq] at h
        rw [← h]
        exact Or.inl rfl
      rw [if_neg h5] at h
      by_cases h6 : scanDown xev.mbClick J_NMENU ≥ 0
      · rw [if_pos h6] at h
        simp only [Option.some.injEq] at h
        rw [← h]
        exact Or.inr ⟨h6, rfl⟩
      · rw [if_neg h6] at h
        simp only [Option.some.injEq] at h
        rw [← h]
        exact Or.inl rfl
    · rw [if_neg h1] at h
      simp only [Option.some.injEq] at h
      rw [← h]
      exact Or.inl rfl
  | ClientMessage =>
    rw [ht] at h
    simp only [Option.some.injEq] at h
    rw [← h]
    exact Or.inl rfl
  | Other =>
    rw [ht] at h
    simp only [Option.some.injEq] at h
    rw [← h]
    exact Or.inl rfl

/-- Every event keeps the coding-block invariant. -/
theorem JP2KCheckEvent_inv {env : JEnv} (hlib : menuLibOK env) {s : JP2KState} {xev : JEvent}
    {r : Int × JP2KState} (hinv : cblkInv env s) (ht : trackOK xev)
    (h : JP2KCheckEvent env s xev = some r) : cblkInv env r.2 := by
  rcases JP2KCheckEvent_menu h with hm | ⟨h0, hm⟩
  · exact cblkInv_of_menu (by rw [hm]) (by rw [hm]) hinv
  · rw [hm]
    exact menuChoice_inv hlib _ _ h0 ht hinv

theorem runEvents_inv {env : JEnv} (hlib : menuLibOK env) :
    ∀ (evs : List JEvent) (s sN : JP2KState), cblkInv env s → (∀ xev, xev ∈ evs → trackOK xev) →
      runEvents env s evs = some sN → cblkInv env sN := by
  intro evs
  induction evs with
  | nil =>
    intro s sN hinv _ h
    simp only [runEvents, Option.some.injEq] at h
    rw [← h]
    exact hinv
  | cons xev rest ih =>
    intro s sN hinv ht h
    rw [runEvents] at h
    cases hr : JP2KCheckEvent env s xev with
    | none =>
      rw [hr] at h
      cases h
    | some r =>
      rw [hr] at h
      exact ih r.2 sN (JP2KCheckEvent_inv hlib hinv (ht xev (List.mem_cons_self _ _)) hr)
        (fun e he => ht e (List.mem_cons_of_mem _ he)) h

/-- The defaults `CreateJP2KW` sets: entry 5 (64) in both coding-block menus. -/
theorem CreateJP2KW_cbox {env : JEnv} (hlib : menuLibOK env) {s s0 : JP2KState}
    (h : CreateJP2KW env s = some s0) : cboxAt (s0.menu 0) 5 ∧ cboxAt (s0.menu 1) 5 := by
  unfold CreateJP2KW at h
  split_ifs at h
  simp only [Option.some.injEq] at h
  rw [← h]
  simp only
  obtain ⟨hn, hf⟩ := hlib.1 (CBoxList.length : Int)
  have hc : cboxAt (setCheck (env.MBCreate (CBoxList.length : Int)) 5) 5 := by
    refine ⟨by simp [setCheck], ?_, ?_, by decide⟩
    · simp only [setCheck]
      exact hn
    · simp only [setCheck]
      rw [hf]
      rfl
  constructor
  · rw [setAt_other _ _ (by decide), setAt_other _ _ (by decide), setAt_other _ _ (by decide),
      setAt_other _ _ (by decide), setAt_same]
    exact hc
  · rw [setAt_other _ _ (by decide), setAt_other _ _ (by decide), setAt_other _ _ (by decide),
      setAt_same]
    exact hc

theorem CBoxList_le (k m : Nat) (hk : k < CBoxList.length) (hm : m < CBoxList.length) :
    CBoxList.getD k 0 ≤ CBoxList.getD m 0 ↔ k ≤ m := by
  rw [CBoxList_pow k hk, CBoxList_pow m hm, Nat.pow_le_pow_iff_right (by norm_num)]
  omega

/-- The arithmetic of a choice `j` against an orthogonal entry `b` that becomes `nb`. -/
theorem cblk_choice_arith (b j nb : Nat) (hb : b < CBoxList.length) (hj : j < CBoxList.length)
    (hnb : nb = if b + j ≥ 10 then 10 - j else b) :
    cblkSize (j : Int) * cblkSize (nb : Int) ≤ 4096 ∧
    (cblkSize (j : Int) * cblkSize (b : Int) ≤ 4096 → b + j ≤ 10) ∧
    (cblkSize (j : Int) * cblkSize (b : Int) > 4096 →
      ∀ k : Nat, k < CBoxList.length →
        (cblkSize (j : Int) * cblkSize (k : Int) ≤ 4096 ↔
          cblkSize (k : Int) ≤ cblkSize (nb : Int))) := by
  have hb2 : b < 11 := hb
  have hj2 : j < 11 := hj
  have hnb2 : nb < CBoxList.length := by
    show nb < 11
    rw [hnb]
    split_ifs <;> omega
  simp only [cblkSize_nat]
  refine ⟨?_, ?_, ?_⟩
  · rw [cblk_product_le j nb hj hnb2, hnb]
    split_ifs <;> omega
  · intro h
    rw [cblk_product_le j b hj hb] at h
    omega
  · intro h k hk
    have hgt : ¬ (j + b ≤ 10) := by
      intro hle
      exact absurd ((cblk_product_le j b hj hb).mpr hle) (by omega)
    rw [cblk_product_le j k hj hk, CBoxList_le k nb hk hnb2, hnb, if_pos (by omega)]
    omega

/-- C16: code-block area invariant of the JPEG 2000 dialog, for menu functions that keep
their contract (`menuLibOK`).  Entry `i` of a coding-block menu stands for `2^(i+1)`.
`CreateJP2KW` selects 64 by 64; every event, and so every sequence of events handled after
`CreateJP2KW`, leaves the product of the two selected sizes at most 4096; a choice `j` in
the width (`i = 0`) or height (`i = 1`) menu selects `j` there, leaves the orthogonal menu
as it is when the product with its entry is at most 4096, and otherwise selects in it the
largest size whose product with the new one is at most 4096. -/
theorem cblk_area_invariant (env : JEnv) (hlib : menuLibOK env) :
    (∀ i : Nat, i < CBoxList.length → cblkSize (i : Int) = 2 ^ (i + 1)) ∧
    (∀ s s0, CreateJP2KW env s = some s0 →
      cblkInv env s0 ∧ env.MBWhich (s0.menu 0) = 5 ∧ env.MBWhich (s0.menu 1) = 5) ∧
    (∀ s xev r, cblkInv env s → trackOK xev → JP2KCheckEvent env s xev = some r →
      cblkSize (env.MBWhich (r.2.menu 0)) * cblkSize (env.MBWhich (r.2.menu 1)) ≤ 4096) ∧
    (∀ s s0 evs sN, CreateJP2KW env s = some s0 → (∀ xev, xev ∈ evs → trackOK xev) →
      runEvents env (JP2KDialog s0 1) evs = some sN →
      cblkSize (env.MBWhich (sN.menu 0)) * cblkSize (env.MBWhich (sN.menu 1)) ≤ 4096) ∧
    (∀ s xev (i j : Nat), s.jp2kUp ≠ 0 → cblkInv env s → cblkChosen env s xev i j →
      ∃ s2, JP2KCheckEvent env s xev = some (1, s2) ∧
        env.MBWhich (s2.menu i) = j ∧
        cblkSize (j : Int) * cblkSize (env.MBWhich (s2.menu (1 - i))) ≤ 4096 ∧
        (cblkSize (j : Int) * cblkSize (env.MBWhich (s.menu (1 - i))) ≤ 4096 →
          s2.menu (1 - i) = s.menu (1 - i)) ∧
        (cblkSize (j : Int) * cblkSize (env.MBWhich (s.menu (1 - i))) > 4096 →
          ∀ k : Nat, k < CBoxList.length →
            (cblkSize (j : Int) * cblkSize (k : Int) ≤ 4096 ↔
              cblkSize (k : Int) ≤ cblkSize (env.MBWhich (s2.menu (1 - i)))))) := by
  refine ⟨?_, ?_, ?_, ?_, ?_⟩
  · intro i hi
    rw [cblkSize_nat, CBoxList_pow i hi]
  · intro s s0 h
    obtain ⟨c0, c1⟩ := CreateJP2KW_cbox hlib h
    exact ⟨cblkInv_intro hlib c0 c1 (by decide), cboxAt_which hlib c0, cboxAt_which hlib c1⟩
  · intro s xev r hinv ht h
    obtain ⟨a, b, _, _, hp⟩ := JP2KCheckEvent_inv hlib hinv ht h
    exact hp
  · intro s s0 evs sN hc ht hr
    obtain ⟨c0, c1⟩ := CreateJP2KW_cbox hlib hc
    have h0 : cblkInv env (JP2KDialog s0 1) :=
      cblkInv_of_menu rfl rfl (cblkInv_intro hlib c0 c1 (by decide))
    obtain ⟨a, b, _, _, hp⟩ := runEvents_inv hlib evs _ sN h0 ht hr
    exact hp
  · intro s xev i j hup hinv hch
    obtain ⟨h1, h2, h3, h4, h5, h6, h7, h8, h9⟩ := hch
    obtain ⟨a, b, ha, hb, hsum⟩ := cblkInv_elim hlib hinv
    have hev : JP2KCheckEvent env s xev = some (1, menuChoice env s (i : Int) (j : Int)) := by
      unfold JP2KCheckEvent
      rw [if_neg hup, h1]
      simp only
      unfold jButtonPress
      rw [if_pos ⟨h2, h3⟩, if_neg (by omega), if_neg (by omega), h6, if_pos (by omega), h8]
    refine ⟨_, hev, ?_⟩
    have hi2 : i = 0 ∨ i = 1 := by omega
    rcases hi2 with hi | hi
    · subst hi
      obtain ⟨c0, c1, c2⟩ := menuChoice_width hlib ha hb j h9
      have har := cblk_choice_arith b j _ hb.2.2.2 h9 rfl
      simp only [Nat.cast_zero, Nat.sub_zero]
      rw [cboxAt_which hlib c0, cboxAt_which hlib c1, cboxAt_which hlib hb]
      exact ⟨rfl, har.1, fun hle => c2 (by have := har.2.1 hle; omega), har.2.2⟩
    · subst hi
      obtain ⟨c1, c0, c2⟩ := menuChoice_height hlib ha hb j h9
      have har := cblk_choice_arith a j _ ha.2.2.2 h9 rfl
      simp only [Nat.cast_one, Nat.sub_self]
      rw [cboxAt_which hlib c1, cboxAt_which hlib c0, cboxAt_which hlib ha]
      exact ⟨rfl, har.1, fun hle => c2 (by have := har.2.1 hle; omega), har.2.2⟩

/-! ### The sample menu functions keep the contract -/

theorem firstFlag_sole (i : Nat) : ∀ (k start : Nat), start ≤ i → i < start + k →
    firstFlag (sole i) k start = i := by
  intro k
  induction k with
  | zero =>
    intro start h1 h2
    omega
  | succ k ih =>
    intro start h1 h2
    rw [firstFlag]
    by_cases he : start = i
    · subst he
      rw [if_pos (by simp [sole])]
    · rw [if_neg (by simp [sole, he])]
      exact ih (start + 1) (by omega) (by omega)

theorem demoJEnv_menuLibOK : menuLibOK demoJEnv := by
  refine ⟨fun n => ⟨rfl, rfl⟩, ?_, ?_⟩
  · intro m i hc hf hi
    show stdMBWhich m = i
    unfold stdMBWhich
    rw [if_neg hc, hf]
    exact firstFlag_sole i _ 0 (Nat.zero_le _) (by omega)
  · intro m i n hc hf h0 hn
    show stdMBSelect m n = _
    unfold stdMBSelect
    rw [if_neg (by omega), if_neg hc]
    by_cases hfl : m.flags n.toNat ≠ 0
    · rw [if_pos hfl]
      have hni : n.toNat = i := by
        rw [hf] at hfl
        unfold sole at hfl
        by_contra hne
        rw [if_neg hne] at hfl
        exact hfl rfl
      rw [hni, ← hf]
    · rw [if_neg hfl]

/-- A witness of C16 with the sample menu functions: from the defaults 64 by 64, the choice
of entry 10 (2048) in the width menu followed by the choice of entry 7 (256) in the height
menu is handled, and the product of the two sizes is at most 4096 afterwards. -/
theorem cblk_area_invariant_witness :
    (demoJEnv.MBWhich (demoDialog.menu 0) = 5 ∧ demoJEnv.MBWhich (demoDialog.menu 1) = 5) ∧
    ∃ sN, runEvents demoJEnv demoDialog [jMenuPick 0 10, jMenuPick 1 7] = some sN ∧
      cblkSize (demoJEnv.MBWhich (sN.menu 0)) * cblkSize (demoJEnv.MBWhich (sN.menu 1)) ≤ 4096 := by
  have h := cblk_area_invariant demoJEnv demoJEnv_menuLibOK
  refine ⟨(h.2.1 jp2kInit _ rfl).2, ?_⟩
  have hsome : (runEvents demoJEnv demoDialog [jMenuPick 0 10, jMenuPick 1 7]).isSome = true := by
    decide
  obtain ⟨sN, hs⟩ := Option.isSome_iff_exists.mp hsome
  refine ⟨sN, hs, h.2.2.2.1 jp2kInit _ [jMenuPick 0 10, jMenuPick 1 7] sN rfl ?_ hs⟩
  intro xev hx
  simp only [List.mem_cons, List.mem_singleton, List.not_mem_nil, or_false] at hx
  rcases hx with hx | hx
  all_goals subst hx
  all_goals intro _
  all_goals decide

/-! ## The "Save JPEG 2000" dialog: the checks of the Ok button -/

/-- The check `(unsigned)textval[J_TGBIT] - 1 > 7` fails exactly for the values 1 .. 8. -/
theorem gbit_check (g : Int) (hg : isInt g) :
    (toUnsigned g - 1) % 2 ^ 32 > 7 ↔ ¬ (1 ≤ g ∧ g ≤ 8) := by
  unfold toUnsigned
  unfold isInt at hg
  constructor
  · intro h hr
    have h1 : g % 2 ^ 32 = g := Int.emod_eq_of_lt (by omega) (by omega)
    rw [h1] at h
    have h2 : (g - 1) % 2 ^ 32 = g - 1 := Int.emod_eq_of_lt (by omega) (by omega)
    rw [h2] at h
    omega
  · intro h
    by_cases h0 : 0 ≤ g
    · have h1 : g % 2 ^ 32 = g := Int.emod_eq_of_lt h0 (by omega)
      rw [h1]
      by_cases hz : g = 0
      · subst hz
        decide
      · have h2 : (g - 1) % 2 ^ 32 = g - 1 := Int.emod_eq_of_lt (by omega) (by omega)
        rw [h2]
        omega
    · have h1 : g % 2 ^ 32 = g + 2 ^ 32 := by
        rw [← Int.add_emod_self]
        exact Int.emod_eq_of_lt (by omega) (by omega)
      rw [h1]
      have h2 : (g + 2 ^ 32 - 1) % 2 ^ 32 = g + 2 ^ 32 - 1 :=
        Int.emod_eq_of_lt (by omega) (by omega)
      rw [h2]
      omega

theorem toUnsigned_nonneg (x : Int) : 0 ≤ toUnsigned x := by
  unfold toUnsigned
  exact Int.emod_nonneg x (by norm_num)

/-- A press of the Ok button is handled by `okButton`. -/
theorem JP2KCheckEvent_ok {env : JEnv} {s : JP2KState} {xev : JEvent} (hup : s.jp2kUp ≠ 0)
    (hok : okPressed env s xev) : JP2KCheckEvent env s xev = okButton env s xev := by
  obtain ⟨h1, h2, h3, h4, h5⟩ := hok
  unfold JP2KCheckEvent
  rw [if_neg hup, h1]
  simp only
  unfold jButtonPress
  rw [if_pos ⟨h2, h3⟩, if_pos (by rw [h4]; decide), if_neg (by rw [h5]; decide),
    if_neg (by rw [h4]; exact fun hne => hne rfl)]

/-- C17: pressing Ok in the JPEG 2000 dialog invokes `StoreJP2K` only if the guard-bits
value is in 1 .. 8 and the resolution-levels value, read as the unsigned number displayed,
is at least 1; for every other value of either field the event is answered with 1 and
only `CloseAlert` has touched the state: no file is written, no option string is built,
and `jp2kUp` is unchanged; for values that pass, `StoreJP2K` is called with the option
string built and the dialog is closed. -/
theorem JP2K_ok_checks (env : JEnv) (s : JP2KState) (xev : JEvent) (hup : s.jp2kUp ≠ 0)
    (hok : okPressed env s xev) (hg : isInt (s.textval J_TGBIT)) :
    (∀ r, JP2KCheckEvent env s xev = some r → r.2.stored ≠ s.stored →
      (1 ≤ s.textval J_TGBIT ∧ s.textval J_TGBIT ≤ 8) ∧ 1 ≤ toUnsigned (s.textval J_TRES)) ∧
    (¬ (1 ≤ s.textval J_TGBIT ∧ s.textval J_TGBIT ≤ 8) ∨ ¬ (1 ≤ toUnsigned (s.textval J_TRES)) →
      JP2KCheckEvent env s xev = some (1, { s with pop := CloseAlert s.pop }) ∧
      ∀ r, JP2KCheckEvent env s xev = some r → r.2.stored = s.stored ∧ r.2.jp2kUp = s.jp2kUp) ∧
    ((1 ≤ s.textval J_TGBIT ∧ s.textval J_TGBIT ≤ 8) → 1 ≤ toUnsigned (s.textval J_TRES) →
      ∀ options, buildOptions env s xev = some options →
        JP2KCheckEvent env s xev = some (1, JP2KDialog (callStoreJP2K s options) 0)) := by
  rw [JP2KCheckEvent_ok hup hok]
  have hbad : ¬ (1 ≤ s.textval J_TGBIT ∧ s.textval J_TGBIT ≤ 8) ∨
      ¬ (1 ≤ toUnsigned (s.textval J_TRES)) →
      okButton env s xev = some (1, { s with pop := CloseAlert s.pop }) := by
    intro h
    unfold okButton
    by_cases h1 : (toUnsigned (s.textval J_TGBIT) - 1) % 2 ^ 32 > 7
    · rw [if_pos h1]
    · rw [if_neg h1]
      have hgood : 1 ≤ s.textval J_TGBIT ∧ s.textval J_TGBIT ≤ 8 := by
        by_contra hc
        exact h1 ((gbit_check _ hg).mpr hc)
      rcases h with h | h
      · exact absurd hgood h
      · rw [if_pos (by omega)]
  refine ⟨?_, ?_, ?_⟩
  · intro r hr hst
    by_contra hc
    have hb := hbad (by
      by_cases hgb : 1 ≤ s.textval J_TGBIT ∧ s.textval J_TGBIT ≤ 8
      · exact Or.inr (fun hres => hc ⟨hgb, hres⟩)
      · exact Or.inl hgb)
    rw [hb] at hr
    simp only [Option.some.injEq] at hr
    rw [← hr] at hst
    exact hst rfl
  · intro h
    refine ⟨hbad h, ?_⟩
    intro r hr
    rw [hbad h] at hr
    simp only [Option.some.injEq] at hr
    rw [← hr]
    exact ⟨rfl, rfl⟩
  · intro hgb hres options hopt
    unfold okButton
    rw [if_neg (by rw [gbit_check _ hg]; exact fun hn => hn hgb), if_neg (by omega), hopt]

/-- A witness of C17: with the defaults (2 guard bits, 6 resolution levels) a press of Ok
at (160, 375) calls `StoreJP2K` with the empty option string and closes the dialog; with 0
resolution levels the same press leaves the dialog open and stores nothing. -/
theorem JP2K_ok_checks_witness :
    JP2KCheckEvent demoJEnv demoDialog (jClick 160 375) =
      some (1, JP2KDialog (callStoreJP2K demoDialog []) 0) ∧
    JP2KCheckEvent demoJEnv demoNoRes (jClick 160 375) =
      some (1, { demoNoRes with pop := CloseAlert demoNoRes.pop }) :=
  ⟨(JP2K_ok_checks demoJEnv demoDialog (jClick 160 375) (by decide)
      ⟨rfl, rfl, rfl, by decide, rfl⟩ (by decide)).2.2 (by decide) (by decide) [] (by decide),
   ((JP2K_ok_checks demoJEnv demoNoRes (jClick 160 375) (by decide)
      ⟨rfl, rfl, rfl, by decide, rfl⟩ (by decide)).2.1 (Or.inr (by decide))).1⟩

end XV
